import Mathlib

/-!
# Backup export / restore pipeline of the marketplace backend

A shallow embedding of `backend/server.js`, handlers `GET /api/backup/all`
and `POST /api/backup/restore`, together with the properties of the
specification that concern them.

The handlers are embedded as pure functions over an explicit run state: the
visible contents of the four tables, the working copy of the open transaction,
the temporary upload on disk, and the list of effects issued so far.  Calls
into collaborators that can fail (file system, ORM, transaction) take their
outcome from a `Faults` plan that is an input of the run.
-/

namespace Backup

/-! ## JavaScript values obtained from `JSON.parse` -/

/-- A value produced by `JSON.parse`.  An object is the list of its own
properties (a key occurs at most once in a parsed value).  Numbers are
rationals: the handlers only test a number for being zero or positive. -/
inductive JVal where
  | null : JVal
  | bool (b : Bool) : JVal
  | num (q : ℚ) : JVal
  | str (s : String) : JVal
  | arr (items : List JVal) : JVal
  | obj (props : List (String × JVal)) : JVal

/-- A JavaScript value as seen by the handler: `none` is `undefined`. -/
abbrev JsValue := Option JVal

/-- Result of the `typeof` operator, restricted to what `JSON.parse` yields. -/
inductive TypeTag where
  | object
  | boolean
  | number
  | string
  deriving DecidableEq, Repr

/-- The operator `typeof v`; `typeof null` is `'object'`, like arrays. -/
def typeof : JVal → TypeTag
  | .null => .object
  | .bool _ => .boolean
  | .num _ => .number
  | .str _ => .string
  | .arr _ => .object
  | .obj _ => .object

/-- Truthiness of a parsed value, as used by `!v` and `v && ...`. -/
def JVal.truthy : JVal → Bool
  | .null => false
  | .bool b => b
  | .num q => decide (q ≠ 0)
  | .str s => decide (s ≠ "")
  | .arr _ => true
  | .obj _ => true

/-- Truthiness of a possibly undefined value. -/
def truthy : JsValue → Bool
  | none => false
  | some v => v.truthy

/-- The function `Array.isArray`. -/
def isArray : JsValue → Bool
  | some (.arr _) => true
  | _ => false

/-- Number of UTF-16 code units of a string, the `length` of a JS string. -/
def utf16Length (s : String) : Nat :=
  (s.data.map (fun c => if c.val < 0x10000 then 1 else 2)).sum

/-- Property read `v[key]` on a parsed value.  None of the keys read by the
handlers (`users`, `products`, `orders`, `settings`, `length`) is defined on a
built-in prototype apart from `length` of strings and arrays. -/
def getProp (v : JVal) (key : String) : JsValue :=
  match v with
  | .obj props => props.lookup key
  | .arr items => if key = "length" then some (.num items.length) else none
  | .str s => if key = "length" then some (.num (utf16Length s)) else none
  | _ => none

/-- Property read `x[key]` where `x` may be `undefined` or `null`: reading a
property of those throws a `TypeError` (outer `none`). -/
def readProp (x : JsValue) (key : String) : Option JsValue :=
  match x with
  | none => none
  | some .null => none
  | some v => some (getProp v key)

/-- The parts of the JavaScript runtime that are taken as given: the parser
`JSON.parse` (`none` is a `SyntaxError`) and the comparison `x > 0` for an
operand that is a string, an array or an object, which goes through
`ToPrimitive` and string-to-number conversion (`none` is a `TypeError`). -/
structure Runtime where
  parse : String → Option JVal
  coerceGtZero : JVal → Option Bool

/-- The comparison `x > 0` (`none` is a thrown `TypeError`). -/
def gtZero (rt : Runtime) : JsValue → Option Bool
  | none => some false
  | some .null => some false
  | some (.bool b) => some b
  | some (.num q) => some (decide (0 < q))
  | some v => rt.coerceGtZero v

/-! ## Validation of an uploaded backup document -/

/-- The constant `requiredFields` of the restore handler. -/
def requiredFields : List String := ["users", "products", "orders"]

/-- The list `missingFields` of the restore handler:
`requiredFields.filter(field => !importData[field] || !Array.isArray(importData[field]))`. -/
def missingFields (importData : JVal) : List String :=
  requiredFields.filter
    (fun field => !truthy (getProp importData field) || !isArray (getProp importData field))

/-- The first structural check: `!importData || typeof importData !== 'object'`. -/
def badStructure (importData : JVal) : Bool :=
  !importData.truthy || decide (typeof importData ≠ TypeTag.object)

/-! ## Persistence layer, file system and log -/

/-- The four tables behind the models `User`, `Product`, `Order`, `Settings`. -/
inductive Table where
  | users
  | products
  | orders
  | settings
  deriving DecidableEq, Repr

/-- Name of the key of the backup document that holds the rows of a table. -/
def Table.key : Table → String
  | .users => "users"
  | .products => "products"
  | .orders => "orders"
  | .settings => "settings"

/-- Contents of the four tables; a row is the record as stored. -/
structure Store where
  users : List JVal
  products : List JVal
  orders : List JVal
  settings : List JVal

/-- Rows of one table. -/
def Store.rows (s : Store) : Table → List JVal
  | .users => s.users
  | .products => s.products
  | .orders => s.orders
  | .settings => s.settings

/-- Replace the rows of one table. -/
def Store.setRows (s : Store) (t : Table) (rows : List JVal) : Store :=
  match t with
  | .users => { s with users := rows }
  | .products => { s with products := rows }
  | .orders => { s with orders := rows }
  | .settings => { s with settings := rows }

/-- The exceptions that can reach the `catch` blocks of the handlers. -/
inductive Failure where
  | readFile
  | beginTransaction
  | destroy (t : Table)
  | bulkCreate (t : Table)
  | commit
  | rollback
  | unlink
  | findAll (t : Table)
  | typeError
  deriving DecidableEq, Repr

/-- The effects a handler issues, in the order in which it issues them. -/
inductive Event where
  | readFile (path : String)
  | beginTransaction
  | destroy (t : Table) (inTransaction : Bool)
  | bulkCreate (t : Table) (records : JVal) (inTransaction : Bool)
  | commit
  | rollback
  | unlink (path : String)
  | findAll (t : Table)
  | logInfo (message : String)
  | logWarn (message : String) (cause : Failure)
  | logError (message : String) (cause : Failure)

/-- Whether an event opens a transaction or writes to a table. -/
def Event.touchesStore : Event → Bool
  | .beginTransaction => true
  | .destroy _ _ => true
  | .bulkCreate _ _ _ => true
  | .commit => true
  | .rollback => true
  | _ => false

/-- Which calls into the collaborators fail during one run of a handler, and
what the store contributes to the rows written in that run.
`afterFailedRollback` is the content the tables are left with when the
rollback call itself fails: the handler has no control over it.  `bulkCreate`
tells that the store refuses the batch for a table for a reason other than an
empty `NOT NULL` column (a duplicate key, a value it cannot convert, a lost
connection).  `supplied t k column` is the value the store itself gives to
`column` of the record in position `k` of the batch: the next value of the
`id` sequence, the time of the insert.  `convert t column value` is the value
the store returns for a value written to `column`, after its conversion to the
type of the column. -/
structure Faults where
  readFile : Bool
  beginTransaction : Bool
  destroy : Table → Bool
  bulkCreate : Table → Bool
  commit : Bool
  rollback : Bool
  afterFailedRollback : Store
  unlink : Bool
  findAll : Table → Bool
  supplied : Table → Nat → String → JVal
  convert : Table → String → JVal → JVal

/-- State of one run: the contents of the tables visible to readers, the
working copy of the transaction when one is open, whether the temporary
upload is still on disk, and the effects issued so far. -/
structure RunState where
  visible : Store
  working : Option Store
  tempFile : Bool
  events : List Event

/-- Record an effect. -/
def emit (e : Event) (st : RunState) : RunState :=
  { st with events := st.events ++ [e] }

/-! ### Columns of the tables (lines 106 to 152) -/

/-- How a column declared with `sequelize.define` gets its value on an insert:
`serial` is the key `id` (`primaryKey: true, autoIncrement: true`),
`timestamp` is one of the two columns that `timestamps: true` adds, and
`plain` is any other column, with its `allowNull` (true when not declared) and
its `defaultValue` (if declared). -/
inductive ColumnKind where
  | serial
  | plain (allowNull : Bool) (defaultValue : Option JVal)
  | timestamp

/-- A column of a table. -/
structure Column where
  name : String
  kind : ColumnKind

/-- A column declared with its type only: it may be empty and has no default. -/
def Column.optional (name : String) : Column :=
  { name := name, kind := .plain true none }

/-- The columns of the four tables, in the order of their declaration; the
columns named by `createdAt` and `updatedAt` come last.  The table `settings`
is declared with `timestamps: false`. -/
def Table.columns : Table → List Column
  | .users =>
    [{ name := "id", kind := .serial },
     { name := "username", kind := .plain false none },
     { name := "password", kind := .plain false none },
     { name := "role", kind := .plain true (some (.str "buyer")) },
     .optional "avatar", .optional "city", .optional "birthday", .optional "notes",
     .optional "initial_username",
     { name := "registration_date", kind := .timestamp },
     { name := "updated_date", kind := .timestamp }]
  | .products =>
    [{ name := "id", kind := .serial },
     { name := "name", kind := .plain false none },
     .optional "related_name", .optional "description", .optional "original_height",
     .optional "original_width", .optional "original_length",
     { name := "parts_count", kind := .plain true (some (.num 1)) },
     .optional "main_image", .optional "additional_images",
     { name := "price_options", kind := .plain false none },
     { name := "is_visible", kind := .plain true (some (.bool true)) },
     { name := "sales_count", kind := .plain true (some (.num 0)) },
     { name := "favorites_count", kind := .plain true (some (.num 0)) },
     { name := "created_date", kind := .timestamp },
     { name := "updated_date", kind := .timestamp }]
  | .orders =>
    [{ name := "id", kind := .serial },
     { name := "user_id", kind := .plain false none },
     .optional "products", .optional "total_price",
     { name := "status", kind := .plain true (some (.str "создан заказ")) },
     .optional "notes", .optional "admin_notes", .optional "assigned_executors",
     { name := "created_date", kind := .timestamp },
     { name := "updated_date", kind := .timestamp }]
  | .settings =>
    [{ name := "id", kind := .serial },
     .optional "payment_info",
     { name := "price_coefficient", kind := .plain true (some (.num 5.25)) },
     .optional "discount_rules",
     { name := "show_discount_on_products", kind := .plain true (some (.bool false)) }]

/-- The test `v === null`. -/
def isNull : JVal → Bool
  | .null => true
  | _ => false

/-- Modelled from the spec: the value the ORM and the store give a column of
the row made of a record ("bulk-create", a collaborator that is not part of
the repository), `none` when the store refuses the record.  The key `id` is
taken from the record unless it is absent or `null`, then the sequence
supplies it.  A timestamp is taken from the record when it is truthy,
otherwise it is the time of the insert.  Any other column is taken from the
record when the record has it (`null` stays `null`), otherwise it is the
declared default or `null`; an empty `NOT NULL` column makes the store refuse
the record. -/
def columnValue (f : Faults) (t : Table) (k : Nat) (record : JVal) (c : Column) :
    Option JVal :=
  match c.kind with
  | .serial =>
    match getProp record c.name with
    | none => some (f.supplied t k c.name)
    | some v => if isNull v then some (f.supplied t k c.name) else some (f.convert t c.name v)
  | .timestamp =>
    match getProp record c.name with
    | none => some (f.supplied t k c.name)
    | some v => if v.truthy then some (f.convert t c.name v) else some (f.supplied t k c.name)
  | .plain allowNull defaultValue =>
    let value :=
      match getProp record c.name with
      | none => defaultValue.getD .null
      | some v => if isNull v then .null else f.convert t c.name v
    if !allowNull && isNull value then none else some value

/-- The members of the row made of a record, column by column. -/
def fillColumns (f : Faults) (t : Table) (k : Nat) (record : JVal) :
    List Column → Option (List (String × JVal))
  | [] => some []
  | c :: cs =>
    match columnValue f t k record c, fillColumns f t k record cs with
    | some v, some rest => some ((c.name, v) :: rest)
    | _, _ => none

/-- The row the store keeps for the record in position `k` of a batch: an
object with the columns of the table, in their order. -/
def makeRow (f : Faults) (t : Table) (k : Nat) (record : JVal) : Option JVal :=
  (fillColumns f t k record t.columns).map JVal.obj

/-- The rows made of the records of a batch, the first record being in
position `k`; `none` when the store refuses one of them. -/
def storedRowsFrom (f : Faults) (t : Table) : Nat → List JVal → Option (List JVal)
  | _, [] => some []
  | k, record :: records =>
    match makeRow f t k record, storedRowsFrom f t (k + 1) records with
    | some row, some rows => some (row :: rows)
    | _, _ => none

/-- The rows made of the records of a batch. -/
def storedRows (f : Faults) (t : Table) (records : List JVal) : Option (List JVal) :=
  storedRowsFrom f t 0 records

/-- The rows made of the argument of a bulk-insert: an argument that is not a
sequence cannot be inserted. -/
def batchRows (f : Faults) (t : Table) (records : JVal) : Option (List JVal) :=
  match records with
  | .arr rows => storedRows f t rows
  | _ => none

/-- Modelled from the spec: `sequelize.transaction()` of the ORM, which is not
part of the repository.  It opens "a single atomic unit of work spanning all
four tables"; the flag tells whether the handle was obtained. -/
def beginTransaction (f : Faults) (st : RunState) : Bool × RunState :=
  let st := emit .beginTransaction st
  if f.beginTransaction then (false, st)
  else (true, { st with working := some st.visible })

/-- Modelled from the spec: `Model.destroy` with an empty `where` of the ORM,
"delete-all-in-table".  With a transaction the rows go from its working copy,
without one from the table itself. -/
def destroy (f : Faults) (t : Table) (inTransaction : Bool) (st : RunState) :
    Bool × RunState :=
  let st := emit (.destroy t inTransaction) st
  if f.destroy t then (false, st)
  else if inTransaction then
    (true, { st with working := st.working.map (fun s => s.setRows t []) })
  else (true, { st with visible := st.visible.setRows t [] })

/-- Modelled from the spec: `Model.bulkCreate` of the ORM, "inserting a
sequence of records into a table in one batched operation".  The table gets
the rows made of the records, one for each record and in their order; the call
fails, and nothing is written, when the plan says so, when the argument is not
a sequence, or when the store refuses one of the records. -/
def bulkCreate (f : Faults) (t : Table) (records : JVal) (inTransaction : Bool)
    (st : RunState) : Bool × RunState :=
  let st := emit (.bulkCreate t records inTransaction) st
  if f.bulkCreate t then (false, st)
  else
    match batchRows f t records with
    | some rows =>
      if inTransaction then
        (true, { st with working := st.working.map (fun s => s.setRows t (s.rows t ++ rows)) })
      else (true, { st with visible := st.visible.setRows t (st.visible.rows t ++ rows) })
    | none => (false, st)

/-- Modelled from the spec: `transaction.commit()`: "the replacement becomes
visible atomically". -/
def commit (f : Faults) (st : RunState) : Bool × RunState :=
  let st := emit .commit st
  if f.commit then (false, st)
  else
    match st.working with
    | some s => (true, { st with visible := s, working := none })
    | none => (true, st)

/-- Modelled from the spec: `transaction.rollback()`: on success "the
pre-restore state is fully preserved"; a failing rollback "may leave the store
in a state the pipeline cannot reason about". -/
def rollback (f : Faults) (st : RunState) : Bool × RunState :=
  let st := emit .rollback st
  if f.rollback then (false, { st with visible := f.afterFailedRollback })
  else (true, { st with working := none })

/-- Modelled from the spec: `Model.findAll({ raw: true })`, a read of every row
of a table "as stored"; `none` when the read fails. -/
def findAll (f : Faults) (t : Table) (st : RunState) : Option (List JVal) × RunState :=
  let st := emit (.findAll t) st
  if f.findAll t then (none, st) else (some (st.visible.rows t), st)

/-- The block `try { fs.unlinkSync(path) } catch (fileError) { logger.warn(...) }`
that both the success path and the `catch` block of the restore handler run. -/
def unlinkTemp (f : Faults) (path : String) (st : RunState) : RunState :=
  let st := emit (.unlink path) st
  if f.unlink then emit (.logWarn "Ошибка удаления временного файла:" .unlink) st
  else { st with tempFile := false }

/-! ## Requests and responses -/

/-- The file stored by the upload middleware: `req.file.path` and the text
that `fs.readFileSync(req.file.path, 'utf8')` returns for it. -/
structure UploadedFile where
  path : String
  content : String

/-- A request as it reaches the restore handler: `req.file` is absent when no
file was uploaded. -/
structure Request where
  file : Option UploadedFile

/-- What a handler sends.  `error` is `res.status(status).json({ error })`;
`restored` is the success answer of the restore handler, of which the four
members of `imported` are kept (a member that is `undefined` is left out of the
JSON text); `exported` is the document sent by the export handler. -/
inductive Response where
  | error (status : Nat) (message : String)
  | restored (users products orders settings : JsValue)
  | exported (users products orders settings : List JVal)

/-- HTTP status of a response; `res.json` without `res.status` sends 200. -/
def Response.status : Response → Nat
  | .error status _ => status
  | .restored _ _ _ _ => 200
  | .exported _ _ _ _ => 200

/-- How a `try` block ends: it sent a response, or an exception left it;
`transaction` tells whether the variable `transaction` had been assigned. -/
inductive Completion where
  | responded (r : Response) (st : RunState)
  | threw (cause : Failure) (transaction : Bool) (st : RunState)

/-- State in which a `try` block ends. -/
def Completion.state : Completion → RunState
  | .responded _ st => st
  | .threw _ _ st => st

/-- Final response and state of a run of a handler. -/
structure Outcome where
  response : Response
  state : RunState

/-! ## `POST /api/backup/restore` -/

/-- The condition `x && x.length > 0` of the four insert guards, as a boolean
(`none` when the comparison throws). -/
def hasRecords (rt : Runtime) (x : JsValue) : Option Bool :=
  match x with
  | none => some false
  | some v => if v.truthy then gtZero rt (getProp v "length") else some false

/-- One insert guard with its push:
`if (importData.t && importData.t.length > 0) insertPromises.push(T.bulkCreate(importData.t, { transaction }))`.
The first component is `none` when the guard throws, otherwise whether the
pushed promise (if any) fulfils. -/
def insertStep (rt : Runtime) (f : Faults) (importData : JVal) (t : Table)
    (st : RunState) : Option Bool × RunState :=
  match hasRecords rt (getProp importData t.key) with
  | none => (none, st)
  | some false => (some true, st)
  | some true =>
    match getProp importData t.key with
    | some records =>
      let r := bulkCreate f t records true st
      (some r.1, r.2)
    | none => (some true, st)

/-- The expression `importData.settings ? importData.settings.length : 0`. -/
def settingsCount (importData : JVal) : JsValue :=
  match getProp importData "settings" with
  | none => some (.num 0)
  | some v => if v.truthy then getProp v "length" else some (.num 0)

/-- Lines 559 to 564: `await Promise.all([...])` over the four deletes.  The
calls of a `Promise.all` group are all issued, in source order, before the
group is awaited; the group rejects when one of them does, and the cause
reported is that of the first failing call in source order. -/
def clearTables (f : Faults) (st : RunState) : Option Failure × RunState :=
  let d1 := destroy f .users true st
  let d2 := destroy f .products true d1.2
  let d3 := destroy f .orders true d2.2
  let d4 := destroy f .settings true d3.2
  if !d1.1 then (some (.destroy .users), d4.2)
  else if !d2.1 then (some (.destroy .products), d4.2)
  else if !d3.1 then (some (.destroy .orders), d4.2)
  else if !d4.1 then (some (.destroy .settings), d4.2)
  else (none, d4.2)

/-- Lines 566 to 584: the four insert guards and `await Promise.all(insertPromises)`.
A guard that throws ends the block before the group is awaited. -/
def repopulate (rt : Runtime) (f : Faults) (importData : JVal) (st : RunState) :
    Option Failure × RunState :=
  let r1 := insertStep rt f importData .users st
  match r1.1 with
  | none => (some .typeError, r1.2)
  | some i1 =>
  let r2 := insertStep rt f importData .products r1.2
  match r2.1 with
  | none => (some .typeError, r2.2)
  | some i2 =>
  let r3 := insertStep rt f importData .orders r2.2
  match r3.1 with
  | none => (some .typeError, r3.2)
  | some i3 =>
  let r4 := insertStep rt f importData .settings r3.2
  match r4.1 with
  | none => (some .typeError, r4.2)
  | some i4 =>
    if !i1 then (some (.bulkCreate .users), r4.2)
    else if !i2 then (some (.bulkCreate .products), r4.2)
    else if !i3 then (some (.bulkCreate .orders), r4.2)
    else if !i4 then (some (.bulkCreate .settings), r4.2)
    else (none, r4.2)

/-- Lines 585 to 603: commit, removal of the temporary file, success response. -/
def commitAndRespond (f : Faults) (path : String) (importData : JVal) (st : RunState) :
    Completion :=
  let c := commit f st
  if !c.1 then .threw .commit true c.2
  else
    let s5 := unlinkTemp f path c.2
    let s6 := emit (.logInfo "База данных восстановлена успешно") s5
    match readProp (getProp importData "users") "length",
          readProp (getProp importData "products") "length",
          readProp (getProp importData "orders") "length" with
    | some users, some products, some orders =>
      .responded (.restored users products orders (settingsCount importData)) s6
    | _, _, _ => .threw .typeError true s6

/-- Lines 557 to 603: the transaction, from `sequelize.transaction()` to the
success response. -/
def restoreTransaction (rt : Runtime) (f : Faults) (path : String) (importData : JVal)
    (st : RunState) : Completion :=
  let b := beginTransaction f st
  if !b.1 then .threw .beginTransaction false b.2
  else
    let c := clearTables f b.2
    match c.1 with
    | some cause => .threw cause true c.2
    | none =>
      let r := repopulate rt f importData c.2
      match r.1 with
      | some cause => .threw cause true r.2
      | none => commitAndRespond f path importData r.2

/-- Lines 531 to 603: the `try` block of the restore handler. -/
def restoreTry (rt : Runtime) (f : Faults) (req : Request) (st : RunState) : Completion :=
  match req.file with
  | none => .responded (.error 400 "Файл резервной копии не загружен") st
  | some file =>
    let s1 := emit (.readFile file.path) st
    if f.readFile then .threw .readFile false s1
    else
      match rt.parse file.content with
      | none => .responded (.error 400 "Неверный формат JSON файла") s1
      | some importData =>
        if badStructure importData then
          .responded (.error 400 "Некорректная структура данных") s1
        else if (missingFields importData).length > 0 then
          .responded
            (.error 400
              ("Отсутствуют обязательные поля: " ++ ", ".intercalate (missingFields importData)))
            s1
        else restoreTransaction rt f file.path importData s1

/-- The rollback of the `catch` block:
`try { await transaction.rollback() } catch (rollbackError) { logger.error(...) }`. -/
def rollbackLogged (f : Faults) (st : RunState) : RunState :=
  let r := rollback f st
  if r.1 then r.2 else emit (.logError "Ошибка отката транзакции:" .rollback) r.2

/-- Lines 605 to 624: the `catch` block of the restore handler. -/
def restoreCatch (f : Faults) (req : Request) (cause : Failure) (transaction : Bool)
    (st : RunState) : Outcome :=
  let s1 := if transaction then rollbackLogged f st else st
  let s2 :=
    match req.file with
    | some file => if file.path ≠ "" then unlinkTemp f file.path s1 else s1
    | none => s1
  let s3 := emit (.logError "Ошибка восстановления базы данных:" cause) s2
  { response := .error 500 "Ошибка сервера при восстановлении базы данных", state := s3 }

/-- State in which a handler starts: no transaction is open, nothing has been
issued yet, and the upload (if any) is on disk. -/
def initialState (store : Store) (upload : Bool) : RunState :=
  { visible := store, working := none, tempFile := upload, events := [] }

/-- The `try` / `catch` of the restore handler: an exception that leaves the
`try` block is handled by the `catch` block. -/
def restoreFinish (f : Faults) (req : Request) : Completion → Outcome
  | .responded r st => { response := r, state := st }
  | .threw cause transaction st => restoreCatch f req cause transaction st

/-- The handler of `POST /api/backup/restore`. -/
def backupRestore (rt : Runtime) (f : Faults) (req : Request) (store : Store) : Outcome :=
  restoreFinish f req (restoreTry rt f req (initialState store req.file.isSome))

/-! ## `GET /api/backup/all` -/

/-- The `try` block of the export handler: four reads awaited one after the
other, then `res.json({ users, products, orders, settings })`. -/
def exportTry (f : Faults) (st : RunState) : Completion :=
  let r1 := findAll f .users st
  match r1.1 with
  | none => .threw (.findAll .users) false r1.2
  | some users =>
  let r2 := findAll f .products r1.2
  match r2.1 with
  | none => .threw (.findAll .products) false r2.2
  | some products =>
  let r3 := findAll f .orders r2.2
  match r3.1 with
  | none => .threw (.findAll .orders) false r3.2
  | some orders =>
  let r4 := findAll f .settings r3.2
  match r4.1 with
  | none => .threw (.findAll .settings) false r4.2
  | some settings =>
    .responded (.exported users products orders settings)
      (emit (.logInfo "Данные экспортированы успешно") r4.2)

/-- The handler of `GET /api/backup/all`. -/
def backupAll (f : Faults) (store : Store) : Outcome :=
  match exportTry f (initialState store false) with
  | .responded r st => { response := r, state := st }
  | .threw cause _ st =>
    { response := .error 500 "Ошибка сервера при экспорте данных",
      state := emit (.logError "Ошибка экспорта данных:" cause) st }

/-! ## Upload middleware and its error handler -/

/-- The file part of a multipart request, as the upload middleware sees it:
the name of the form field, the content type sent with the part, its size in
bytes, and the name and text under which the disk storage keeps it. -/
structure FilePart where
  fieldname : String
  mimetype : String
  size : Nat
  path : String
  content : String

/-- An error handed to the error-handling middleware: an instance of
`multer.MulterError` with its `code`, or any other error with its message. -/
inductive MiddlewareError where
  | multer (code : String)
  | other (message : String)

/-- The option `limits.fileSize` of the upload middleware. -/
def fileSizeLimit : Nat := 50 * 1024 * 1024

/-- The method `String.prototype.startsWith`. -/
def startsWith (s start : String) : Bool :=
  start.data.isPrefixOf s.data

/-- The option `fileFilter` of the upload middleware: `cb(null, true)` is
`.ok true`, `cb(new Error(...), false)` is the error. -/
def fileFilter (file : FilePart) : Except MiddlewareError Bool :=
  if file.fieldname = "backup_file" && file.mimetype = "application/json" then .ok true
  else if startsWith file.mimetype "image/" then .ok true
  else .error (.other "只允许上传JSON或图片文件")

/-- The error-handling middleware registered after the routes (lines 642 to
650).  The second component tells whether `logger.error` was called. -/
def uploadErrorHandler (error : MiddlewareError) : Response × Bool :=
  match error with
  | .multer code =>
    if code = "LIMIT_FILE_SIZE" then (.error 413 "Файл слишком большой", false)
    else (.error 500 "Внутренняя ошибка сервера", true)
  | .other _ => (.error 500 "Внутренняя ошибка сервера", true)

/-- Modelled from the spec: `upload.single(name)` of the upload library, which
is not part of the repository.  A file under another field is refused as
unexpected, then the file filter decides, then the size limit applies while the
file is stored: "exceeding it must be rejected by the transport layer with a
distinct payload-too-large signal before the core ever sees the body". -/
def uploadSingle (name : String) (part : Option FilePart) : Except MiddlewareError Request :=
  match part with
  | none => .ok { file := none }
  | some file =>
    if file.fieldname ≠ name then .error (.multer "LIMIT_UNEXPECTED_FILE")
    else
      match fileFilter file with
      | .error e => .error e
      | .ok false => .ok { file := none }
      | .ok true =>
        if file.size > fileSizeLimit then .error (.multer "LIMIT_FILE_SIZE")
        else .ok { file := some { path := file.path, content := file.content } }

/-- What the route does with a request: the upload middleware refuses it and
the error handler answers, or the handler runs. -/
inductive RouteOutcome where
  | refused (response : Response) (logged : Bool)
  | handled (outcome : Outcome)

/-- Response of a route. -/
def RouteOutcome.response : RouteOutcome → Response
  | .refused response _ => response
  | .handled outcome => outcome.response

/-- The route `app.post('/api/backup/restore', upload.single('backup_file'), ...)`
(line 528) with the error-handling middleware behind it. -/
def restoreRoute (rt : Runtime) (f : Faults) (part : Option FilePart) (store : Store) :
    RouteOutcome :=
  match uploadSingle "backup_file" part with
  | .error e => .refused (uploadErrorHandler e).1 (uploadErrorHandler e).2
  | .ok req => .handled (backupRestore rt f req store)

/-! ## Properties named by the specification -/

/-- The shape the specification requires of a backup document: a mapping in
which `users`, `products` and `orders` are each present and a sequence. -/
def isBackupDocument : JVal → Bool
  | .obj props =>
    match props.lookup "users", props.lookup "products", props.lookup "orders" with
    | some (.arr _), some (.arr _), some (.arr _) => true
    | _, _, _ => false
  | _ => false

/-- A required field as the specification describes a missing one: the key is
absent or its value is not a sequence. -/
def absentOrNotSequence : JsValue → Bool
  | some (.arr _) => false
  | _ => true

/-- The rows a document provides for a table: the items of the sequence under
the key of the table, nothing when there is no sequence there. -/
def providedRows (importData : JVal) (t : Table) : List JVal :=
  match getProp importData t.key with
  | some (.arr rows) => rows
  | _ => []

/-- No call of the transaction is failed by the plan: opening it, the four
deletes, the bulk-inserts and the commit. -/
def Faults.persistenceSucceeds (f : Faults) : Prop :=
  f.beginTransaction = false ∧ (∀ t, f.destroy t = false) ∧ (∀ t, f.bulkCreate t = false) ∧
    f.commit = false

/-- The settings of a document can be written: either the insert guard asks
for no insert, or the value under `settings` is a sequence. -/
def settingsWritable (rt : Runtime) (importData : JVal) : Prop :=
  hasRecords rt (getProp importData "settings") = some false ∨
    isArray (getProp importData "settings") = true

/-- A delete fails, or a bulk-insert that the handler issues fails: the call
is refused by the store, what it is given is not a sequence, or the store
refuses one of the records. -/
def Faults.writeFails (f : Faults) (rt : Runtime) (importData : JVal) : Prop :=
  (∃ t, f.destroy t = true) ∨
    (∃ t : Table, hasRecords rt (getProp importData t.key) = some true ∧
      (f.bulkCreate t = true ∨ isArray (getProp importData t.key) = false ∨
        storedRows f t (providedRows importData t) = none))

/-- The settings a document has when it has a non-empty sequence of them,
nothing otherwise. -/
def nonEmptySettings (importData : JVal) : List JVal :=
  match getProp importData "settings" with
  | some (.arr (r :: rs)) => r :: rs
  | _ => []

/-- The insert guard of a table and the insert it asks for succeed: the guard
asks for no insert, or the insert is given a sequence and the store accepts
the batch and each of its records. -/
def insertSucceeds (rt : Runtime) (f : Faults) (importData : JVal) (t : Table) : Prop :=
  hasRecords rt (getProp importData t.key) = some false ∨
    (hasRecords rt (getProp importData t.key) = some true ∧ f.bulkCreate t = false ∧
      isArray (getProp importData t.key) = true ∧
      (storedRows f t (providedRows importData t)).isSome = true)

/-- The row `row` is the one the store makes of `record` in some position of
a batch for the table. -/
def isRowOf (f : Faults) (t : Table) (record row : JVal) : Prop :=
  ∃ k, makeRow f t k record = some row

/-- The store takes the value a record has for a column from the record: for
a timestamp a truthy value, for any other column a value that is not `null`. -/
def takenFromRecord (c : Column) (v : JVal) : Bool :=
  match c.kind with
  | .timestamp => v.truthy
  | _ => !isNull v

/-- A row holds a record: its members are the columns of the table, in their
order, and every column for which the store takes the value of the record
holds what the store returns for that value. -/
def holdsRecord (f : Faults) (t : Table) (record row : JVal) : Prop :=
  (∃ props, row = .obj props ∧ props.map Prod.fst = t.columns.map Column.name) ∧
    ∀ c ∈ t.columns, ∀ v, getProp record c.name = some v → takenFromRecord c v = true →
      getProp row c.name = some (f.convert t c.name v)

/-- A record gives a column that the store would otherwise fill itself: a key
`id` that is not `null`, a truthy timestamp. -/
def givesColumn (record : JVal) (c : Column) : Bool :=
  match c.kind with
  | .plain _ _ => true
  | .serial =>
    match getProp record c.name with
    | some v => !isNull v
    | none => false
  | .timestamp => truthy (getProp record c.name)

/-- A record gives its key and, where the table has them, its timestamps. -/
def givesSupplied (t : Table) (record : JVal) : Bool :=
  t.columns.all (givesColumn record)

/-- An event is a bulk-insert issued inside the transaction. -/
def Event.isInsert : Event → Bool
  | .bulkCreate _ _ true => true
  | _ => false

/-- The effects of a run that open, write to or close the transaction, in the
order of the run. -/
def storeEvents (events : List Event) : List Event :=
  events.filter Event.touchesStore

/-- The four deletes of the clearing phase. -/
def deleteEvents : List Event :=
  [.destroy .users true, .destroy .products true, .destroy .orders true,
    .destroy .settings true]

/-- The order of the transaction calls of a restore, with what each stage
requires: the transaction is opened; the four deletes follow; inserts follow
only when every delete succeeded; the commit follows only when every delete and
every insert succeeded; the answer is 200 only when the commit succeeded; a
failure after the opening is followed by the rollback and nothing else. -/
def TransactionTrace (rt : Runtime) (f : Faults) (importData : JVal) (trace : List Event)
    (status : Nat) : Prop :=
  ∃ inserts : List Event, inserts.all Event.isInsert = true ∧
    ((f.beginTransaction = true ∧ trace = [.beginTransaction] ∧ status = 500) ∨
      (f.beginTransaction = false ∧ (∃ t, f.destroy t = true) ∧
        trace = .beginTransaction :: deleteEvents ++ [.rollback] ∧ status = 500) ∨
      (f.beginTransaction = false ∧ (∀ t, f.destroy t = false) ∧
        (∃ t, ¬ insertSucceeds rt f importData t) ∧
        trace = .beginTransaction :: deleteEvents ++ inserts ++ [.rollback] ∧ status = 500) ∨
      (f.beginTransaction = false ∧ (∀ t, f.destroy t = false) ∧
        (∀ t, insertSucceeds rt f importData t) ∧ f.commit = true ∧
        trace = .beginTransaction :: deleteEvents ++ inserts ++ [.commit, .rollback] ∧
        status = 500) ∨
      (f.beginTransaction = false ∧ (∀ t, f.destroy t = false) ∧
        (∀ t, insertSucceeds rt f importData t) ∧ f.commit = false ∧
        trace = .beginTransaction :: deleteEvents ++ inserts ++ [.commit] ∧ status = 200))

/-- Two run states hold the same tables and the same working copy. -/
def sameTables (st1 st2 : RunState) : Prop :=
  st1.visible = st2.visible ∧ st1.working = st2.working

/-- Two `try` blocks end the same way as far as the answer and the tables go. -/
def Completion.agrees : Completion → Completion → Prop
  | .responded r1 st1, .responded r2 st2 => r1 = r2 ∧ sameTables st1 st2
  | .threw c1 t1 st1, .threw c2 t2 st2 => c1 = c2 ∧ t1 = t2 ∧ sameTables st1 st2
  | _, _ => False

/-! ## Sample inputs -/

/-- A document with one administrator and no products, orders or settings. -/
def adminOnly : JVal :=
  .obj [("users", .arr [.obj [("id", .num 1), ("username", .str "admin"),
      ("password", .str "$2b$10$hashOfAdmin"), ("role", .str "admin")]]),
    ("products", .arr []), ("orders", .arr [])]

/-- A document that has `users` but neither `products` nor `orders`. -/
def usersOnly : JVal := .obj [("users", .arr [])]

/-- A document whose `settings` is a single record instead of a list of records. -/
def settingsRecord : JVal :=
  .obj [("users", .arr []), ("products", .arr []), ("orders", .arr []),
    ("settings", .obj [("payment_info", .str "card")])]

/-- A document with one row for every table. -/
def fullDocument : JVal :=
  .obj [("users", .arr [.obj [("id", .num 1), ("username", .str "admin"),
      ("password", .str "$2b$10$hashOfAdmin")]]),
    ("products", .arr [.obj [("id", .num 2), ("name", .str "cup"), ("price_options", .str "[]")]]),
    ("orders", .arr [.obj [("id", .num 4), ("user_id", .num 1), ("products", .str "[]")]]),
    ("settings", .arr [.obj [("id", .num 1), ("discount_rules", .str "[]")]])]

/-- Text of the sample document `adminOnly`. -/
def adminOnlyText : String :=
  "\x7b\"users\":[\x7b\"id\":1,\"username\":\"admin\"," ++
    "\"password\":\"$2b$10$hashOfAdmin\",\"role\":\"admin\"\x7d]," ++
    "\"products\":[],\"orders\":[]\x7d"

/-- Text of the sample document `usersOnly`. -/
def usersOnlyText : String := "\x7b\"users\":[]\x7d"

/-- Text of the sample document `settingsRecord`. -/
def settingsRecordText : String :=
  "\x7b\"users\":[],\"products\":[],\"orders\":[],\"settings\":\x7b\"payment_info\":\"card\"\x7d\x7d"

/-- Text of the sample document `fullDocument`. -/
def fullDocumentText : String :=
  "\x7b\"users\":[\x7b\"id\":1,\"username\":\"admin\"," ++
    "\"password\":\"$2b$10$hashOfAdmin\"\x7d],\"products\":[\x7b\"id\":2," ++
    "\"name\":\"cup\",\"price_options\":\"[]\"\x7d],\"orders\":[\x7b\"id\":4," ++
    "\"user_id\":1,\"products\":\"[]\"\x7d],\"settings\":[\x7b\"id\":1,\"discount_rules\":\"[]\"\x7d]\x7d"

/-- A runtime that parses the texts of the sample documents and nothing else. -/
def sampleRuntime : Runtime where
  parse := fun text =>
    if text = adminOnlyText then some adminOnly
    else if text = usersOnlyText then some usersOnly
    else if text = settingsRecordText then some settingsRecord
    else if text = fullDocumentText then some fullDocument
    else none
  coerceGtZero := fun _ => some false

/-- A store with a row in every table. -/
def sampleStore : Store where
  users := [.obj [("id", .num 7), ("username", .str "old")]]
  products := [.obj [("id", .num 3), ("name", .str "vase"), ("price_options", .str "[]")]]
  orders := [.obj [("id", .num 5), ("user_id", .num 7)]]
  settings := [.obj [("id", .num 1), ("price_coefficient", .num 5)]]

/-- The time of the inserts in the sample plans. -/
def sampleTime : JVal := .str "2026-01-05T09:00:00.000Z"

/-- The plan in which every call succeeds: the store returns the values
written as they are, its sequences give the record in position `k` the key
`k + 1`, and the time of the inserts is `sampleTime`. -/
def noFaults : Faults where
  readFile := false
  beginTransaction := false
  destroy := fun _ => false
  bulkCreate := fun _ => false
  commit := false
  rollback := false
  afterFailedRollback := { users := [], products := [], orders := [], settings := [] }
  unlink := false
  findAll := fun _ => false
  supplied := fun _ k column => if column = "id" then .num (k + 1) else sampleTime
  convert := fun _ _ value => value

/-- The row the store makes of the administrator of `adminOnly` under the
plan `noFaults`. -/
def adminRow : JVal :=
  .obj [("id", .num 1), ("username", .str "admin"), ("password", .str "$2b$10$hashOfAdmin"),
    ("role", .str "admin"), ("avatar", .null), ("city", .null), ("birthday", .null),
    ("notes", .null), ("initial_username", .null),
    ("registration_date", .str "2026-01-05T09:00:00.000Z"),
    ("updated_date", .str "2026-01-05T09:00:00.000Z")]

/-- The rows the store makes of the records of `fullDocument` under the plan
`noFaults`. -/
def fullDocumentRows : Store where
  users :=
    [.obj [("id", .num 1), ("username", .str "admin"), ("password", .str "$2b$10$hashOfAdmin"),
      ("role", .str "buyer"), ("avatar", .null), ("city", .null), ("birthday", .null),
      ("notes", .null), ("initial_username", .null),
      ("registration_date", .str "2026-01-05T09:00:00.000Z"),
      ("updated_date", .str "2026-01-05T09:00:00.000Z")]]
  products :=
    [.obj [("id", .num 2), ("name", .str "cup"), ("related_name", .null),
      ("description", .null), ("original_height", .null), ("original_width", .null),
      ("original_length", .null), ("parts_count", .num 1), ("main_image", .null),
      ("additional_images", .null), ("price_options", .str "[]"), ("is_visible", .bool true),
      ("sales_count", .num 0), ("favorites_count", .num 0),
      ("created_date", .str "2026-01-05T09:00:00.000Z"),
      ("updated_date", .str "2026-01-05T09:00:00.000Z")]]
  orders :=
    [.obj [("id", .num 4), ("user_id", .num 1), ("products", .str "[]"),
      ("total_price", .null), ("status", .str "создан заказ"), ("notes", .null),
      ("admin_notes", .null), ("assigned_executors", .null),
      ("created_date", .str "2026-01-05T09:00:00.000Z"),
      ("updated_date", .str "2026-01-05T09:00:00.000Z")]]
  settings :=
    [.obj [("id", .num 1), ("payment_info", .null), ("price_coefficient", .num 5.25),
      ("discount_rules", .str "[]"), ("show_discount_on_products", .bool false)]]

/-- The plan `noFaults` five minutes later. -/
def laterFaults : Faults :=
  { noFaults with
    supplied := fun _ k column =>
      if column = "id" then .num (k + 1) else .str "2026-01-05T09:05:00.000Z" }

/-- A document as the export handler sends it: the administrator as a full
row, and no products or orders. -/
def exportedAdmin : JVal :=
  .obj [("users", .arr [adminRow]), ("products", .arr []), ("orders", .arr [])]

/-- Text of the sample document `exportedAdmin`. -/
def exportedAdminText : String :=
  "\x7b\"users\":[\x7b\"id\":1,\"username\":\"admin\"," ++
    "\"password\":\"$2b$10$hashOfAdmin\",\"role\":\"admin\",\"avatar\":null," ++
    "\"city\":null,\"birthday\":null,\"notes\":null,\"initial_username\":null," ++
    "\"registration_date\":\"2026-01-05T09:00:00.000Z\"," ++
    "\"updated_date\":\"2026-01-05T09:00:00.000Z\"\x7d],\"products\":[],\"orders\":[]\x7d"

/-- A runtime that parses the text of the sample document `exportedAdmin`. -/
def exportedRuntime : Runtime where
  parse := fun text => if text = exportedAdminText then some exportedAdmin else none
  coerceGtZero := fun _ => some false

/-- The time stamp `registration_date` of the only row of `users`, the empty
text when there is no such row or stamp. -/
def firstRegistration (s : Store) : String :=
  match s.users with
  | [row] =>
    match getProp row "registration_date" with
    | some (.str stamp) => stamp
    | _ => ""
  | _ => ""

/-- The plan in which only the bulk-insert into `orders` fails. -/
def ordersInsertFails : Faults :=
  { noFaults with bulkCreate := fun t => decide (t = Table.orders) }

/-- The plan in which only the delete of `users` fails. -/
def usersDeleteFails : Faults :=
  { noFaults with destroy := fun t => decide (t = Table.users) }

/-- The plan in which the delete of `users` fails and then the rollback too. -/
def usersDeleteAndRollbackFail : Faults :=
  { usersDeleteFails with rollback := true }

/-- A document whose `settings` is a text instead of a list of records. -/
def settingsText : JVal :=
  .obj [("users", .arr []), ("products", .arr []), ("orders", .arr []),
    ("settings", .str "default")]

/-- Text of the sample document `settingsText`. -/
def settingsTextText : String :=
  "\x7b\"users\":[],\"products\":[],\"orders\":[],\"settings\":\"default\"\x7d"

/-- A runtime that parses the text of the sample document `settingsText`. -/
def textSettingsRuntime : Runtime where
  parse := fun text => if text = settingsTextText then some settingsText else none
  coerceGtZero := fun _ => some false

/-- The plan in which only removing the temporary file fails. -/
def unlinkFails : Faults :=
  { noFaults with unlink := true }

/-- The plan in which only the read of `orders` fails. -/
def ordersReadFails : Faults :=
  { noFaults with findAll := fun t => decide (t = Table.orders) }

/-- A picture sent in the field `backup_file`. -/
def pictureAsBackup : FilePart :=
  { fieldname := "backup_file", mimetype := "image/png", size := 2048,
    path := "uploads/9c1e-photo.png", content := "PNG" }

/-- A backup of 50 MB and one byte, sent as JSON in the field `backup_file`. -/
def oversizedBackup : FilePart :=
  { fieldname := "backup_file", mimetype := "application/json", size := 52428801,
    path := "uploads/77aa-backup.json", content := adminOnlyText }

/-- The sample document with one administrator, sent as JSON in the field
`backup_file`. -/
def adminOnlyPart : FilePart :=
  { fieldname := "backup_file", mimetype := "application/json", size := 80,
    path := "uploads/3f2a-backup.json", content := adminOnlyText }

/-- A file stored by the upload middleware under a temporary name. -/
def sampleFile (content : String) : UploadedFile :=
  { path := "uploads/3f2a-backup.json", content := content }

/-- A request that carries the file `sampleFile content`. -/
def sampleUpload (content : String) : Request :=
  { file := some (sampleFile content) }

/-! ## Text helpers of JavaScript and SQL -/

/-- The white space and line terminators that `String.prototype.trim` removes. -/
def isJsWhitespace (c : Char) : Bool :=
  c.toNat = 9 || c.toNat = 10 || c.toNat = 11 || c.toNat = 12 || c.toNat = 13 ||
    c.toNat = 32 || c.toNat = 160 || c.toNat = 0x1680 ||
    (0x2000 ≤ c.toNat && c.toNat ≤ 0x200A) || c.toNat = 0x2028 || c.toNat = 0x2029 ||
    c.toNat = 0x202F || c.toNat = 0x205F || c.toNat = 0x3000 || c.toNat = 0xFEFF

/-- Trimming of a list of characters at both ends. -/
def trimChars (cs : List Char) : List Char :=
  (cs.dropWhile isJsWhitespace).rdropWhile isJsWhitespace

/-- The method `String.prototype.trim`. -/
def jsTrim (s : String) : String :=
  String.mk (trimChars s.data)

/-- Some suffix of a text satisfies a test. -/
def anySuffix (test : List Char → Bool) : List Char → Bool
  | [] => test []
  | c :: rest => test (c :: rest) || anySuffix test rest

/-- The method `String.prototype.includes`: the second text occurs in the first. -/
def includes (s part : String) : Bool :=
  anySuffix (fun rest => part.data.isPrefixOf rest) s.data

/-- Modelled from the spec: the operator `LIKE` of the store behind
"find-all-with-filter", which is not part of the repository.  In the pattern
`%` stands for any run of characters, `_` for any one character, and a
backslash makes the next character literal. -/
def likeChars : List Char → List Char → Bool
  | [], text => text.isEmpty
  | c :: pattern, text =>
    if c = '%' then anySuffix (fun rest => likeChars pattern rest) text
    else if c = '_' then
      match text with
      | [] => false
      | _ :: rest => likeChars pattern rest
    else if c = '\\' then
      match pattern, text with
      | literal :: pattern2, d :: rest => literal == d && likeChars pattern2 rest
      | _, _ => false
    else
      match text with
      | [] => false
      | d :: rest => c == d && likeChars pattern rest

/-- The condition `column LIKE pattern` on a text. -/
def like (pattern text : String) : Bool :=
  likeChars pattern.data text.data

/-- A character has no special meaning in a `LIKE` pattern. -/
def isPlainChar (c : Char) : Bool :=
  !(c = '%' || c = '_' || c = '\\')

/-! ## `importDatabase` of the admin panel (`Settings.jsx`) -/

/-- The file chosen in the admin panel: `importFile.type`, `importFile.size`
and the text that `importFile.text()` gives. -/
structure ClientFile where
  type : String
  size : Nat
  content : String

/-- The error caught by the validation `try` block of `importDatabase`: the
`SyntaxError` of `JSON.parse`, or an `Error` thrown with a message. -/
inductive ValidationError where
  | syntaxError
  | error (message : String)

/-- The list `missingFields` of `importDatabase` (lines 411 and 412):
`requiredFields.filter(field => !jsonData[field] || !Array.isArray(jsonData[field]))`
over its own `requiredFields = ['users', 'products', 'orders']`. -/
def clientMissingFields (jsonData : JVal) : List String :=
  ["users", "products", "orders"].filter
    (fun field => !truthy (getProp jsonData field) || !isArray (getProp jsonData field))

/-- The validation of the parsed file in `importDatabase` (lines 406 to 416). -/
def clientValidate (jsonData : JVal) : Except ValidationError Unit :=
  if !jsonData.truthy || decide (typeof jsonData ≠ TypeTag.object) then
    .error (.error "Некорректная структура файла")
  else if (clientMissingFields jsonData).length > 0 then
    .error (.error
      ("Отсутствуют обязательные поля: " ++ ", ".intercalate (clientMissingFields jsonData)))
  else .ok ()

/-- How a call of `importDatabase` goes, up to the upload: an `alert` with a
fixed text, the `alert` of the validation error, a refused confirmation, or the
request `POST /api/backup/restore` with the file under a form field. -/
inductive ImportStep where
  | alerted (text : String)
  | invalid (error : ValidationError)
  | declined
  | uploaded (fieldname : String) (file : ClientFile)

/-- The function `importDatabase` (lines 382 to 446) up to the upload.
`confirmed` is the answer to `confirm(...)`, `typed` the answer to
`prompt(...)`. -/
def importDatabase (rt : Runtime) (importFile : Option ClientFile) (confirmed : Bool)
    (typed : Option String) : ImportStep :=
  match importFile with
  | none => .alerted "Выберите файл для импорта"
  | some file =>
    if file.type = "" || !includes file.type "json" then
      .alerted "Файл должен быть в формате JSON"
    else if file.size > 50 * 1024 * 1024 then
      .alerted "Файл слишком большой. Максимальный размер: 50MB"
    else
      match rt.parse file.content with
      | none => .invalid .syntaxError
      | some jsonData =>
        match clientValidate jsonData with
        | .error e => .invalid e
        | .ok _ =>
          if !confirmed then .declined
          else if typed ≠ some "УДАЛИТЬ ВСЕ ДАННЫЕ" then .alerted "Импорт отменен"
          else .uploaded "backup_file" file

/-- Modelled from the spec: the multipart upload between the admin panel and
the upload middleware, which is not part of the repository.  The part carries
the form field and the type, size and text of the file; the disk storage keeps
it under `path`. -/
def receivedPart (path : String) (fieldname : String) (file : ClientFile) : FilePart :=
  { fieldname := fieldname, mimetype := file.type, size := file.size, path := path,
    content := file.content }

/-- A backup chosen in the admin panel with the type `text/json`. -/
def textJsonBackup : ClientFile :=
  { type := "text/json", size := 80, content := adminOnlyText }

/-! ## `GET /api/products` and `GET /api/orders` -/

/-- Functions of JavaScript and of the store that the listing handlers take as
given: `parseInt` on a text (`none` is `NaN`) and the case-insensitive pattern
match `ILIKE` of the store. -/
structure Builtins where
  parseInt : String → Option Int
  iLike : String → String → Bool

/-- Truthiness of a query parameter: it is absent or a text, and the empty text
is falsy. -/
def given (x : Option String) : Bool :=
  match x with
  | none => false
  | some s => decide (s ≠ "")

/-- The expression `parseInt(text) || 0`. -/
def parseIntOrZero (b : Builtins) (text : String) : Int :=
  match b.parseInt text with
  | none => 0
  | some n => if n ≠ 0 then n else 0

/-- The expression `search && search.trim()` as a condition. -/
def searchGiven (search : Option String) : Bool :=
  match search with
  | none => false
  | some s => decide (s ≠ "") && decide (jsTrim s ≠ "")

/-- A product as stored, by the columns the listing reads (model `Product`,
lines 118 to 133); a text column is a text or `null`.  `rest` holds the other
columns. -/
structure ProductRow where
  id : Int
  name : String
  description : Option String
  is_visible : Option Bool
  price_options : Option String
  additional_images : Option String
  rest : List (String × JVal)

/-- A product as listed: the row with the two JSON columns decoded. -/
structure ListedProduct where
  id : Int
  name : String
  description : Option String
  is_visible : Option Bool
  price_options : JVal
  additional_images : JVal
  rest : List (String × JVal)

/-- The query of `GET /api/products`; a parameter is absent or a text. -/
structure ProductQuery where
  search : Option String
  filter : Option String
  admin : Option String

/-- The object `whereClause` of `GET /api/products`: each condition is absent
or set. -/
structure ProductWhere where
  is_visible : Option Bool
  description : Option String
  id : Option Int
  name : Option String

/-- The construction of `whereClause` in `GET /api/products` (lines 254 to
279); `filter` defaults to `'name'` when it is absent. -/
def productsWhere (b : Builtins) (q : ProductQuery) : ProductWhere :=
  let w0 : ProductWhere :=
    { is_visible := none, description := none, id := none, name := none }
  let w1 := if !given q.admin then { w0 with is_visible := some true } else w0
  if searchGiven q.search then
    let searchTerm := jsTrim (q.search.getD "")
    let filter := q.filter.getD "name"
    if filter = "description" then { w1 with description := some ("%" ++ searchTerm ++ "%") }
    else if filter = "id" then { w1 with id := some (parseIntOrZero b searchTerm) }
    else { w1 with name := some ("%" ++ searchTerm ++ "%") }
  else w1

/-- The expression `text ? JSON.parse(text) : []` (`none` when `JSON.parse`
throws). -/
def parseOrEmpty (rt : Runtime) (text : Option String) : Option JVal :=
  match text with
  | none => some (.arr [])
  | some s => if s = "" then some (.arr []) else rt.parse s

/-- The callback of `products.map` (lines 288 to 302): both columns are decoded
inside one `try`, and the `catch` returns both as `[]`. -/
def decodeProduct (rt : Runtime) (product : ProductRow) : ListedProduct :=
  match parseOrEmpty rt product.price_options, parseOrEmpty rt product.additional_images with
  | some priceOptions, some additionalImages =>
    { id := product.id, name := product.name, description := product.description,
      is_visible := product.is_visible, price_options := priceOptions,
      additional_images := additionalImages, rest := product.rest }
  | _, _ =>
    { id := product.id, name := product.name, description := product.description,
      is_visible := product.is_visible, price_options := .arr [],
      additional_images := .arr [], rest := product.rest }

/-- The list `processedProducts`. -/
def processedProducts (rt : Runtime) (products : List ProductRow) : List ListedProduct :=
  products.map (decodeProduct rt)

/-- Modelled from the spec: a row satisfies a `where` object of the store
("find-all-with-filter") when it satisfies every condition that is set; a
`null` column satisfies none. -/
def ProductWhere.admits (b : Builtins) (w : ProductWhere) (row : ProductRow) : Bool :=
  (match w.is_visible with
    | none => true
    | some v => decide (row.is_visible = some v)) &&
  (match w.description with
    | none => true
    | some pattern =>
      match row.description with
      | none => false
      | some d => b.iLike pattern d) &&
  (match w.id with
    | none => true
    | some n => decide (row.id = n)) &&
  (match w.name with
    | none => true
    | some pattern => b.iLike pattern row.name)

/-- What a listing handler sends: the 500 error or the list. -/
inductive Listing (α : Type) where
  | error (status : Nat) (message : String)
  | rows (items : List α)

/-- The handler of `GET /api/products` (lines 252 to 310).  `table` is the
table in the order `created_date DESC` of the read; the log lines are left out. -/
def listProducts (b : Builtins) (rt : Runtime) (f : Faults) (q : ProductQuery)
    (table : List ProductRow) : Listing ListedProduct :=
  if f.findAll .products then .error 500 "Ошибка сервера при загрузке товаров"
  else .rows (processedProducts rt (table.filter ((productsWhere b q).admits b)))

/-- An order as stored, by the columns the listing reads (model `Order`, lines
135 to 144). -/
structure OrderRow where
  id : Int
  user_id : Int
  status : Option String
  products : Option String
  assigned_executors : Option String
  rest : List (String × JVal)

/-- An order as listed: the row with the two JSON columns decoded. -/
structure ListedOrder where
  id : Int
  user_id : Int
  status : Option String
  products : JVal
  assigned_executors : JVal
  rest : List (String × JVal)

/-- The query of `GET /api/orders`; a parameter is absent or a text. -/
structure OrderQuery where
  user_id : Option String
  admin : Option String
  executor_id : Option String
  search : Option String
  status : Option String

/-- The object `whereClause` of `GET /api/orders`.  `assigned_executors` is
the pattern of `Op.like`; `user_id` is the result of `parseInt`, `some none`
being `NaN`. -/
structure OrderWhere where
  assigned_executors : Option String
  user_id : Option (Option Int)
  id : Option Int
  status : Option String

/-- The construction of `whereClause` in `GET /api/orders` (lines 371 to 392). -/
def ordersWhere (b : Builtins) (q : OrderQuery) : OrderWhere :=
  let w0 : OrderWhere := { assigned_executors := none, user_id := none, id := none, status := none }
  let w1 :=
    if given q.admin then w0
    else if given q.executor_id then
      { w0 with assigned_executors := some ("%" ++ q.executor_id.getD "" ++ "%") }
    else if given q.user_id then { w0 with user_id := some (b.parseInt (q.user_id.getD "")) }
    else w0
  let w2 :=
    if searchGiven q.search then
      { w1 with id := some (parseIntOrZero b (jsTrim (q.search.getD ""))) }
    else w1
  if given q.status then { w2 with status := q.status } else w2

/-- The callback of `orders.map` (lines 401 to 415). -/
def decodeOrder (rt : Runtime) (order : OrderRow) : ListedOrder :=
  match parseOrEmpty rt order.products, parseOrEmpty rt order.assigned_executors with
  | some products, some assignedExecutors =>
    { id := order.id, user_id := order.user_id, status := order.status, products := products,
      assigned_executors := assignedExecutors, rest := order.rest }
  | _, _ =>
    { id := order.id, user_id := order.user_id, status := order.status, products := .arr [],
      assigned_executors := .arr [], rest := order.rest }

/-- The list `processedOrders`. -/
def processedOrders (rt : Runtime) (orders : List OrderRow) : List ListedOrder :=
  orders.map (decodeOrder rt)

/-- Modelled from the spec: a row satisfies a `where` object of the store when
it satisfies every condition that is set; `Op.like` is the operator `LIKE`. -/
def OrderWhere.admits (w : OrderWhere) (row : OrderRow) : Bool :=
  (match w.assigned_executors with
    | none => true
    | some pattern =>
      match row.assigned_executors with
      | none => false
      | some text => like pattern text) &&
  (match w.user_id with
    | none => true
    | some none => false
    | some (some n) => decide (row.user_id = n)) &&
  (match w.id with
    | none => true
    | some n => decide (row.id = n)) &&
  (match w.status with
    | none => true
    | some s => decide (row.status = some s))

/-- The handler of `GET /api/orders` (lines 371 to 424).  `table` is the table
in the order `created_date DESC` of the read; a comparison of `user_id` with
`NaN` makes the read fail; the log lines are left out. -/
def listOrders (b : Builtins) (rt : Runtime) (f : Faults) (q : OrderQuery)
    (table : List OrderRow) : Listing ListedOrder :=
  if f.findAll .orders || decide ((ordersWhere b q).user_id = some none) then
    .error 500 "Ошибка сервера при загрузке заказов"
  else .rows (processedOrders rt (table.filter (ordersWhere b q).admits))

/-! ## `POST /api/orders` -/

/-- Result of a conversion of JavaScript: it throws a `TypeError`, gives `NaN`,
or gives a value. -/
inductive Converted (α : Type) where
  | threw
  | nan
  | value (a : α)

/-- Conversions of JavaScript that `POST /api/orders` takes as given:
`ToNumber` of a text, an array or an object (used by `<=`), `parseInt` and
`parseFloat` of a value, and `JSON.stringify`. -/
structure Conversions where
  toNumber : JVal → Converted ℚ
  parseInt : JVal → Converted Int
  parseFloat : JVal → Converted ℚ
  stringify : JVal → String

/-- The comparison `x <= 0` on a parsed value (`none` when it throws); a
comparison with `NaN` is false. -/
def leZero (c : Conversions) : JVal → Option Bool
  | .null => some true
  | .bool b => some (!b)
  | .num q => some (decide (q ≤ 0))
  | v =>
    match c.toNumber v with
    | .threw => none
    | .nan => some false
    | .value q => some (decide (q ≤ 0))

/-- The values of `Order.create` in `POST /api/orders`; `none` is `NaN`. -/
structure OrderDraft where
  user_id : Option Int
  products : String
  total_price : Option ℚ
  notes : JVal
  status : String

/-- What `POST /api/orders` sends: an error, or 201 with the created order
(the draft and the `id` the store gave it). -/
inductive OrderResponse where
  | error (status : Nat) (message : String)
  | created (id : Int) (order : OrderDraft)

/-- HTTP status of the answer of `POST /api/orders`. -/
def OrderResponse.status : OrderResponse → Nat
  | .error status _ => status
  | .created _ _ => 201

/-- A conversion inside the `try` block: `none` when it throws. -/
def Converted.result {α : Type} : Converted α → Option (Option α)
  | .threw => none
  | .nan => some none
  | .value a => some (some a)

/-- The comparison `products.length === 0`, evaluated on an array. -/
def hasNoItems (products : JsValue) : Bool :=
  match products with
  | some (.arr items) => items.length = 0
  | _ => false

/-- The handler of `POST /api/orders` (lines 426 to 452).  `createFails` tells
whether `Order.create` rejects, `newId` is the `id` the store gives the row;
the log lines are left out. -/
def createOrder (c : Conversions) (createFails : Bool) (newId : Int) (body : JVal) :
    OrderResponse :=
  let user_id := getProp body "user_id"
  let products := getProp body "products"
  let total_price := getProp body "total_price"
  let notes := getProp body "notes"
  let failure := OrderResponse.error 500 "Ошибка сервера при создании заказа"
  if !truthy user_id || !truthy products || !isArray products || hasNoItems products then
    .error 400 "Некорректные данные заказа"
  else
    match (if truthy total_price then leZero c (total_price.getD .null) else some true) with
    | none => failure
    | some true => .error 400 "Некорректная сумма заказа"
    | some false =>
      match (c.parseInt (user_id.getD .null)).result,
            (c.parseFloat (total_price.getD .null)).result with
      | some userId, some totalPrice =>
        if createFails then failure
        else
          .created newId
            { user_id := userId, products := c.stringify (products.getD .null),
              total_price := totalPrice,
              notes := if truthy notes then notes.getD .null else .str "",
              status := "создан заказ" }
      | _, _ => failure

/-- The condition the specification gives for `total_price`: it is truthy and
greater than 0. -/
def positivePrice (c : Conversions) (total_price : JsValue) : Prop :=
  match total_price with
  | none => False
  | some (.bool b) => b = true
  | some (.num q) => 0 < q
  | some .null => False
  | some v =>
    v.truthy = true ∧ ∃ q, c.toNumber v = .value q ∧ 0 < q

/-- Conversions of the values that occur in the examples: the text `abc` is
not a number, a number converts to itself, and the one list of products has
the JSON text given. -/
def sampleConversions : Conversions where
  toNumber := fun v =>
    match v with
    | .str s => if s = "250" then .value 250 else .nan
    | _ => .nan
  parseInt := fun v =>
    match v with
    | .num q => if q.den = 1 then .value q.num else .nan
    | _ => .nan
  parseFloat := fun v =>
    match v with
    | .num q => .value q
    | .str s => if s = "250" then .value 250 else .nan
    | _ => .nan
  stringify := fun _ => "[\x7b\"id\":3,\"quantity\":1\x7d]"

/-- An order body whose `total_price` is a text that is not a number. -/
def textPriceOrder : JVal :=
  .obj [("user_id", .num 7),
    ("products", .arr [.obj [("id", .num 3), ("quantity", .num 1)]]),
    ("total_price", .str "abc")]

/-! ## `POST /api/login` -/

/-- A user as stored, by the columns the login handler reads (model `User`,
lines 106 to 116). -/
structure UserRow where
  id : Int
  username : String
  password : String
  role : Option String
  avatar : Option String

/-- The body of `POST /api/login`, parsed by `express.json()`: a member is
absent or any JSON value. -/
structure LoginBody where
  username : JsValue
  password : JsValue

/-- What `POST /api/login` sends: an error, or the member `user` with its four
members. -/
inductive LoginResponse where
  | error (status : Nat) (message : String)
  | user (id : Int) (username : String) (role : Option String) (avatar : Option String)

/-- The first row of the table with a given name, if any. -/
def findOneByUsername (users : List UserRow) (username : String) : Option UserRow :=
  users.find? (fun u => decide (u.username = username))

/-- Modelled from the spec: `User.findOne({ where: { username } })`,
"find-all-with-filter" of the store limited to one row; the outer `none` is a
rejected read.  For a text it is the first row with that name.  What the ORM
makes of a condition on a value that is not a text is left to `findOther`. -/
def findOne (findOther : JVal → Option (Option UserRow)) (users : List UserRow)
    (username : JVal) : Option (Option UserRow) :=
  match username with
  | .str name => some (findOneByUsername users name)
  | v => findOther v

/-- Modelled from the spec: `bcrypt.compareSync(password, hash)` of the hashing
library, which is not part of the repository.  For a text it is the comparison
`compare` of the password with the hash; for a password that is not a text the
library throws (`none`). -/
def compareSync (compare : String → String → Bool) (password : JVal) (hash : String) :
    Option Bool :=
  match password with
  | .str text => some (compare text hash)
  | _ => none

/-- The handler of `POST /api/login` (lines 194 to 220).  `findFails` tells
whether `User.findOne` rejects; an exception in the `try` block is answered by
the `catch` block with 500; the log lines are left out. -/
def login (compare : String → String → Bool) (findOther : JVal → Option (Option UserRow))
    (findFails : Bool) (users : List UserRow) (body : LoginBody) : LoginResponse :=
  if !truthy body.username || !truthy body.password then
    .error 400 "Укажите имя пользователя и пароль"
  else if findFails then .error 500 "Ошибка сервера при входе"
  else
    match findOne findOther users (body.username.getD .null) with
    | none => .error 500 "Ошибка сервера при входе"
    | some none => .error 401 "Неверные учетные данные"
    | some (some user) =>
      match compareSync compare (body.password.getD .null) user.password with
      | none => .error 500 "Ошибка сервера при входе"
      | some false => .error 401 "Неверные учетные данные"
      | some true => .user user.id user.username user.role user.avatar

/-- A table with the default administrator. -/
def sampleUsers : List UserRow :=
  [{ id := 1, username := "admin", password := "$2b$10$hashOfAdmin", role := some "admin",
     avatar := none }]

/-- A password check for the examples: only `123456` matches the hash of the
default administrator. -/
def sampleCompare (password hash : String) : Bool :=
  decide (password = "123456") && decide (hash = "$2b$10$hashOfAdmin")

/-- A lookup for the examples: a name that is not a text finds no user. -/
def noOther (_ : JVal) : Option (Option UserRow) := some none

/-- The body `\x7b"username":"admin","password":1\x7d`: the password is a number. -/
def numberPassword : LoginBody :=
  { username := some (.str "admin"), password := some (.num 1) }

/-! ## Discount rules in the admin panel (`Settings.jsx`) -/

/-- A discount rule of `settings.discount_rules`; `conditions` is kept as the
object it is. -/
structure DiscountRule where
  id : ℚ
  name : String
  type : String
  value : ℚ
  conditions : JVal

/-- The state `newDiscount` of the form: `value` is a number, set by
`parseFloat(e.target.value) || 0`. -/
structure DiscountForm where
  name : String
  type : String
  value : ℚ
  conditions : JVal

/-- The state `settings` of the admin panel. -/
structure SettingsState where
  payment_info : String
  price_coefficient : ℚ
  discount_rules : List DiscountRule
  show_discount_on_products : Bool

/-- How `addDiscount` and `removeDiscount` end: an `alert`, or the call of
`updateSettings` with the settings to submit. -/
inductive DiscountStep where
  | alerted (text : String)
  | submitted (settings : SettingsState)

/-- The function `addDiscount` (lines 191 to 232).  `parseFloat` of a number is
that number; `freshId` is `Date.now() + Math.random()`; `rebuilt` is the object
`conditions` rebuilt by lines 215 to 221. -/
def addDiscount (freshId : ℚ) (rebuilt : JVal → JVal) (settings : SettingsState)
    (newDiscount : DiscountForm) : DiscountStep :=
  if decide (newDiscount.name = "") || decide (jsTrim newDiscount.name = "") then
    .alerted "Укажите название скидки"
  else if decide (newDiscount.value = 0) || decide (newDiscount.value ≤ 0) then
    .alerted "Укажите корректное значение скидки"
  else if decide (newDiscount.type = "percentage") && decide (newDiscount.value > 100) then
    .alerted "Процентная скидка не может превышать 100%"
  else
    let newDiscountRule : DiscountRule :=
      { id := freshId, name := jsTrim newDiscount.name, type := newDiscount.type,
        value := newDiscount.value, conditions := rebuilt newDiscount.conditions }
    let updatedRules := settings.discount_rules ++ [newDiscountRule]
    .submitted { settings with discount_rules := updatedRules }

/-- The function `removeDiscount` (lines 261 to 264). -/
def removeDiscount (settings : SettingsState) (discountId : ℚ) : DiscountStep :=
  let updatedRules := settings.discount_rules.filter (fun rule => decide (rule.id ≠ discountId))
  .submitted { settings with discount_rules := updatedRules }

/-- The predicate of the specification on a rule: a non-blank name, a value
greater than 0, and for the type `percentage` a value of at most 100. -/
def validRule (rule : DiscountRule) : Prop :=
  jsTrim rule.name ≠ "" ∧ 0 < rule.value ∧ (rule.type = "percentage" → rule.value ≤ 100)

/-- Settings with one discount rule. -/
def sampleSettings : SettingsState :=
  { payment_info := "card", price_coefficient := 5,
    discount_rules :=
      [{ id := 17, name := "Spring", type := "percentage", value := 10, conditions := .obj [] }],
    show_discount_on_products := false }

/-- A form with a name that has blanks around it. -/
def sampleForm : DiscountForm :=
  { name := "  Loyal  ", type := "fixed", value := 250, conditions := .obj [] }

/-! ## Properties and samples for the listings -/

/-- A stored JSON column decodes to a value: an absent or empty text to `[]`,
another text to what `JSON.parse` gives for it. -/
def decodesTo (rt : Runtime) (text : Option String) (v : JVal) : Prop :=
  ((text = none ∨ text = some "") ∧ v = .arr []) ∨
    ∃ s, text = some s ∧ s ≠ "" ∧ rt.parse s = some v

/-- A stored JSON column fails to parse. -/
def unparsable (rt : Runtime) (text : Option String) : Prop :=
  ∃ s, text = some s ∧ s ≠ "" ∧ rt.parse s = none

/-- A query parameter is non-blank after trimming. -/
def nonBlank (x : Option String) : Prop :=
  ∃ s, x = some s ∧ jsTrim s ≠ ""

/-- A runtime that parses the JSON texts of the sample rows. -/
def listRuntime : Runtime where
  parse := fun text =>
    if text = "[]" then some (.arr [])
    else if text = "[5]" then some (.arr [.num 5])
    else if text = "[12]" then some (.arr [.num 12])
    else if text = "[\x7b\"size\":\"S\",\"price\":100\x7d]" then
      some (.arr [.obj [("size", .str "S"), ("price", .num 100)]])
    else none
  coerceGtZero := fun _ => some false

/-- The functions `parseInt` and `ILIKE` on the texts that occur in the
examples. -/
def sampleBuiltins : Builtins where
  parseInt := fun text =>
    if text = "7" then some 7 else if text = "12" then some 12 else none
  iLike := fun pattern text => decide (pattern = "%vase%") && decide (text = "Blue Vase")

/-- A product whose `price_options` is valid JSON and whose
`additional_images` is not. -/
def halfBrokenProduct : ProductRow :=
  { id := 3, name := "Blue Vase", description := none, is_visible := some true,
    price_options := some "[\x7b\"size\":\"S\",\"price\":100\x7d]",
    additional_images := some "[img1.png", rest := [("parts_count", .num 1)] }

/-- A hidden product with no images. -/
def hiddenProduct : ProductRow :=
  { id := 4, name := "Draft", description := none, is_visible := some false,
    price_options := some "[]", additional_images := none, rest := [] }

/-- An order assigned to executor 5 only. -/
def orderOfFive : OrderRow :=
  { id := 9, user_id := 4, status := some "создан заказ", products := some "[]",
    assigned_executors := some "[5]", rest := [] }

/-- An order assigned to executor 12 only. -/
def orderOfTwelve : OrderRow :=
  { id := 10, user_id := 7, status := some "создан заказ", products := some "[]",
    assigned_executors := some "[12]", rest := [] }

/-- The query `?executor_id=_`. -/
def wildcardQuery : OrderQuery :=
  { user_id := none, admin := none, executor_id := some "_", search := none, status := none }

/-- The query `?executor_id=1`. -/
def executorOneQuery : OrderQuery :=
  { user_id := none, admin := none, executor_id := some "1", search := none, status := none }

/-! ## Basic facts about the effects -/

set_option maxRecDepth 8192

section Effects

variable (rt : Runtime) (f : Faults)

@[simp]
theorem emit_events (e : Event) (st : RunState) :
    (emit e st).events = st.events ++ [e] := rfl

@[simp]
theorem emit_visible (e : Event) (st : RunState) :
    (emit e st).visible = st.visible := rfl

@[simp]
theorem emit_working (e : Event) (st : RunState) :
    (emit e st).working = st.working := rfl

@[simp]
theorem emit_tempFile (e : Event) (st : RunState) :
    (emit e st).tempFile = st.tempFile := rfl

@[simp]
theorem beginTransaction_events (st : RunState) :
    (beginTransaction f st).2.events = st.events ++ [Event.beginTransaction] := by
  unfold beginTransaction; split <;> rfl

@[simp]
theorem beginTransaction_visible (st : RunState) :
    (beginTransaction f st).2.visible = st.visible := by
  unfold beginTransaction; split <;> rfl

@[simp]
theorem beginTransaction_tempFile (st : RunState) :
    (beginTransaction f st).2.tempFile = st.tempFile := by
  unfold beginTransaction; split <;> rfl

@[simp]
theorem destroy_events (t : Table) (b : Bool) (st : RunState) :
    (destroy f t b st).2.events = st.events ++ [Event.destroy t b] := by
  unfold destroy; split
  · rfl
  · split <;> rfl

@[simp]
theorem destroy_visible (t : Table) (st : RunState) :
    (destroy f t true st).2.visible = st.visible := by
  unfold destroy; split
  · rfl
  · rfl

@[simp]
theorem destroy_tempFile (t : Table) (b : Bool) (st : RunState) :
    (destroy f t b st).2.tempFile = st.tempFile := by
  unfold destroy; split
  · rfl
  · split <;> rfl

@[simp]
theorem bulkCreate_events (t : Table) (records : JVal) (b : Bool) (st : RunState) :
    (bulkCreate f t records b st).2.events = st.events ++ [Event.bulkCreate t records b] := by
  unfold bulkCreate
  split
  · rfl
  · split
    · split <;> rfl
    · rfl

@[simp]
theorem bulkCreate_visible (t : Table) (records : JVal) (st : RunState) :
    (bulkCreate f t records true st).2.visible = st.visible := by
  unfold bulkCreate
  split
  · rfl
  · split <;> rfl

@[simp]
theorem bulkCreate_tempFile (t : Table) (records : JVal) (b : Bool) (st : RunState) :
    (bulkCreate f t records b st).2.tempFile = st.tempFile := by
  unfold bulkCreate
  split
  · rfl
  · split
    · split <;> rfl
    · rfl

@[simp]
theorem commit_events (st : RunState) :
    (commit f st).2.events = st.events ++ [Event.commit] := by
  cases hw : st.working <;> by_cases hc : f.commit = true <;> simp [commit, hw, hc]

@[simp]
theorem commit_tempFile (st : RunState) :
    (commit f st).2.tempFile = st.tempFile := by
  cases hw : st.working <;> by_cases hc : f.commit = true <;> simp [commit, hw, hc]

@[simp]
theorem rollback_events (st : RunState) :
    (rollback f st).2.events = st.events ++ [Event.rollback] := by
  unfold rollback; split <;> rfl

@[simp]
theorem rollback_tempFile (st : RunState) :
    (rollback f st).2.tempFile = st.tempFile := by
  unfold rollback; split <;> rfl

@[simp]
theorem findAll_events (t : Table) (st : RunState) :
    (findAll f t st).2.events = st.events ++ [Event.findAll t] := by
  unfold findAll; split <;> rfl

@[simp]
theorem findAll_visible (t : Table) (st : RunState) :
    (findAll f t st).2.visible = st.visible := by
  unfold findAll; split <;> rfl

@[simp]
theorem unlinkTemp_visible (path : String) (st : RunState) :
    (unlinkTemp f path st).visible = st.visible := by
  unfold unlinkTemp; split <;> rfl

@[simp]
theorem unlinkTemp_working (path : String) (st : RunState) :
    (unlinkTemp f path st).working = st.working := by
  unfold unlinkTemp; split <;> rfl

theorem unlinkTemp_events (path : String) (st : RunState) :
    (unlinkTemp f path st).events =
      st.events ++ Event.unlink path ::
        (if f.unlink then [Event.logWarn "Ошибка удаления временного файла:" Failure.unlink]
         else []) := by
  unfold unlinkTemp; split <;> simp

@[simp]
theorem insertStep_visible (v : JVal) (t : Table) (st : RunState) :
    (insertStep rt f v t st).2.visible = st.visible := by
  unfold insertStep
  split
  · rfl
  · rfl
  · split
    · simp
    · rfl

@[simp]
theorem insertStep_tempFile (v : JVal) (t : Table) (st : RunState) :
    (insertStep rt f v t st).2.tempFile = st.tempFile := by
  unfold insertStep
  split
  · rfl
  · rfl
  · split
    · simp
    · rfl

theorem insertStep_events_mono (v : JVal) (t : Table) (st : RunState) (e : Event)
    (h : e ∈ st.events) : e ∈ (insertStep rt f v t st).2.events := by
  unfold insertStep
  split
  · exact h
  · exact h
  · split
    · simp [h]
    · exact h

theorem unlinkTemp_events_mono (path : String) (st : RunState) (e : Event)
    (h : e ∈ st.events) : e ∈ (unlinkTemp f path st).events := by
  rw [unlinkTemp_events]; simp [h]

theorem rollbackLogged_events_mono (st : RunState) (e : Event)
    (h : e ∈ st.events) : e ∈ (rollbackLogged f st).events := by
  unfold rollbackLogged
  simp only []
  split <;> simp [h]

theorem restoreCatch_events_mono (req : Request) (cause : Failure) (tx : Bool)
    (st : RunState) (e : Event) (h : e ∈ st.events) :
    e ∈ (restoreCatch f req cause tx st).state.events := by
  have h1 : e ∈ (if tx then rollbackLogged f st else st).events := by
    split
    · exact rollbackLogged_events_mono f st e h
    · exact h
  unfold restoreCatch
  simp only [emit_events, List.mem_append, List.mem_singleton]
  left
  split
  · split
    · exact unlinkTemp_events_mono f _ _ e h1
    · exact h1
  · exact h1

theorem restoreFinish_events_mono (req : Request) (c : Completion) (e : Event)
    (h : e ∈ c.state.events) : e ∈ (restoreFinish f req c).state.events := by
  cases c with
  | responded r st => exact h
  | threw cause tx st => exact restoreCatch_events_mono f req cause tx st e h

@[simp]
theorem clearTables_visible (st : RunState) : (clearTables f st).2.visible = st.visible := by
  unfold clearTables
  simp only []
  split_ifs <;> simp

@[simp]
theorem clearTables_tempFile (st : RunState) :
    (clearTables f st).2.tempFile = st.tempFile := by
  unfold clearTables
  simp only []
  split_ifs <;> simp

@[simp]
theorem clearTables_events (st : RunState) :
    (clearTables f st).2.events =
      st.events ++ [Event.destroy .users true, Event.destroy .products true,
        Event.destroy .orders true, Event.destroy .settings true] := by
  unfold clearTables
  simp only []
  split_ifs <;> simp

@[simp]
theorem repopulate_visible (v : JVal) (st : RunState) :
    (repopulate rt f v st).2.visible = st.visible := by
  unfold repopulate
  simp only []
  repeat' split
  all_goals simp

@[simp]
theorem repopulate_tempFile (v : JVal) (st : RunState) :
    (repopulate rt f v st).2.tempFile = st.tempFile := by
  unfold repopulate
  simp only []
  repeat' split
  all_goals simp

theorem repopulate_events_mono (v : JVal) (st : RunState) (e : Event)
    (h : e ∈ st.events) : e ∈ (repopulate rt f v st).2.events := by
  have h1 := insertStep_events_mono rt f v .users st e h
  have h2 := insertStep_events_mono rt f v .products _ e h1
  have h3 := insertStep_events_mono rt f v .orders _ e h2
  have h4 := insertStep_events_mono rt f v .settings _ e h3
  unfold repopulate
  simp only []
  repeat' split
  all_goals first | exact h1 | exact h2 | exact h3 | exact h4

theorem commitAndRespond_events_mono (path : String) (v : JVal) (st : RunState) (e : Event)
    (h : e ∈ st.events) : e ∈ (commitAndRespond f path v st).state.events := by
  have h1 : e ∈ (commit f st).2.events := by simp [h]
  have h2 := unlinkTemp_events_mono f path _ e h1
  unfold commitAndRespond
  simp only []
  repeat' split
  all_goals simp [Completion.state, h, h2]

theorem restoreTransaction_begins (path : String) (v : JVal) (st : RunState) :
    Event.beginTransaction ∈ (restoreTransaction rt f path v st).state.events := by
  have hb : Event.beginTransaction ∈ (beginTransaction f st).2.events := by simp
  unfold restoreTransaction
  simp only []
  split
  · exact hb
  · split
    · simp [Completion.state]
    · split
      · simp [Completion.state, repopulate_events_mono]
      · apply commitAndRespond_events_mono
        apply repopulate_events_mono
        simp

end Effects

/-! ## Validation -/

section Validation

variable (rt : Runtime) (f : Faults)

theorem isArray_truthy (x : JsValue) (h : isArray x = true) : truthy x = true := by
  unfold isArray at h
  split at h
  · rfl
  · simp at h

theorem missing_iff_absentOrNotSequence (x : JsValue) :
    (!truthy x || !isArray x) = absentOrNotSequence x := by
  cases x with
  | none => rfl
  | some v => cases v <;> simp [truthy, isArray, absentOrNotSequence, JVal.truthy]

theorem missingFields_eq (v : JVal) :
    missingFields v = requiredFields.filter (fun k => absentOrNotSequence (getProp v k)) := by
  unfold missingFields
  congr 1
  funext k
  exact missing_iff_absentOrNotSequence _

theorem accepts_iff (v : JVal) :
    (badStructure v = false ∧ missingFields v = []) ↔ isBackupDocument v = true := by
  rw [missingFields_eq]
  cases v with
  | null => simp [badStructure, JVal.truthy, isBackupDocument]
  | bool b => simp [badStructure, typeof, isBackupDocument]
  | num q => simp [badStructure, typeof, isBackupDocument]
  | str s => simp [badStructure, typeof, isBackupDocument]
  | arr items =>
    simp [badStructure, typeof, isBackupDocument, requiredFields, getProp, absentOrNotSequence,
      List.filter]
  | obj props =>
    cases hu : props.lookup "users" with
    | none =>
      simp [badStructure, typeof, isBackupDocument, requiredFields, getProp,
        absentOrNotSequence, List.filter, hu]
    | some u =>
      cases hp : props.lookup "products" with
      | none =>
        cases u <;>
        simp [badStructure, typeof, isBackupDocument, requiredFields, getProp,
          absentOrNotSequence, List.filter, hu, hp]
      | some p =>
        cases ho : props.lookup "orders" with
        | none =>
          cases u <;> cases p <;>
          simp [badStructure, typeof, isBackupDocument, requiredFields, getProp,
            absentOrNotSequence, List.filter, hu, hp, ho]
        | some o =>
          cases u <;> cases p <;> cases o <;>
          simp [badStructure, typeof, isBackupDocument, requiredFields, getProp,
            absentOrNotSequence, List.filter, hu, hp, ho, JVal.truthy]

theorem backupRestore_upload (file : UploadedFile) (store : Store) :
    backupRestore rt f { file := some file } store =
      restoreFinish f { file := some file }
        (restoreTry rt f { file := some file } (initialState store true)) := rfl

theorem restoreTry_rejected (file : UploadedFile) (st : RunState) (v : JVal)
    (hread : f.readFile = false) (hparse : rt.parse file.content = some v)
    (hv : isBackupDocument v = false) :
    ∃ message, restoreTry rt f { file := some file } st =
      .responded (.error 400 message) (emit (.readFile file.path) st) := by
  have hacc := accepts_iff v
  simp only [restoreTry, hread, hparse]
  by_cases hb : badStructure v = true
  · exact ⟨"Некорректная структура данных", by simp [hb]⟩
  · by_cases hm : missingFields v = []
    · exfalso
      have := hacc.mp ⟨by simpa using hb, hm⟩
      simp [hv] at this
    · have hlen : (missingFields v).length > 0 := List.length_pos.mpr hm
      exact ⟨"Отсутствуют обязательные поля: " ++ ", ".intercalate (missingFields v),
        by simp [hb, hlen]⟩

theorem restoreTry_accepted (file : UploadedFile) (st : RunState) (v : JVal)
    (hread : f.readFile = false) (hparse : rt.parse file.content = some v)
    (hv : isBackupDocument v = true) :
    restoreTry rt f { file := some file } st =
      restoreTransaction rt f file.path v (emit (.readFile file.path) st) := by
  obtain ⟨hb, hm⟩ := (accepts_iff v).mpr hv
  simp [restoreTry, hread, hparse, hb, hm]

/-- C4: a parsed value (the upload was read and its text parsed) passes the
validation of the restore handler, that is the handler goes on to open the
transaction, exactly when it is a mapping in
which `users`, `products` and `orders` are each present and a sequence (an
empty one included); every other value (null, a boolean, a number, a string,
an array, a mapping with an absent or non-sequence required key) is answered
with status 400. -/
theorem restore_validation_exact (rt : Runtime) (f : Faults) (file : UploadedFile)
    (store : Store) (v : JVal)
    (hread : f.readFile = false) (hparse : rt.parse file.content = some v) :
    (Event.beginTransaction ∈ (backupRestore rt f { file := some file } store).state.events ↔
        isBackupDocument v = true) ∧
      (isBackupDocument v = false →
        (backupRestore rt f { file := some file } store).response.status = 400) := by
  constructor
  · constructor
    · intro hmem
      by_contra hv
      have hv2 : isBackupDocument v = false := by simpa using hv
      obtain ⟨message, hm⟩ := restoreTry_rejected rt f file (initialState store true) v hread hparse hv2
      rw [backupRestore_upload, hm] at hmem
      simp [restoreFinish, initialState] at hmem
    · intro hv
      rw [backupRestore_upload]
      apply restoreFinish_events_mono
      rw [restoreTry_accepted rt f file _ v hread hparse hv]
      exact restoreTransaction_begins rt f _ _ _
  · intro hv
    obtain ⟨message, hm⟩ := restoreTry_rejected rt f file (initialState store true) v hread hparse hv
    rw [backupRestore_upload, hm]
    rfl

/-- C4 on the sample document with one administrator: the file is read, the
text parses, and the handler opens the transaction. -/
theorem restore_validation_exact_witness :
    noFaults.readFile = false ∧ sampleRuntime.parse adminOnlyText = some adminOnly ∧
      Event.beginTransaction ∈
        (backupRestore sampleRuntime noFaults (sampleUpload adminOnlyText) sampleStore).state.events :=
  ⟨rfl, rfl,
    (restore_validation_exact sampleRuntime noFaults (sampleFile adminOnlyText) sampleStore
      adminOnly rfl rfl).1.mpr rfl⟩

/-- C5: for every parsed object, the list `missingFields` is the sublist of
`users`, `products`, `orders`, in that order, whose value is absent or not a
sequence, and when it is not empty the answer is 400 with a message that names
every element of the list, joined by a comma and a blank. -/
theorem missing_fields_reported (rt : Runtime) (f : Faults) (file : UploadedFile)
    (store : Store) (v : JVal)
    (hread : f.readFile = false) (hparse : rt.parse file.content = some v)
    (hobj : badStructure v = false) :
    missingFields v =
        ["users", "products", "orders"].filter (fun k => absentOrNotSequence (getProp v k)) ∧
      (missingFields v ≠ [] →
        (backupRestore rt f { file := some file } store).response =
          .error 400
            ("Отсутствуют обязательные поля: " ++ ", ".intercalate (missingFields v))) := by
  refine ⟨missingFields_eq v, fun hm => ?_⟩
  have hlen : (missingFields v).length > 0 := List.length_pos.mpr hm
  rw [backupRestore_upload]
  simp [restoreTry, hread, hparse, hobj, hlen, restoreFinish]

/-- C5 on the sample document that lacks both `products` and `orders`: both
are named in the message. -/
theorem missing_fields_reported_witness :
    noFaults.readFile = false ∧ sampleRuntime.parse usersOnlyText = some usersOnly ∧
      badStructure usersOnly = false ∧
      missingFields usersOnly = ["products", "orders"] ∧
      (backupRestore sampleRuntime noFaults (sampleUpload usersOnlyText) sampleStore).response =
        .error 400 "Отсутствуют обязательные поля: products, orders" :=
  ⟨rfl, rfl, rfl, rfl,
    (missing_fields_reported sampleRuntime noFaults (sampleFile usersOnlyText) sampleStore
      usersOnly rfl rfl rfl).2
      (by decide)⟩

/-- C6: a request without an uploaded file, or whose file is not valid JSON, or
whose parsed value fails the validation, is answered with 400; the handler
opens no transaction, issues no delete, insert, commit or rollback, and the
four tables are as they were. -/
theorem no_mutation_before_validation (rt : Runtime) (f : Faults) (req : Request)
    (store : Store)
    (h : req.file = none ∨
      ∃ file, req.file = some file ∧ f.readFile = false ∧
        (rt.parse file.content = none ∨
          ∃ v, rt.parse file.content = some v ∧
            (badStructure v = true ∨ missingFields v ≠ []))) :
    (backupRestore rt f req store).response.status = 400 ∧
      (backupRestore rt f req store).state.visible = store ∧
      (backupRestore rt f req store).state.working = none ∧
      ∀ e ∈ (backupRestore rt f req store).state.events, e.touchesStore = false := by
  obtain ⟨file⟩ := req
  rcases h with h | ⟨upload, hfile, hread, hparse | ⟨v, hparse, hbad⟩⟩
  · simp only at h
    subst h
    simp [backupRestore, restoreTry, restoreFinish, initialState, Response.status]
  · simp only at hfile
    subst hfile
    rw [backupRestore_upload]
    simp [restoreTry, hread, hparse, restoreFinish, initialState, Response.status,
      Event.touchesStore]
  · simp only at hfile
    subst hfile
    have hv : isBackupDocument v = false := by
      by_contra hcon
      have hacc := (accepts_iff v).mpr (by simpa using hcon)
      rcases hbad with hb | hm
      · simp [hacc.1] at hb
      · exact hm hacc.2
    obtain ⟨message, hm⟩ :=
      restoreTry_rejected rt f upload (initialState store true) v hread hparse hv
    rw [backupRestore_upload, hm]
    simp [restoreFinish, initialState, Response.status, Event.touchesStore]

/-- C6 on an upload whose text is not JSON. -/
theorem no_mutation_before_validation_witness :
    (sampleUpload "backup of monday").file = some (sampleFile "backup of monday") ∧
      noFaults.readFile = false ∧ sampleRuntime.parse "backup of monday" = none ∧
      (backupRestore sampleRuntime noFaults (sampleUpload "backup of monday")
        sampleStore).response.status = 400 ∧
      (backupRestore sampleRuntime noFaults (sampleUpload "backup of monday")
        sampleStore).state.visible = sampleStore :=
  ⟨rfl, rfl, rfl,
    (no_mutation_before_validation sampleRuntime noFaults (sampleUpload "backup of monday")
      sampleStore (Or.inr ⟨sampleFile "backup of monday", rfl, rfl, Or.inl rfl⟩)).1,
    (no_mutation_before_validation sampleRuntime noFaults (sampleUpload "backup of monday")
      sampleStore (Or.inr ⟨sampleFile "backup of monday", rfl, rfl, Or.inl rfl⟩)).2.1⟩

end Validation

/-! ## The transaction -/

section Transaction

variable (rt : Runtime) (f : Faults)

theorem hasRecords_arr (rows : List JVal) :
    hasRecords rt (some (.arr rows)) = some (decide (0 < rows.length)) := by
  simp [hasRecords, JVal.truthy, getProp, gtZero]

theorem providedRows_of_no_records (v : JVal) (t : Table)
    (h : hasRecords rt (getProp v t.key) = some false) : providedRows v t = [] := by
  unfold providedRows
  split
  · rename_i rows hrows
    rw [hrows, hasRecords_arr] at h
    simpa using h
  · rfl

theorem Store.setRows_append_nil (s : Store) (t : Table) :
    s.setRows t (s.rows t ++ []) = s := by
  cases t <;> simp [Store.setRows, Store.rows]

theorem beginTransaction_ok (st : RunState) (h : f.beginTransaction = false) :
    (beginTransaction f st).1 = true ∧ (beginTransaction f st).2.working = some st.visible := by
  simp [beginTransaction, h]

theorem beginTransaction_failed (st : RunState) (h : (beginTransaction f st).1 = false) :
    (beginTransaction f st).2.working = st.working := by
  unfold beginTransaction at h ⊢
  split
  · rfl
  · rename_i hb
    simp [hb] at h

theorem destroy_ok (t : Table) (st : RunState) (h : f.destroy t = false) :
    (destroy f t true st).1 = true ∧
      (destroy f t true st).2.working = st.working.map (fun s => s.setRows t []) := by
  simp [destroy, h]

theorem destroy_flagged (t : Table) (st : RunState) (h : f.destroy t = true) :
    (destroy f t true st).1 = false := by
  simp [destroy, h]

theorem clearTables_ok (st : RunState) (s : Store) (h : ∀ t, f.destroy t = false)
    (hw : st.working = some s) :
    (clearTables f st).1 = none ∧
      (clearTables f st).2.working =
        some { users := [], products := [], orders := [], settings := [] } := by
  simp [clearTables, destroy_ok, h, hw, Store.setRows]

theorem clearTables_flagged (st : RunState) (t : Table) (h : f.destroy t = true) :
    ∃ cause, (clearTables f st).1 = some cause := by
  unfold clearTables
  simp only []
  split_ifs with h1 h2 h3 h4
  · exact ⟨_, rfl⟩
  · exact ⟨_, rfl⟩
  · exact ⟨_, rfl⟩
  · exact ⟨_, rfl⟩
  · exfalso
    cases t
    · simp [destroy_flagged f _ _ h] at h1
    · simp [destroy_flagged f _ _ h] at h2
    · simp [destroy_flagged f _ _ h] at h3
    · simp [destroy_flagged f _ _ h] at h4

theorem storedRows_nil (t : Table) : storedRows f t [] = some [] := rfl

theorem columnValue_congr (g : Faults) (hs : g.supplied = f.supplied)
    (hc : g.convert = f.convert) (t : Table) (k : Nat) (record : JVal) (c : Column) :
    columnValue g t k record c = columnValue f t k record c := by
  unfold columnValue
  rw [hs, hc]

theorem fillColumns_congr (g : Faults) (hs : g.supplied = f.supplied)
    (hc : g.convert = f.convert) (t : Table) (k : Nat) (record : JVal) (cs : List Column) :
    fillColumns g t k record cs = fillColumns f t k record cs := by
  induction cs with
  | nil => rfl
  | cons c cs ih => simp only [fillColumns, ih, columnValue_congr f g hs hc]

theorem storedRowsFrom_congr (g : Faults) (hs : g.supplied = f.supplied)
    (hc : g.convert = f.convert) (t : Table) (k : Nat) (records : List JVal) :
    storedRowsFrom g t k records = storedRowsFrom f t k records := by
  induction records generalizing k with
  | nil => rfl
  | cons record records ih =>
    simp only [storedRowsFrom, makeRow, ih, fillColumns_congr f g hs hc]

theorem storedRows_congr (g : Faults) (hs : g.supplied = f.supplied)
    (hc : g.convert = f.convert) (t : Table) (records : List JVal) :
    storedRows g t records = storedRows f t records :=
  storedRowsFrom_congr f g hs hc t 0 records

theorem writeFails_congr (g : Faults) (hd : g.destroy = f.destroy)
    (hb : g.bulkCreate = f.bulkCreate) (hs : g.supplied = f.supplied)
    (hc : g.convert = f.convert) (v : JVal) (h : f.writeFails rt v) : g.writeFails rt v := by
  unfold Faults.writeFails at h ⊢
  rw [hd, hb]
  simp only [storedRows_congr f g hs hc]
  exact h

theorem batchRows_provided (v : JVal) (t : Table) (records : JVal)
    (h : getProp v t.key = some records) :
    batchRows f t records =
      if isArray (some records) then storedRows f t (providedRows v t) else none := by
  cases records <;> simp [batchRows, isArray, providedRows, h]

theorem batchRows_congr (g : Faults) (hs : g.supplied = f.supplied)
    (hc : g.convert = f.convert) (t : Table) (records : JVal) :
    batchRows g t records = batchRows f t records := by
  cases records <;> simp [batchRows, storedRows_congr f g hs hc]

theorem bulkCreate_congr (g : Faults) (hb : g.bulkCreate = f.bulkCreate)
    (hs : g.supplied = f.supplied) (hc : g.convert = f.convert) (t : Table) (records : JVal)
    (b : Bool) (st : RunState) : bulkCreate g t records b st = bulkCreate f t records b st := by
  unfold bulkCreate
  rw [hb, batchRows_congr f g hs hc]

theorem insertStep_congr (g : Faults) (hb : g.bulkCreate = f.bulkCreate)
    (hs : g.supplied = f.supplied) (hc : g.convert = f.convert) (v : JVal) (t : Table)
    (st : RunState) : insertStep rt g v t st = insertStep rt f v t st := by
  unfold insertStep
  simp only [bulkCreate_congr f g hb hs hc]

theorem repopulate_congr (g : Faults) (hb : g.bulkCreate = f.bulkCreate)
    (hs : g.supplied = f.supplied) (hc : g.convert = f.convert) (v : JVal) (st : RunState) :
    repopulate rt g v st = repopulate rt f v st := by
  unfold repopulate
  simp only [insertStep_congr rt f g hb hs hc]

theorem fillColumns_some_cons (t : Table) (k : Nat) (record : JVal) (c : Column)
    (cs : List Column) (props : List (String × JVal))
    (h : fillColumns f t k record (c :: cs) = some props) :
    ∃ v rest, columnValue f t k record c = some v ∧ fillColumns f t k record cs = some rest ∧
      props = (c.name, v) :: rest := by
  simp only [fillColumns] at h
  cases hv : columnValue f t k record c with
  | none => simp [hv] at h
  | some v =>
    cases hr : fillColumns f t k record cs with
    | none => simp [hv, hr] at h
    | some rest =>
      simp [hv, hr] at h
      exact ⟨v, rest, rfl, rfl, h.symm⟩

theorem fillColumns_keys (t : Table) (k : Nat) (record : JVal) (cs : List Column)
    (props : List (String × JVal)) (h : fillColumns f t k record cs = some props) :
    props.map Prod.fst = cs.map Column.name := by
  induction cs generalizing props with
  | nil =>
    have hp : props = [] := (Option.some.inj h).symm
    rw [hp]
    rfl
  | cons c cs ih =>
    obtain ⟨v, rest, _, hr, hp⟩ := fillColumns_some_cons f t k record c cs props h
    rw [hp, List.map_cons, List.map_cons, ih rest hr]

theorem fillColumns_lookup (t : Table) (k : Nat) (record : JVal) (cs : List Column)
    (props : List (String × JVal)) (h : fillColumns f t k record cs = some props)
    (hnd : (cs.map Column.name).Nodup) :
    ∀ c ∈ cs, props.lookup c.name = columnValue f t k record c := by
  induction cs generalizing props with
  | nil =>
    intro c hc
    cases hc
  | cons c0 cs ih =>
    obtain ⟨v, rest, hv, hr, hp⟩ := fillColumns_some_cons f t k record c0 cs props h
    rw [List.map_cons, List.nodup_cons] at hnd
    intro c hc
    rw [hp]
    by_cases hname : c.name = c0.name
    · have hsame : columnValue f t k record c = columnValue f t k record c0 := by
        rcases List.mem_cons.mp hc with hc | hc
        · rw [hc]
        · exact absurd (hname ▸ List.mem_map_of_mem Column.name hc) hnd.1
      rw [hsame, hv, hname]
      simp [List.lookup]
    · have hc2 : c ∈ cs := by
        rcases List.mem_cons.mp hc with hc | hc
        · exact absurd (by rw [hc]) hname
        · exact hc
      have hb : (c.name == c0.name) = false := by simpa using hname
      rw [← ih rest hr hnd.2 c hc2]
      simp [List.lookup, hb]

theorem fillColumns_value (t : Table) (k : Nat) (record : JVal) (cs : List Column)
    (props : List (String × JVal)) (h : fillColumns f t k record cs = some props) :
    ∀ c ∈ cs, ∃ w, columnValue f t k record c = some w := by
  induction cs generalizing props with
  | nil =>
    intro c hc
    cases hc
  | cons c0 cs ih =>
    obtain ⟨w, rest, hw, hr, _⟩ := fillColumns_some_cons f t k record c0 cs props h
    intro c hc
    rcases List.mem_cons.mp hc with hc | hc
    · exact ⟨w, hc ▸ hw⟩
    · exact ih rest hr c hc

theorem columns_nodup (t : Table) : (t.columns.map Column.name).Nodup := by
  cases t <;> simp [Table.columns, Column.optional]

theorem columnValue_taken (t : Table) (k : Nat) (record : JVal) (c : Column) (v value : JVal)
    (hget : getProp record c.name = some v) (htaken : takenFromRecord c v = true)
    (h : columnValue f t k record c = some value) : value = f.convert t c.name v := by
  unfold columnValue at h
  unfold takenFromRecord at htaken
  cases hk : c.kind with
  | serial =>
    simp only [hk, Bool.not_eq_true'] at htaken
    simp [hk, hget, htaken] at h
    exact h.symm
  | timestamp =>
    simp only [hk] at htaken
    simp [hk, hget, htaken] at h
    exact h.symm
  | plain allowNull defaultValue =>
    simp only [hk, Bool.not_eq_true'] at htaken
    simp [hk, hget, htaken] at h
    exact h.2.symm

theorem makeRow_holdsRecord (t : Table) (k : Nat) (record row : JVal)
    (h : makeRow f t k record = some row) : holdsRecord f t record row := by
  unfold makeRow at h
  cases hp : fillColumns f t k record t.columns with
  | none => simp [hp] at h
  | some props =>
    simp [hp] at h
    subst h
    refine ⟨⟨props, rfl, fillColumns_keys f t k record _ props hp⟩, ?_⟩
    intro c hc v hget htaken
    have hl := fillColumns_lookup f t k record _ props hp (columns_nodup t) c hc
    obtain ⟨value, hv⟩ := fillColumns_value f t k record _ props hp c hc
    rw [hv, columnValue_taken f t k record c v value hget htaken hv] at hl
    exact hl

theorem isRowOf_holdsRecord (t : Table) (record row : JVal) (h : isRowOf f t record row) :
    holdsRecord f t record row := by
  obtain ⟨k, hk⟩ := h
  exact makeRow_holdsRecord f t k record row hk

theorem storedRowsFrom_rows (t : Table) (k : Nat) (records rows : List JVal)
    (h : storedRowsFrom f t k records = some rows) :
    List.Forall₂ (isRowOf f t) records rows := by
  induction records generalizing k rows with
  | nil =>
    have hr : rows = [] := (Option.some.inj h).symm
    rw [hr]
    exact List.Forall₂.nil
  | cons record records ih =>
    simp only [storedRowsFrom] at h
    cases hm : makeRow f t k record with
    | none => simp [hm] at h
    | some row =>
      cases hs : storedRowsFrom f t (k + 1) records with
      | none => simp [hm, hs] at h
      | some rest =>
        simp [hm, hs] at h
        rw [← h]
        exact List.Forall₂.cons ⟨k, hm⟩ (ih (k + 1) rest hs)

theorem storedRows_rows (t : Table) (records rows : List JVal)
    (h : storedRows f t records = some rows) : List.Forall₂ (isRowOf f t) records rows :=
  storedRowsFrom_rows f t 0 records rows h

theorem columnValue_given (g : Faults) (hc : g.convert = f.convert) (t : Table) (k : Nat)
    (record : JVal) (c : Column) (h : givesColumn record c = true) :
    columnValue g t k record c = columnValue f t k record c := by
  unfold givesColumn at h
  unfold columnValue
  cases hk : c.kind with
  | plain allowNull defaultValue => simp only [hc]
  | serial =>
    simp only [hk] at h
    cases hget : getProp record c.name with
    | none => simp [hget] at h
    | some v =>
      simp only [hget, Bool.not_eq_true'] at h
      simp [h, hc]
  | timestamp =>
    simp only [hk] at h
    cases hget : getProp record c.name with
    | none => simp [hget, truthy] at h
    | some v =>
      simp only [hget, truthy] at h
      simp [h, hc]

theorem fillColumns_given (g : Faults) (hc : g.convert = f.convert) (t : Table) (k : Nat)
    (record : JVal) (cs : List Column) (h : cs.all (givesColumn record) = true) :
    fillColumns g t k record cs = fillColumns f t k record cs := by
  induction cs with
  | nil => rfl
  | cons c cs ih =>
    rw [List.all_cons, Bool.and_eq_true] at h
    simp only [fillColumns, ih h.2, columnValue_given f g hc t k record c h.1]

theorem storedRowsFrom_given (g : Faults) (hc : g.convert = f.convert) (t : Table) (k : Nat)
    (records : List JVal) (h : ∀ record ∈ records, givesSupplied t record = true) :
    storedRowsFrom g t k records = storedRowsFrom f t k records := by
  induction records generalizing k with
  | nil => rfl
  | cons record records ih =>
    have h1 : givesSupplied t record = true := h record (List.mem_cons_self _ _)
    have h2 : ∀ r ∈ records, givesSupplied t r = true :=
      fun r hr => h r (List.mem_cons_of_mem _ hr)
    rw [storedRowsFrom, storedRowsFrom, ih (k + 1) h2]
    unfold makeRow
    rw [fillColumns_given f g hc t k record _ h1]

theorem insertStep_ok (v : JVal) (t : Table) (st : RunState) (s : Store) (rows : List JVal)
    (hf : f.bulkCreate t = false)
    (hv : hasRecords rt (getProp v t.key) = some false ∨ isArray (getProp v t.key) = true)
    (hacc : storedRows f t (providedRows v t) = some rows)
    (hw : st.working = some s) :
    (insertStep rt f v t st).1 = some true ∧
      (insertStep rt f v t st).2.working = some (s.setRows t (s.rows t ++ rows)) := by
  have hskip : hasRecords rt (getProp v t.key) = some false →
      (insertStep rt f v t st).1 = some true ∧
        (insertStep rt f v t st).2.working = some (s.setRows t (s.rows t ++ rows)) := by
    intro h
    rw [providedRows_of_no_records rt v t h, storedRows_nil] at hacc
    have hrows : rows = [] := (Option.some.inj hacc).symm
    rw [hrows, Store.setRows_append_nil]
    simp [insertStep, h, hw]
  rcases hv with h | h
  · exact hskip h
  · cases hget : getProp v t.key with
    | none => simp [hget, isArray] at h
    | some records =>
      cases hrec : hasRecords rt (getProp v t.key) with
      | none =>
        cases records <;> simp [hget, isArray] at h
        rw [hget, hasRecords_arr] at hrec
        simp at hrec
      | some b =>
        cases b with
        | false => exact hskip hrec
        | true =>
          have hb := batchRows_provided f v t records hget
          rw [← hget, h, if_pos rfl, hacc] at hb
          rw [hget] at hrec
          simp [insertStep, hrec, hget, bulkCreate, hf, hw, hb]

theorem insertStep_flagged (v : JVal) (t : Table) (st : RunState)
    (hrec : hasRecords rt (getProp v t.key) = some true)
    (hf : f.bulkCreate t = true ∨ isArray (getProp v t.key) = false ∨
      storedRows f t (providedRows v t) = none) :
    (insertStep rt f v t st).1 = some false := by
  unfold insertStep
  rw [hrec]
  simp only []
  split
  · rename_i records hrecords
    have hb := batchRows_provided f v t records hrecords
    rcases hf with hf | hf | hf
    · simp [bulkCreate, hf]
    · rw [hrecords] at hf
      rw [hf] at hb
      by_cases hflag : f.bulkCreate t = true
      · simp [bulkCreate, hflag]
      · simp [bulkCreate, hflag, hb]
    · rw [hf] at hb
      by_cases hflag : f.bulkCreate t = true
      · simp [bulkCreate, hflag]
      · simp [bulkCreate, hflag, hb]
  · rename_i hnone
    simp [hnone, hasRecords] at hrec

theorem repopulate_ok (v : JVal) (st : RunState) (made : Table → List JVal)
    (hf : ∀ t, f.bulkCreate t = false)
    (hv : ∀ t : Table,
      hasRecords rt (getProp v t.key) = some false ∨ isArray (getProp v t.key) = true)
    (hacc : ∀ t, storedRows f t (providedRows v t) = some (made t))
    (hw : st.working = some { users := [], products := [], orders := [], settings := [] }) :
    (repopulate rt f v st).1 = none ∧
      (repopulate rt f v st).2.working =
        some { users := made .users, products := made .products,
               orders := made .orders, settings := made .settings } := by
  obtain ⟨a1, w1⟩ := insertStep_ok rt f v .users st _ _ (hf _) (hv _) (hacc _) hw
  obtain ⟨a2, w2⟩ := insertStep_ok rt f v .products _ _ _ (hf _) (hv _) (hacc _) w1
  obtain ⟨a3, w3⟩ := insertStep_ok rt f v .orders _ _ _ (hf _) (hv _) (hacc _) w2
  obtain ⟨a4, w4⟩ := insertStep_ok rt f v .settings _ _ _ (hf _) (hv _) (hacc _) w3
  have h2 : (repopulate rt f v st).2 =
      (insertStep rt f v .settings
        (insertStep rt f v .orders
          (insertStep rt f v .products (insertStep rt f v .users st).2).2).2).2 := by
    simp [repopulate, a1, a2, a3, a4]
  refine ⟨by simp [repopulate, a1, a2, a3, a4], ?_⟩
  rw [h2, w4]
  simp [Store.setRows, Store.rows]

theorem repopulate_none (v : JVal) (st : RunState) (h : (repopulate rt f v st).1 = none)
    (t : Table) : ∃ st1, (insertStep rt f v t st1).1 = some true := by
  cases h1 : (insertStep rt f v .users st).1 with
  | none => simp [repopulate, h1] at h
  | some i1 =>
    cases h2 : (insertStep rt f v .products (insertStep rt f v .users st).2).1 with
    | none => simp [repopulate, h1, h2] at h
    | some i2 =>
      cases h3 : (insertStep rt f v .orders
          (insertStep rt f v .products (insertStep rt f v .users st).2).2).1 with
      | none => simp [repopulate, h1, h2, h3] at h
      | some i3 =>
        cases h4 : (insertStep rt f v .settings
            (insertStep rt f v .orders
              (insertStep rt f v .products (insertStep rt f v .users st).2).2).2).1 with
        | none => simp [repopulate, h1, h2, h3, h4] at h
        | some i4 =>
          cases i1 <;> cases i2 <;> cases i3 <;> cases i4 <;>
            simp [repopulate, h1, h2, h3, h4] at h
          cases t
          · exact ⟨_, h1⟩
          · exact ⟨_, h2⟩
          · exact ⟨_, h3⟩
          · exact ⟨_, h4⟩

theorem repopulate_flagged (v : JVal) (st : RunState) (t : Table)
    (hrec : hasRecords rt (getProp v t.key) = some true)
    (hf : f.bulkCreate t = true ∨ isArray (getProp v t.key) = false ∨
      storedRows f t (providedRows v t) = none) :
    ∃ cause, (repopulate rt f v st).1 = some cause := by
  cases h : (repopulate rt f v st).1 with
  | some cause => exact ⟨cause, rfl⟩
  | none =>
    obtain ⟨st1, h1⟩ := repopulate_none rt f v st h t
    rw [insertStep_flagged rt f v t st1 hrec hf] at h1
    simp at h1

theorem commit_ok (st : RunState) (s : Store) (h : f.commit = false)
    (hw : st.working = some s) :
    (commit f st).1 = true ∧ (commit f st).2.visible = s ∧ (commit f st).2.working = none := by
  simp [commit, h, hw]

theorem commit_failed (st : RunState) (h : (commit f st).1 = false) :
    (commit f st).2.visible = st.visible := by
  unfold commit at h ⊢
  simp only [] at h ⊢
  split
  · rfl
  · rename_i hc
    rw [if_neg hc] at h
    split at h <;> simp at h

theorem rollbackLogged_ok (st : RunState) (h : f.rollback = false) :
    (rollbackLogged f st).visible = st.visible ∧ (rollbackLogged f st).working = none := by
  simp [rollbackLogged, rollback, h]

theorem readProp_arr_length (rows : List JVal) :
    readProp (some (.arr rows)) "length" = some (some (.num rows.length)) := by
  simp [readProp, getProp]

/-- On a document with the three required sequences the success response can
be built: the three `length` reads do not throw. -/
theorem commitAndRespond_ok (path : String) (v : JVal) (st : RunState) (s : Store)
    (us ps os : List JVal)
    (hu : getProp v "users" = some (.arr us)) (hp : getProp v "products" = some (.arr ps))
    (ho : getProp v "orders" = some (.arr os))
    (h : f.commit = false) (hw : st.working = some s) :
    ∃ st1, commitAndRespond f path v st =
        .responded
          (.restored (some (.num us.length)) (some (.num ps.length)) (some (.num os.length))
            (settingsCount v)) st1 ∧
      st1.visible = s ∧ st1.working = none := by
  obtain ⟨c1, c2, c3⟩ := commit_ok f st s h hw
  refine ⟨emit (.logInfo "База данных восстановлена успешно") (unlinkTemp f path (commit f st).2),
    ?_, ?_, ?_⟩
  · simp [commitAndRespond, c1, hu, hp, ho, readProp_arr_length]
  · simp [c2]
  · simp [c3]

theorem restoreTransaction_succeeds (path : String) (v : JVal) (st : RunState)
    (us ps os : List JVal) (made : Table → List JVal)
    (hu : getProp v "users" = some (.arr us)) (hp : getProp v "products" = some (.arr ps))
    (ho : getProp v "orders" = some (.arr os))
    (hok : f.persistenceSucceeds) (hset : settingsWritable rt v)
    (hacc : ∀ t, storedRows f t (providedRows v t) = some (made t)) :
    ∃ st1, restoreTransaction rt f path v st =
        .responded
          (.restored (some (.num us.length)) (some (.num ps.length)) (some (.num os.length))
            (settingsCount v)) st1 ∧
      st1.visible =
        { users := made .users, products := made .products, orders := made .orders,
          settings := made .settings } ∧
      st1.working = none := by
  obtain ⟨hbegin, hdestroy, hinsert, hcommit⟩ := hok
  obtain ⟨b1, b2⟩ := beginTransaction_ok f st hbegin
  obtain ⟨c1, c2⟩ := clearTables_ok f _ _ hdestroy b2
  have hv : ∀ t : Table,
      hasRecords rt (getProp v t.key) = some false ∨ isArray (getProp v t.key) = true := by
    intro t
    cases t
    · right; simp [Table.key, hu, isArray]
    · right; simp [Table.key, hp, isArray]
    · right; simp [Table.key, ho, isArray]
    · exact hset
  obtain ⟨r1, r2⟩ := repopulate_ok rt f v _ made hinsert hv hacc c2
  obtain ⟨st1, e1, e2, e3⟩ := commitAndRespond_ok f path v _ _ us ps os hu hp ho hcommit r2
  refine ⟨st1, ?_, e2, e3⟩
  simp only [restoreTransaction, b1, c1, r1]
  simpa using e1

theorem restoreTransaction_fails (path : String) (v : JVal) (st : RunState)
    (hfail : f.writeFails rt v) :
    ∃ cause tx st1, restoreTransaction rt f path v st = .threw cause tx st1 ∧
      st1.visible = st.visible ∧ (tx = false → st1.working = st.working) ∧
      (f.beginTransaction = false → tx = true) := by
  cases hb : (beginTransaction f st).1 with
  | false =>
    refine ⟨.beginTransaction, false, (beginTransaction f st).2,
      by simp [restoreTransaction, hb], by simp, fun _ => beginTransaction_failed f st hb, ?_⟩
    intro hbegin
    rw [(beginTransaction_ok f st hbegin).1] at hb
    simp at hb
  | true =>
    cases hc : (clearTables f (beginTransaction f st).2).1 with
    | some cause =>
      exact ⟨cause, true, (clearTables f (beginTransaction f st).2).2,
        by simp [restoreTransaction, hb, hc], by simp, by simp, fun _ => rfl⟩
    | none =>
      rcases hfail with ⟨t, ht⟩ | ⟨t, hrec, ht⟩
      · obtain ⟨cause, hcause⟩ := clearTables_flagged f (beginTransaction f st).2 t ht
        rw [hc] at hcause
        simp at hcause
      · obtain ⟨cause, hcause⟩ :=
          repopulate_flagged rt f v (clearTables f (beginTransaction f st).2).2 t hrec ht
        exact ⟨cause, true, (repopulate rt f v (clearTables f (beginTransaction f st).2).2).2,
          by simp [restoreTransaction, hb, hc, hcause], by simp, by simp, fun _ => rfl⟩

theorem restoreCatch_response (req : Request) (cause : Failure) (tx : Bool) (st : RunState) :
    (restoreCatch f req cause tx st).response =
      .error 500 "Ошибка сервера при восстановлении базы данных" := rfl

theorem restoreCatch_rolledBack (req : Request) (cause : Failure) (tx : Bool) (st : RunState)
    (hrb : f.rollback = false) :
    (restoreCatch f req cause tx st).state.visible = st.visible ∧
      (tx = true → (restoreCatch f req cause tx st).state.working = none) ∧
      (tx = false → (restoreCatch f req cause tx st).state.working = st.working) := by
  obtain ⟨h1, h2⟩ := rollbackLogged_ok f st hrb
  obtain ⟨file⟩ := req
  cases tx <;> cases file <;> simp [restoreCatch, h1, h2] <;> split <;> simp [h1, h2]

theorem isBackupDocument_of_sequences (v : JVal) (us ps os : List JVal)
    (hu : getProp v "users" = some (.arr us)) (hp : getProp v "products" = some (.arr ps))
    (ho : getProp v "orders" = some (.arr os)) : isBackupDocument v = true := by
  cases v with
  | obj props =>
    simp only [getProp] at hu hp ho
    simp [isBackupDocument, hu, hp, ho]
  | arr items => simp [getProp] at hu
  | str s => simp [getProp] at hu
  | null => simp [getProp] at hu
  | bool b => simp [getProp] at hu
  | num q => simp [getProp] at hu

theorem providedRows_settings (v : JVal) : providedRows v .settings = nonEmptySettings v := by
  unfold providedRows nonEmptySettings
  simp only [Table.key]
  cases getProp v "settings" with
  | none => rfl
  | some x =>
    cases x with
    | arr rows => cases rows <;> rfl
    | _ => rfl

theorem backupAll_ok (g : Faults) (store : Store) (hg : ∀ t, g.findAll t = false) :
    (backupAll g store).response =
      .exported store.users store.products store.orders store.settings := by
  simp [backupAll, exportTry, findAll, hg, initialState, Store.rows]

theorem backupRestore_succeeds (file : UploadedFile) (store : Store) (v : JVal)
    (us ps os : List JVal) (made : Table → List JVal)
    (hread : f.readFile = false) (hparse : rt.parse file.content = some v)
    (hu : getProp v "users" = some (.arr us)) (hp : getProp v "products" = some (.arr ps))
    (ho : getProp v "orders" = some (.arr os))
    (hok : f.persistenceSucceeds) (hset : settingsWritable rt v)
    (hacc : ∀ t, storedRows f t (providedRows v t) = some (made t)) :
    (backupRestore rt f { file := some file } store).response =
        .restored (some (.num us.length)) (some (.num ps.length)) (some (.num os.length))
          (settingsCount v) ∧
      (backupRestore rt f { file := some file } store).state.visible =
        { users := made .users, products := made .products, orders := made .orders,
          settings := made .settings } ∧
      (backupRestore rt f { file := some file } store).state.working = none := by
  obtain ⟨st1, h1, h2, h3⟩ :=
    restoreTransaction_succeeds rt f file.path v
      (emit (.readFile file.path) (initialState store true)) us ps os made hu hp ho hok hset
      hacc
  rw [backupRestore_upload,
    restoreTry_accepted rt f file _ v hread hparse (isBackupDocument_of_sequences v us ps os hu hp ho),
    h1]
  exact ⟨rfl, h2, h3⟩

/-- C1: atomicity of restore.  For every content of the four tables and every
uploaded document that passes validation, if a delete or an issued bulk-insert fails
and the rollback succeeds, the handler answers 500 and the four tables hold
what they held before; no transaction is left open. -/
theorem restore_atomic (rt : Runtime) (f : Faults) (file : UploadedFile) (store : Store)
    (v : JVal)
    (hread : f.readFile = false) (hparse : rt.parse file.content = some v)
    (hv : isBackupDocument v = true)
    (hfail : f.writeFails rt v) (hrb : f.rollback = false) :
    (backupRestore rt f { file := some file } store).state.visible = store ∧
      (backupRestore rt f { file := some file } store).state.working = none ∧
      (backupRestore rt f { file := some file } store).response.status = 500 := by
  obtain ⟨cause, tx, st1, h1, h2, h3, _⟩ :=
    restoreTransaction_fails rt f file.path v
      (emit (.readFile file.path) (initialState store true)) hfail
  obtain ⟨k1, k2, k3⟩ := restoreCatch_rolledBack f { file := some file } cause tx st1 hrb
  rw [backupRestore_upload, restoreTry_accepted rt f file _ v hread hparse hv, h1]
  simp only [restoreFinish]
  refine ⟨?_, ?_, ?_⟩
  · rw [k1, h2]; rfl
  · cases tx with
    | true => exact k2 rfl
    | false => rw [k3 rfl, h3 rfl]; rfl
  · rfl

/-- C1 on the sample document with a row for every table: the inserts into
`users` and `products` are issued, the insert into `orders` fails, and the
tables are as before. -/
theorem restore_atomic_witness :
    noFaults.readFile = false ∧ sampleRuntime.parse fullDocumentText = some fullDocument ∧
      isBackupDocument fullDocument = true ∧
      ordersInsertFails.writeFails sampleRuntime fullDocument ∧
      ordersInsertFails.rollback = false ∧
      (backupRestore sampleRuntime ordersInsertFails (sampleUpload fullDocumentText)
        sampleStore).state.visible = sampleStore :=
  ⟨rfl, rfl, rfl, Or.inr ⟨Table.orders, rfl, Or.inl rfl⟩, rfl,
    (restore_atomic sampleRuntime ordersInsertFails (sampleFile fullDocumentText) sampleStore
      fullDocument rfl rfl rfl (Or.inr ⟨Table.orders, rfl, Or.inl rfl⟩) rfl).1⟩

/-- C2: full replace.  For every content of the tables and every document with
the three required sequences, when opening the transaction, the deletes, the
inserts and the commit succeed, the store making a row of every record, the
restore answers 200 and the tables `users`, `products` and `orders` hold
exactly the rows made of the records of the document, one for each record and
in its order; the table `settings` holds only rows made of the document.  No
row that was there before survives.  A row has the columns of its table, and
in every column for which the store takes the value of the record it holds
what the store returns for that value. -/
theorem restore_full_replace (rt : Runtime) (f : Faults) (file : UploadedFile)
    (store : Store) (v : JVal) (us ps os : List JVal) (made : Table → List JVal)
    (hread : f.readFile = false) (hparse : rt.parse file.content = some v)
    (hu : getProp v "users" = some (.arr us)) (hp : getProp v "products" = some (.arr ps))
    (ho : getProp v "orders" = some (.arr os))
    (hok : f.persistenceSucceeds) (hset : settingsWritable rt v)
    (hacc : ∀ t, storedRows f t (providedRows v t) = some (made t)) :
    (backupRestore rt f { file := some file } store).response.status = 200 ∧
      (backupRestore rt f { file := some file } store).state.visible =
        { users := made .users, products := made .products, orders := made .orders,
          settings := made .settings } ∧
      (backupRestore rt f { file := some file } store).state.working = none ∧
      List.Forall₂ (isRowOf f .users) us (made .users) ∧
      List.Forall₂ (isRowOf f .products) ps (made .products) ∧
      List.Forall₂ (isRowOf f .orders) os (made .orders) ∧
      List.Forall₂ (isRowOf f .settings) (nonEmptySettings v) (made .settings) ∧
      (∀ t record row, isRowOf f t record row → holdsRecord f t record row) := by
  obtain ⟨h1, h2, h3⟩ :=
    backupRestore_succeeds rt f file store v us ps os made hread hparse hu hp ho hok hset hacc
  have hrows : providedRows v .users = us ∧ providedRows v .products = ps ∧
      providedRows v .orders = os := by
    simp [providedRows, Table.key, hu, hp, ho]
  have r1 := storedRows_rows f .users _ _ (hacc .users)
  have r2 := storedRows_rows f .products _ _ (hacc .products)
  have r3 := storedRows_rows f .orders _ _ (hacc .orders)
  have r4 := storedRows_rows f .settings _ _ (hacc .settings)
  rw [hrows.1] at r1
  rw [hrows.2.1] at r2
  rw [hrows.2.2] at r3
  rw [providedRows_settings] at r4
  exact ⟨by rw [h1]; rfl, h2, h3, r1, r2, r3, r4,
    fun t record row h => isRowOf_holdsRecord f t record row h⟩

/-- C2 on the sample document with a row for every table, restored over a
store that has other rows. -/
theorem restore_full_replace_witness :
    noFaults.readFile = false ∧ sampleRuntime.parse fullDocumentText = some fullDocument ∧
      noFaults.persistenceSucceeds ∧ settingsWritable sampleRuntime fullDocument ∧
      (∀ t, storedRows noFaults t (providedRows fullDocument t) = some (fullDocumentRows.rows t)) ∧
      (backupRestore sampleRuntime noFaults (sampleUpload fullDocumentText)
        sampleStore).state.visible = fullDocumentRows :=
  ⟨rfl, rfl, ⟨rfl, fun _ => rfl, fun _ => rfl, rfl⟩, Or.inr rfl,
    fun t => by cases t <;> rfl,
    (restore_full_replace sampleRuntime noFaults (sampleFile fullDocumentText) sampleStore
      fullDocument _ _ _ fullDocumentRows.rows rfl rfl rfl rfl rfl
      ⟨rfl, fun _ => rfl, fun _ => rfl, rfl⟩ (Or.inr rfl) (fun t => by cases t <;> rfl)).2.1⟩

/-- C3 fails as stated: the document with the administrator given by `id`,
`username`, `password` and `role` is restored with success, and the export
that follows returns the administrator as the row of the table `users`, with
its eleven columns, which is not the record of the document. -/
theorem export_adds_columns :
    (backupRestore sampleRuntime noFaults (sampleUpload adminOnlyText) sampleStore).response =
        .restored (some (.num 1)) (some (.num 0)) (some (.num 0)) (some (.num 0)) ∧
      (backupAll noFaults
        (backupRestore sampleRuntime noFaults (sampleUpload adminOnlyText)
          sampleStore).state.visible).response =
        .exported [adminRow] [] [] [] ∧
      getProp adminOnly "users" =
        some (.arr [.obj [("id", .num 1), ("username", .str "admin"),
          ("password", .str "$2b$10$hashOfAdmin"), ("role", .str "admin")]]) ∧
      (backupAll noFaults
        (backupRestore sampleRuntime noFaults (sampleUpload adminOnlyText)
          sampleStore).state.visible).response ≠
        .exported [.obj [("id", .num 1), ("username", .str "admin"),
          ("password", .str "$2b$10$hashOfAdmin"), ("role", .str "admin")]] [] [] [] := by
  refine ⟨rfl, rfl, rfl, ?_⟩
  intro h
  have hexp : (backupAll noFaults
      (backupRestore sampleRuntime noFaults (sampleUpload adminOnlyText)
        sampleStore).state.visible).response = .exported [adminRow] [] [] [] := rfl
  rw [hexp] at h
  have hlen := congrArg
    (fun r : Response =>
      match r with
      | .exported (.obj props :: _) _ _ _ => props.length
      | _ => 0) h
  revert hlen
  simp [adminRow]

/-- C3 as amended: round trip.  For every document with the three required
sequences, an export run right after a successful restore of it, all four
reads succeeding, returns for `users`, `products` and `orders` the rows the
store made of the records of the document, one for each record and in its
order, and as `settings` the rows made of the settings of the document when it
has a non-empty sequence of them, nothing otherwise.  Every row returned has
the columns of its table.  The document returned is the document restored
when the store keeps every record as given. -/
theorem restore_then_export (rt : Runtime) (f g : Faults) (file : UploadedFile)
    (store : Store) (v : JVal) (us ps os : List JVal) (made : Table → List JVal)
    (hread : f.readFile = false) (hparse : rt.parse file.content = some v)
    (hu : getProp v "users" = some (.arr us)) (hp : getProp v "products" = some (.arr ps))
    (ho : getProp v "orders" = some (.arr os))
    (hok : f.persistenceSucceeds) (hset : settingsWritable rt v)
    (hacc : ∀ t, storedRows f t (providedRows v t) = some (made t))
    (hg : ∀ t, g.findAll t = false) :
    (backupRestore rt f { file := some file } store).response.status = 200 ∧
      (backupAll g (backupRestore rt f { file := some file } store).state.visible).response =
        .exported (made .users) (made .products) (made .orders) (made .settings) ∧
      List.Forall₂ (isRowOf f .users) us (made .users) ∧
      List.Forall₂ (isRowOf f .products) ps (made .products) ∧
      List.Forall₂ (isRowOf f .orders) os (made .orders) ∧
      List.Forall₂ (isRowOf f .settings) (nonEmptySettings v) (made .settings) ∧
      (∀ t record row, isRowOf f t record row →
        ∃ props, row = .obj props ∧ props.map Prod.fst = t.columns.map Column.name) ∧
      ((∀ t, storedRows f t (providedRows v t) = some (providedRows v t)) →
        (backupAll g (backupRestore rt f { file := some file } store).state.visible).response =
          .exported us ps os (nonEmptySettings v)) := by
  obtain ⟨h1, h2, _⟩ :=
    backupRestore_succeeds rt f file store v us ps os made hread hparse hu hp ho hok hset hacc
  have hrows : providedRows v .users = us ∧ providedRows v .products = ps ∧
      providedRows v .orders = os := by
    simp [providedRows, Table.key, hu, hp, ho]
  have r1 := storedRows_rows f .users _ _ (hacc .users)
  have r2 := storedRows_rows f .products _ _ (hacc .products)
  have r3 := storedRows_rows f .orders _ _ (hacc .orders)
  have r4 := storedRows_rows f .settings _ _ (hacc .settings)
  rw [hrows.1] at r1
  rw [hrows.2.1] at r2
  rw [hrows.2.2] at r3
  rw [providedRows_settings] at r4
  have hexp : (backupAll g
      (backupRestore rt f { file := some file } store).state.visible).response =
      .exported (made .users) (made .products) (made .orders) (made .settings) := by
    rw [backupAll_ok g _ hg, h2]
  refine ⟨by rw [h1]; rfl, hexp, r1, r2, r3, r4,
    fun t record row h => (isRowOf_holdsRecord f t record row h).1, ?_⟩
  intro hkept
  have hmade : ∀ t, made t = providedRows v t := fun t =>
    Option.some.inj ((hacc t).symm.trans (hkept t))
  rw [hexp, hmade .users, hmade .products, hmade .orders, hmade .settings, hrows.1,
    hrows.2.1, hrows.2.2, providedRows_settings]

/-- C3 as amended, on the document that an export sends, with the
administrator as a full row: the restore reports one user, the store keeps the
row as given, and the export gives back the document. -/
theorem restore_then_export_witness :
    noFaults.readFile = false ∧ exportedRuntime.parse exportedAdminText = some exportedAdmin ∧
      noFaults.persistenceSucceeds ∧ settingsWritable exportedRuntime exportedAdmin ∧
      (∀ t, storedRows noFaults t (providedRows exportedAdmin t) =
        some (providedRows exportedAdmin t)) ∧
      (backupRestore exportedRuntime noFaults (sampleUpload exportedAdminText)
        sampleStore).response =
        .restored (some (.num 1)) (some (.num 0)) (some (.num 0)) (some (.num 0)) ∧
      (backupAll noFaults
        (backupRestore exportedRuntime noFaults (sampleUpload exportedAdminText)
          sampleStore).state.visible).response =
        .exported [adminRow] [] [] [] :=
  ⟨rfl, rfl, ⟨rfl, fun _ => rfl, fun _ => rfl, rfl⟩, Or.inl rfl,
    fun t => by cases t <;> rfl, rfl,
    (restore_then_export exportedRuntime noFaults noFaults (sampleFile exportedAdminText)
      sampleStore exportedAdmin _ _ _ (providedRows exportedAdmin) rfl rfl rfl rfl rfl
      ⟨rfl, fun _ => rfl, fun _ => rfl, rfl⟩ (Or.inl rfl) (fun t => by cases t <;> rfl)
      (fun _ => rfl)).2.2.2.2.2.2.2 (fun t => by cases t <;> rfl)⟩

theorem restoreCatch_logs_rollback (req : Request) (cause : Failure) (st : RunState)
    (hrb : f.rollback = true) :
    Event.logError "Ошибка отката транзакции:" Failure.rollback ∈
      (restoreCatch f req cause true st).state.events := by
  have h1 : Event.logError "Ошибка отката транзакции:" Failure.rollback ∈
      (rollbackLogged f st).events := by
    simp [rollbackLogged, rollback, hrb]
  unfold restoreCatch
  simp only [emit_events, List.mem_append, List.mem_singleton, if_true]
  left
  split
  · split
    · exact unlinkTemp_events_mono f _ _ _ h1
    · exact h1
  · exact h1

/-- C7, at inputs the handler can receive: an upload whose text is not JSON and
an upload without `products` and `orders` are answered with 400 after the file
was read, and the only effect issued is that read: `fs.unlinkSync` is not
called and the temporary file stays on disk.  The success path, on the sample
document with one administrator, does remove the file. -/
theorem upload_kept_on_early_return :
    ((backupRestore sampleRuntime noFaults (sampleUpload "backup of monday")
          sampleStore).response = .error 400 "Неверный формат JSON файла" ∧
      (backupRestore sampleRuntime noFaults (sampleUpload "backup of monday")
          sampleStore).state.events = [Event.readFile "uploads/3f2a-backup.json"] ∧
      (backupRestore sampleRuntime noFaults (sampleUpload "backup of monday")
          sampleStore).state.tempFile = true) ∧
    ((backupRestore sampleRuntime noFaults (sampleUpload usersOnlyText)
          sampleStore).response.status = 400 ∧
      (backupRestore sampleRuntime noFaults (sampleUpload usersOnlyText)
          sampleStore).state.events = [Event.readFile "uploads/3f2a-backup.json"] ∧
      (backupRestore sampleRuntime noFaults (sampleUpload usersOnlyText)
          sampleStore).state.tempFile = true) ∧
    (backupRestore sampleRuntime noFaults (sampleUpload adminOnlyText)
        sampleStore).state.tempFile = false :=
  ⟨⟨rfl, rfl, rfl⟩, ⟨rfl, rfl, rfl⟩, rfl⟩

/-- C8 fails as stated: on the sample document with a row for every table,
with the delete of `users` failing, the response when the rollback fails too
is the response when the rollback succeeds. -/
theorem rollback_failure_same_response :
    (backupRestore sampleRuntime usersDeleteAndRollbackFail (sampleUpload fullDocumentText)
        sampleStore).response =
      (backupRestore sampleRuntime usersDeleteFails (sampleUpload fullDocumentText)
        sampleStore).response :=
  rfl

/-- C8 as amended: when a delete or an issued insert fails and the rollback
call itself fails too, the handler writes the error entry
`Ошибка отката транзакции:` to the server log and answers with the generic 500
response, which is also the response of the same run with a succeeding
rollback. -/
theorem rollback_failure_logged (rt : Runtime) (f : Faults) (file : UploadedFile)
    (store : Store) (v : JVal)
    (hread : f.readFile = false) (hparse : rt.parse file.content = some v)
    (hv : isBackupDocument v = true) (hbegin : f.beginTransaction = false)
    (hfail : f.writeFails rt v) (hrb : f.rollback = true) :
    Event.logError "Ошибка отката транзакции:" Failure.rollback ∈
        (backupRestore rt f { file := some file } store).state.events ∧
      (backupRestore rt f { file := some file } store).response =
        .error 500 "Ошибка сервера при восстановлении базы данных" ∧
      (backupRestore rt { f with rollback := false } { file := some file } store).response =
        (backupRestore rt f { file := some file } store).response := by
  obtain ⟨cause, tx, st1, h1, _, _, h4⟩ :=
    restoreTransaction_fails rt f file.path v
      (emit (.readFile file.path) (initialState store true)) hfail
  obtain ⟨cause2, tx2, st2, g1, _, _, _⟩ :=
    restoreTransaction_fails rt { f with rollback := false } file.path v
      (emit (.readFile file.path) (initialState store true))
      (writeFails_congr rt f { f with rollback := false } rfl rfl rfl rfl v hfail)
  have htx : tx = true := h4 hbegin
  subst htx
  rw [backupRestore_upload, restoreTry_accepted rt f file _ v hread hparse hv, h1,
    backupRestore_upload,
    restoreTry_accepted rt { f with rollback := false } file _ v hread hparse hv, g1]
  exact ⟨restoreCatch_logs_rollback f _ cause st1 hrb, rfl, rfl⟩

/-- C8 as amended, on the sample document with the delete of `users` and the
rollback failing. -/
theorem rollback_failure_logged_witness :
    usersDeleteAndRollbackFail.readFile = false ∧
      sampleRuntime.parse fullDocumentText = some fullDocument ∧
      isBackupDocument fullDocument = true ∧
      usersDeleteAndRollbackFail.beginTransaction = false ∧
      usersDeleteAndRollbackFail.writeFails sampleRuntime fullDocument ∧
      usersDeleteAndRollbackFail.rollback = true ∧
      (backupRestore sampleRuntime usersDeleteAndRollbackFail (sampleUpload fullDocumentText)
        sampleStore).response = .error 500 "Ошибка сервера при восстановлении базы данных" :=
  ⟨rfl, rfl, rfl, rfl, Or.inl ⟨Table.users, rfl⟩, rfl,
    (rollback_failure_logged sampleRuntime usersDeleteAndRollbackFail
      (sampleFile fullDocumentText) sampleStore fullDocument rfl rfl rfl rfl
      (Or.inl ⟨Table.users, rfl⟩) rfl).2.1⟩

/-- The count reported for `settings` is the number of settings rows written
when the document has no `settings` or a sequence of them. -/
theorem settingsCount_of_sequence (v : JVal)
    (h : getProp v "settings" = none ∨ isArray (getProp v "settings") = true) :
    settingsCount v = some (.num (providedRows v .settings).length) := by
  rcases h with h | h
  · simp [settingsCount, providedRows, Table.key, h]
  · unfold isArray at h
    split at h
    · rename_i rows hrows
      simp only [settingsCount, providedRows, Table.key, hrows]
      simp [JVal.truthy, getProp]
    · simp at h

/-- C9, at an input the handler can receive: the sample document whose
`settings` is a single record passes validation and is restored; no settings
row is written, and the member `settings` of `imported` is `undefined` (left
out of the JSON answer), not 0. -/
theorem settings_count_undefined :
    isBackupDocument settingsRecord = true ∧
      (backupRestore sampleRuntime noFaults (sampleUpload settingsRecordText)
        sampleStore).response =
        .restored (some (.num 0)) (some (.num 0)) (some (.num 0)) none ∧
      (backupRestore sampleRuntime noFaults (sampleUpload settingsRecordText)
        sampleStore).state.visible.settings = [] :=
  ⟨rfl, rfl, rfl⟩

/-- C10: for every content of the tables and every document with the three
required sequences and no `settings` key, a restore in which no call of the
transaction fails, the store making a row of every record, answers 200 with
`imported.settings` equal to 0 and leaves the table `settings` empty. -/
theorem settings_omitted (rt : Runtime) (f : Faults) (file : UploadedFile)
    (store : Store) (v : JVal) (us ps os : List JVal) (made : Table → List JVal)
    (hread : f.readFile = false) (hparse : rt.parse file.content = some v)
    (hu : getProp v "users" = some (.arr us)) (hp : getProp v "products" = some (.arr ps))
    (ho : getProp v "orders" = some (.arr os))
    (hok : f.persistenceSucceeds) (hno : getProp v "settings" = none)
    (hacc : ∀ t, storedRows f t (providedRows v t) = some (made t)) :
    (backupRestore rt f { file := some file } store).response =
        .restored (some (.num us.length)) (some (.num ps.length)) (some (.num os.length))
          (some (.num 0)) ∧
      (backupRestore rt f { file := some file } store).state.visible.settings = [] := by
  have hset : settingsWritable rt v := Or.inl (by rw [hno]; rfl)
  obtain ⟨h1, h2, _⟩ :=
    backupRestore_succeeds rt f file store v us ps os made hread hparse hu hp ho hok hset hacc
  have hc : settingsCount v = some (.num 0) := by simp [settingsCount, hno]
  have hr : providedRows v .settings = [] := by simp [providedRows, Table.key, hno]
  have hm : made .settings = [] := by
    have h := hacc .settings
    rw [hr, storedRows_nil] at h
    exact (Option.some.inj h).symm
  rw [h1, h2, hc, hm]
  exact ⟨rfl, rfl⟩

/-- C10 on the sample document with one administrator, restored over a store
that has a settings row. -/
theorem settings_omitted_witness :
    noFaults.readFile = false ∧ sampleRuntime.parse adminOnlyText = some adminOnly ∧
      noFaults.persistenceSucceeds ∧ getProp adminOnly "settings" = none ∧
      (∀ t, storedRows noFaults t (providedRows adminOnly t) =
        some (Store.rows { users := [adminRow], products := [], orders := [], settings := [] }
          t)) ∧
      sampleStore.settings ≠ [] ∧
      (backupRestore sampleRuntime noFaults (sampleUpload adminOnlyText)
        sampleStore).state.visible.settings = [] :=
  ⟨rfl, rfl, ⟨rfl, fun _ => rfl, fun _ => rfl, rfl⟩, rfl, fun t => by cases t <;> rfl,
    by simp [sampleStore],
    (settings_omitted sampleRuntime noFaults (sampleFile adminOnlyText) sampleStore
      adminOnly _ _ _
      (Store.rows { users := [adminRow], products := [], orders := [], settings := [] })
      rfl rfl rfl rfl rfl ⟨rfl, fun _ => rfl, fun _ => rfl, rfl⟩ rfl
      (fun t => by cases t <;> rfl)).2⟩

end Transaction

/-! ## Repeated restore and export -/

section Export

/-- C12 fails as stated: the document with one administrator, whose record
gives no timestamps, is restored twice with success and with the same counts,
the second restore five minutes after the first; the table `users` then holds
the row stamped by the second restore, which is not the row the first restore
left. -/
theorem second_restore_restamps :
    (backupRestore sampleRuntime noFaults (sampleUpload adminOnlyText) sampleStore).response =
        .restored (some (.num 1)) (some (.num 0)) (some (.num 0)) (some (.num 0)) ∧
      (backupRestore sampleRuntime laterFaults (sampleUpload adminOnlyText)
          (backupRestore sampleRuntime noFaults (sampleUpload adminOnlyText)
            sampleStore).state.visible).response =
        .restored (some (.num 1)) (some (.num 0)) (some (.num 0)) (some (.num 0)) ∧
      firstRegistration
          (backupRestore sampleRuntime noFaults (sampleUpload adminOnlyText)
            sampleStore).state.visible = "2026-01-05T09:00:00.000Z" ∧
      firstRegistration
          (backupRestore sampleRuntime laterFaults (sampleUpload adminOnlyText)
            (backupRestore sampleRuntime noFaults (sampleUpload adminOnlyText)
              sampleStore).state.visible).state.visible = "2026-01-05T09:05:00.000Z" ∧
      (backupRestore sampleRuntime laterFaults (sampleUpload adminOnlyText)
          (backupRestore sampleRuntime noFaults (sampleUpload adminOnlyText)
            sampleStore).state.visible).state.visible ≠
        (backupRestore sampleRuntime noFaults (sampleUpload adminOnlyText)
          sampleStore).state.visible := by
  refine ⟨rfl, rfl, rfl, rfl, ?_⟩
  intro h
  have h1 : firstRegistration
      (backupRestore sampleRuntime noFaults (sampleUpload adminOnlyText)
        sampleStore).state.visible = "2026-01-05T09:00:00.000Z" := rfl
  have h2 : firstRegistration
      (backupRestore sampleRuntime laterFaults (sampleUpload adminOnlyText)
        (backupRestore sampleRuntime noFaults (sampleUpload adminOnlyText)
          sampleStore).state.visible).state.visible = "2026-01-05T09:05:00.000Z" := rfl
  rw [h, h1] at h2
  revert h2
  decide

/-- C12 as amended: restore twice in a row.  For every content of the tables
and every document with the three required sequences, restoring it twice in a
row, no call of either transaction failing and the store making a row of every
record, gives the same `imported` counts in both answers and leaves in the
four tables the rows the second restore made of the records.  These are the
rows the first restore left when the store supplies the same keys and times in
both restores, and also when every record of the document gives its key and
its timestamps. -/
theorem restore_idempotent (rt : Runtime) (f1 f2 : Faults) (file : UploadedFile)
    (store : Store) (v : JVal) (us ps os : List JVal) (made1 made2 : Table → List JVal)
    (hread1 : f1.readFile = false) (hread2 : f2.readFile = false)
    (hparse : rt.parse file.content = some v)
    (hu : getProp v "users" = some (.arr us)) (hp : getProp v "products" = some (.arr ps))
    (ho : getProp v "orders" = some (.arr os))
    (hok1 : f1.persistenceSucceeds) (hok2 : f2.persistenceSucceeds)
    (hset : settingsWritable rt v)
    (hacc1 : ∀ t, storedRows f1 t (providedRows v t) = some (made1 t))
    (hacc2 : ∀ t, storedRows f2 t (providedRows v t) = some (made2 t))
    (hconvert : f2.convert = f1.convert) :
    (backupRestore rt f1 { file := some file } store).response.status = 200 ∧
      (backupRestore rt f2 { file := some file }
          (backupRestore rt f1 { file := some file } store).state.visible).response =
        (backupRestore rt f1 { file := some file } store).response ∧
      (backupRestore rt f2 { file := some file }
          (backupRestore rt f1 { file := some file } store).state.visible).state.visible =
        { users := made2 .users, products := made2 .products, orders := made2 .orders,
          settings := made2 .settings } ∧
      (f2.supplied = f1.supplied →
        (backupRestore rt f2 { file := some file }
            (backupRestore rt f1 { file := some file } store).state.visible).state.visible =
          (backupRestore rt f1 { file := some file } store).state.visible) ∧
      ((∀ t, ∀ record ∈ providedRows v t, givesSupplied t record = true) →
        (backupRestore rt f2 { file := some file }
            (backupRestore rt f1 { file := some file } store).state.visible).state.visible =
          (backupRestore rt f1 { file := some file } store).state.visible) := by
  obtain ⟨a1, a2, _⟩ :=
    backupRestore_succeeds rt f1 file store v us ps os made1 hread1 hparse hu hp ho hok1 hset
      hacc1
  obtain ⟨b1, b2, _⟩ :=
    backupRestore_succeeds rt f2 file
      (backupRestore rt f1 { file := some file } store).state.visible v us ps os made2 hread2
      hparse hu hp ho hok2 hset hacc2
  have hsame : (∀ t, storedRows f2 t (providedRows v t) = storedRows f1 t (providedRows v t)) →
      (backupRestore rt f2 { file := some file }
          (backupRestore rt f1 { file := some file } store).state.visible).state.visible =
        (backupRestore rt f1 { file := some file } store).state.visible := by
    intro h
    have hmade : ∀ t, made2 t = made1 t := fun t =>
      Option.some.inj ((hacc2 t).symm.trans ((h t).trans (hacc1 t)))
    rw [b2, a2, hmade .users, hmade .products, hmade .orders, hmade .settings]
  refine ⟨by rw [a1]; rfl, by rw [b1, a1], b2, ?_, ?_⟩
  · intro hsupplied
    exact hsame (fun t => storedRows_congr f1 f2 hsupplied hconvert t _)
  · intro hgiven
    exact hsame (fun t => storedRowsFrom_given f1 f2 hconvert t 0 _ (hgiven t))

/-- C12 as amended, on the sample document with a row for every table,
restored twice over a store that has other rows, the second time five minutes
after the first: the counts are the same and the tables hold the rows of the
second restore. -/
theorem restore_idempotent_witness :
    noFaults.readFile = false ∧ sampleRuntime.parse fullDocumentText = some fullDocument ∧
      noFaults.persistenceSucceeds ∧ laterFaults.persistenceSucceeds ∧
      settingsWritable sampleRuntime fullDocument ∧
      (backupRestore sampleRuntime laterFaults (sampleUpload fullDocumentText)
          (backupRestore sampleRuntime noFaults (sampleUpload fullDocumentText)
            sampleStore).state.visible).response =
        .restored (some (.num 1)) (some (.num 1)) (some (.num 1)) (some (.num 1)) ∧
      (backupRestore sampleRuntime noFaults (sampleUpload fullDocumentText)
          sampleStore).response =
        .restored (some (.num 1)) (some (.num 1)) (some (.num 1)) (some (.num 1)) ∧
      (backupRestore sampleRuntime laterFaults (sampleUpload fullDocumentText)
          (backupRestore sampleRuntime noFaults (sampleUpload fullDocumentText)
            sampleStore).state.visible).state.visible.settings = fullDocumentRows.settings :=
  ⟨rfl, rfl, ⟨rfl, fun _ => rfl, fun _ => rfl, rfl⟩, ⟨rfl, fun _ => rfl, fun _ => rfl, rfl⟩,
    Or.inr rfl,
    ((restore_idempotent sampleRuntime noFaults laterFaults (sampleFile fullDocumentText)
      sampleStore fullDocument _ _ _ fullDocumentRows.rows
      (fun t => (storedRows laterFaults t (providedRows fullDocument t)).getD [])
      rfl rfl rfl rfl rfl rfl
      ⟨rfl, fun _ => rfl, fun _ => rfl, rfl⟩ ⟨rfl, fun _ => rfl, fun _ => rfl, rfl⟩
      (Or.inr rfl) (fun t => by cases t <;> rfl) (fun t => by cases t <;> rfl) rfl).2.1).trans
      rfl,
    rfl, rfl⟩

/-- C13: export is verbatim and complete.  For every content of the tables,
when the four reads succeed the answer is the document with the four members
`users`, `products`, `orders`, `settings`, each the full list of rows of its
table as stored: nothing is decoded, a text field stays the stored text. -/
theorem export_verbatim (g : Faults) (store : Store) (hg : ∀ t, g.findAll t = false) :
    (backupAll g store).response =
      .exported store.users store.products store.orders store.settings := by
  simp [backupAll, exportTry, findAll, hg, initialState, Store.rows]

/-- C13 on the sample store: the product row comes back with `price_options`
as the stored text. -/
theorem export_verbatim_witness :
    (∀ t, noFaults.findAll t = false) ∧
      (backupAll noFaults sampleStore).response =
        .exported [.obj [("id", .num 7), ("username", .str "old")]]
          [.obj [("id", .num 3), ("name", .str "vase"), ("price_options", .str "[]")]]
          [.obj [("id", .num 5), ("user_id", .num 7)]]
          [.obj [("id", .num 1), ("price_coefficient", .num 5)]] :=
  ⟨fun _ => rfl, export_verbatim noFaults sampleStore (fun _ => rfl)⟩

/-- C14: export is all or nothing.  For every content of the tables, if one of
the four reads fails the answer is the 500 error, which is not a document and
has none of its four members. -/
theorem export_all_or_nothing (g : Faults) (store : Store)
    (hg : ∃ t, g.findAll t = true) :
    (backupAll g store).response = .error 500 "Ошибка сервера при экспорте данных" ∧
      ¬ ∃ users products orders settings,
        (backupAll g store).response = .exported users products orders settings := by
  have h : (backupAll g store).response = .error 500 "Ошибка сервера при экспорте данных" := by
    obtain ⟨t, ht⟩ := hg
    by_cases h1 : g.findAll .users = true <;> by_cases h2 : g.findAll .products = true <;>
      by_cases h3 : g.findAll .orders = true <;> by_cases h4 : g.findAll .settings = true <;>
      simp [backupAll, exportTry, findAll, h1, h2, h3, h4]
    cases t <;> simp_all
  refine ⟨h, ?_⟩
  rintro ⟨users, products, orders, settings, hdoc⟩
  rw [h] at hdoc
  cases hdoc

/-- C14 on the sample store with the read of `orders` failing, although the
reads of `users` and `products` before it succeeded. -/
theorem export_all_or_nothing_witness :
    ordersReadFails.findAll Table.orders = true ∧
      (backupAll ordersReadFails sampleStore).response =
        .error 500 "Ошибка сервера при экспорте данных" :=
  ⟨rfl, (export_all_or_nothing ordersReadFails sampleStore ⟨Table.orders, rfl⟩).1⟩

/-- C15: export is read-only.  For every content of the tables and every
outcome of the reads, the tables after the export handler are the tables
before it, no transaction is open, and the handler issued no transaction call,
delete or insert. -/
theorem export_read_only (g : Faults) (store : Store) :
    (backupAll g store).state.visible = store ∧
      (backupAll g store).state.working = none ∧
      (backupAll g store).state.events.all (fun e => !e.touchesStore) = true := by
  by_cases h1 : g.findAll .users = true <;> by_cases h2 : g.findAll .products = true <;>
    by_cases h3 : g.findAll .orders = true <;> by_cases h4 : g.findAll .settings = true <;>
    simp [backupAll, exportTry, findAll, h1, h2, h3, h4, initialState, Event.touchesStore]

end Export

/-! ## Failure reports and the settings guard -/

section Reports

variable (rt : Runtime) (f : Faults)

theorem destroy_fst (t : Table) (b : Bool) (st : RunState) :
    (destroy f t b st).1 = !(f.destroy t) := by
  unfold destroy
  cases f.destroy t <;> cases b <;> rfl

theorem clearTables_cause (st : RunState) (cause : Failure)
    (h : (clearTables f st).1 = some cause) : ∃ t, cause = .destroy t ∧ f.destroy t = true := by
  unfold clearTables at h
  simp only [destroy_fst, Bool.not_not] at h
  split_ifs at h with h1 h2 h3 h4
  · exact ⟨.users, by simpa using h.symm, h1⟩
  · exact ⟨.products, by simpa using h.symm, h2⟩
  · exact ⟨.orders, by simpa using h.symm, h3⟩
  · exact ⟨.settings, by simpa using h.symm, h4⟩

theorem repopulate_cause (v : JVal) (st : RunState) (cause : Failure)
    (h : (repopulate rt f v st).1 = some cause) :
    cause = .typeError ∨ ∃ t, cause = .bulkCreate t := by
  unfold repopulate at h
  simp only [] at h
  repeat' split at h
  all_goals
    first
    | exact Or.inl (by simpa using h.symm)
    | exact Or.inr ⟨_, by simpa using h.symm⟩

theorem restoreTransaction_fails_phase (path : String) (v : JVal) (st : RunState)
    (hbegin : f.beginTransaction = false) (hfail : f.writeFails rt v) :
    ∃ cause st1, restoreTransaction rt f path v st = .threw cause true st1 ∧
      ((∃ t, cause = .destroy t) ∨ (∃ t, cause = .bulkCreate t) ∨ cause = .typeError) := by
  have hb := (beginTransaction_ok f st hbegin).1
  cases hc : (clearTables f (beginTransaction f st).2).1 with
  | some cause =>
    obtain ⟨t, ht, _⟩ := clearTables_cause f _ cause hc
    exact ⟨cause, (clearTables f (beginTransaction f st).2).2,
      by simp [restoreTransaction, hb, hc], Or.inl ⟨t, ht⟩⟩
  | none =>
    rcases hfail with ⟨t, ht⟩ | ⟨t, hrec, ht⟩
    · obtain ⟨cause, hcause⟩ := clearTables_flagged f (beginTransaction f st).2 t ht
      rw [hc] at hcause
      simp at hcause
    · obtain ⟨cause, hcause⟩ :=
        repopulate_flagged rt f v (clearTables f (beginTransaction f st).2).2 t hrec ht
      refine ⟨cause, (repopulate rt f v (clearTables f (beginTransaction f st).2).2).2,
        by simp [restoreTransaction, hb, hc, hcause], ?_⟩
      rcases repopulate_cause rt f v _ cause hcause with h | h
      · exact Or.inr (Or.inr h)
      · exact Or.inr (Or.inl h)

theorem restoreCatch_logs_cause (req : Request) (cause : Failure) (tx : Bool) (st : RunState) :
    Event.logError "Ошибка восстановления базы данных:" cause ∈
      (restoreCatch f req cause tx st).state.events := by
  simp [restoreCatch]

/-- C11, at an input the handler can receive: the sample document whose
`settings` is a text passes validation, the guard `settings && settings.length > 0`
holds for it, and the handler issues `Settings.bulkCreate` with that text
inside the transaction; the restore then fails and is rolled back. -/
theorem settings_insert_issued_for_text :
    isBackupDocument settingsText = true ∧
      (backupRestore textSettingsRuntime noFaults (sampleUpload settingsTextText)
        sampleStore).state.events =
        [.readFile "uploads/3f2a-backup.json", .beginTransaction,
          .destroy .users true, .destroy .products true, .destroy .orders true,
          .destroy .settings true,
          .bulkCreate .settings (.str "default") true,
          .rollback, .unlink "uploads/3f2a-backup.json",
          .logError "Ошибка восстановления базы данных:" (.bulkCreate .settings)] ∧
      (backupRestore textSettingsRuntime noFaults (sampleUpload settingsTextText)
        sampleStore).response.status = 500 :=
  ⟨rfl, rfl, rfl⟩

/-- C16 fails as stated: on the sample document with a row for every table,
the response when the delete of `users` fails (clearing phase) is the response
when the insert into `orders` fails (repopulating phase). -/
theorem failure_report_same_response :
    (backupRestore sampleRuntime usersDeleteFails (sampleUpload fullDocumentText)
        sampleStore).response =
      (backupRestore sampleRuntime ordersInsertFails (sampleUpload fullDocumentText)
        sampleStore).response :=
  rfl

/-- C16 as amended: when a delete or an issued insert fails and the rollback
succeeds, the tables are as before and the response is the fixed 500 error,
the same for every phase and every underlying error; the step that failed (a
delete, an insert, or an insert guard) is written to the server log only, in
the entry `Ошибка восстановления базы данных:`. -/
theorem failure_report_generic (rt : Runtime) (f : Faults) (file : UploadedFile)
    (store : Store) (v : JVal)
    (hread : f.readFile = false) (hparse : rt.parse file.content = some v)
    (hv : isBackupDocument v = true) (hbegin : f.beginTransaction = false)
    (hfail : f.writeFails rt v) (hrb : f.rollback = false) :
    (backupRestore rt f { file := some file } store).response =
        .error 500 "Ошибка сервера при восстановлении базы данных" ∧
      (backupRestore rt f { file := some file } store).state.visible = store ∧
      ∃ cause, ((∃ t, cause = Failure.destroy t) ∨ (∃ t, cause = Failure.bulkCreate t) ∨
            cause = Failure.typeError) ∧
        Event.logError "Ошибка восстановления базы данных:" cause ∈
          (backupRestore rt f { file := some file } store).state.events := by
  obtain ⟨cause, st1, h1, hphase⟩ :=
    restoreTransaction_fails_phase rt f file.path v
      (emit (.readFile file.path) (initialState store true)) hbegin hfail
  obtain ⟨cause2, tx2, st2, g1, g2, _, _⟩ :=
    restoreTransaction_fails rt f file.path v
      (emit (.readFile file.path) (initialState store true)) hfail
  obtain ⟨k1, _, _⟩ := restoreCatch_rolledBack f { file := some file } cause2 tx2 st2 hrb
  have hrun : backupRestore rt f { file := some file } store =
      restoreCatch f { file := some file } cause true st1 := by
    rw [backupRestore_upload, restoreTry_accepted rt f file _ v hread hparse hv, h1]
    rfl
  have hrun2 : backupRestore rt f { file := some file } store =
      restoreCatch f { file := some file } cause2 tx2 st2 := by
    rw [backupRestore_upload, restoreTry_accepted rt f file _ v hread hparse hv, g1]
    rfl
  refine ⟨by rw [hrun]; rfl, ?_, cause, hphase, ?_⟩
  · rw [hrun2, k1, g2]; rfl
  · rw [hrun]
    exact restoreCatch_logs_cause f _ cause true st1

/-- C16 as amended, on the sample document with the insert into `orders`
failing. -/
theorem failure_report_generic_witness :
    ordersInsertFails.readFile = false ∧
      sampleRuntime.parse fullDocumentText = some fullDocument ∧
      isBackupDocument fullDocument = true ∧ ordersInsertFails.beginTransaction = false ∧
      ordersInsertFails.writeFails sampleRuntime fullDocument ∧
      ordersInsertFails.rollback = false ∧
      (backupRestore sampleRuntime ordersInsertFails (sampleUpload fullDocumentText)
        sampleStore).response = .error 500 "Ошибка сервера при восстановлении базы данных" :=
  ⟨rfl, rfl, rfl, rfl, Or.inr ⟨Table.orders, rfl, Or.inl rfl⟩, rfl,
    (failure_report_generic sampleRuntime ordersInsertFails (sampleFile fullDocumentText)
      sampleStore fullDocument rfl rfl rfl rfl (Or.inr ⟨Table.orders, rfl, Or.inl rfl⟩)
      rfl).1⟩

end Reports

/-! ## Upload filter and payload limit -/

section Upload

variable (rt : Runtime) (f : Faults)

theorem commitAndRespond_status (path : String) (v : JVal) (st st1 : RunState) (r : Response)
    (h : commitAndRespond f path v st = .responded r st1) : r.status = 200 := by
  unfold commitAndRespond at h
  simp only [] at h
  split at h
  · cases h
  · split at h
    · cases h
      rfl
    · cases h

theorem restoreTransaction_status (path : String) (v : JVal) (st st1 : RunState)
    (r : Response) (h : restoreTransaction rt f path v st = .responded r st1) :
    r.status = 200 := by
  unfold restoreTransaction at h
  simp only [] at h
  split at h
  · cases h
  · split at h
    · cases h
    · split at h
      · cases h
      · exact commitAndRespond_status f path v _ st1 r h

theorem restoreTry_status (req : Request) (st st1 : RunState) (r : Response)
    (h : restoreTry rt f req st = .responded r st1) : r.status = 200 ∨ r.status = 400 := by
  unfold restoreTry at h
  split at h
  · cases h
    exact Or.inr rfl
  · simp only [] at h
    split at h
    · cases h
    · split at h
      · cases h
        exact Or.inr rfl
      · split at h
        · cases h
          exact Or.inr rfl
        · split at h
          · cases h
            exact Or.inr rfl
          · exact Or.inl (restoreTransaction_status rt f _ _ _ st1 r h)

theorem backupRestore_status (req : Request) (store : Store) :
    (backupRestore rt f req store).response.status = 200 ∨
      (backupRestore rt f req store).response.status = 400 ∨
      (backupRestore rt f req store).response.status = 500 := by
  unfold backupRestore
  cases h : restoreTry rt f req (initialState store req.file.isSome) with
  | responded r st1 =>
    rcases restoreTry_status rt f req _ st1 r h with h1 | h1
    · exact Or.inl h1
    · exact Or.inr (Or.inl h1)
  | threw cause tx st1 => exact Or.inr (Or.inr rfl)

theorem backupAll_status (g : Faults) (store : Store) :
    (backupAll g store).response.status = 200 ∨ (backupAll g store).response.status = 500 := by
  by_cases h1 : g.findAll .users = true <;> by_cases h2 : g.findAll .products = true <;>
    by_cases h3 : g.findAll .orders = true <;> by_cases h4 : g.findAll .settings = true <;>
    simp [backupAll, exportTry, findAll, h1, h2, h3, h4, Response.status]

/-- C18 fails as stated: a picture sent in the field `backup_file` is accepted
by the upload filter, and the restore handler runs on it (and answers 400,
the text not being JSON). -/
theorem picture_accepted_as_backup :
    pictureAsBackup.fieldname = "backup_file" ∧
      pictureAsBackup.mimetype ≠ "application/json" ∧
      fileFilter pictureAsBackup = .ok true ∧
      restoreRoute sampleRuntime noFaults (some pictureAsBackup) sampleStore =
        .handled (backupRestore sampleRuntime noFaults
          { file := some { path := "uploads/9c1e-photo.png", content := "PNG" } } sampleStore) ∧
      (restoreRoute sampleRuntime noFaults (some pictureAsBackup) sampleStore).response =
        .error 400 "Неверный формат JSON файла" :=
  ⟨rfl, by decide, rfl, rfl, rfl⟩

/-- C18 as amended: for every file submitted in the field `backup_file`, the
upload filter accepts it exactly when its content type is `application/json`
or starts with `image/`; a file with any other content type is refused before
the restore handler runs, with the 500 answer of the error handler. -/
theorem upload_filter_accepts (rt : Runtime) (f : Faults) (store : Store) (file : FilePart)
    (hfield : file.fieldname = "backup_file") :
    (fileFilter file = .ok true ↔
        (file.mimetype = "application/json" ∨ startsWith file.mimetype "image/" = true)) ∧
      (¬ (file.mimetype = "application/json" ∨ startsWith file.mimetype "image/" = true) →
        restoreRoute rt f (some file) store =
          .refused (.error 500 "Внутренняя ошибка сервера") true) := by
  by_cases hm : file.mimetype = "application/json" <;>
    by_cases hs : startsWith file.mimetype "image/" = true <;>
    simp [fileFilter, hfield, hm, hs, restoreRoute, uploadSingle, uploadErrorHandler]

/-- C18 as amended, on a plain text sent in the field `backup_file`. -/
theorem upload_filter_accepts_witness :
    restoreRoute sampleRuntime noFaults
        (some { fieldname := "backup_file", mimetype := "text/plain", size := 12,
                path := "uploads/11bd-notes.txt", content := "restore this" }) sampleStore =
      .refused (.error 500 "Внутренняя ошибка сервера") true :=
  (upload_filter_accepts sampleRuntime noFaults sampleStore
    { fieldname := "backup_file", mimetype := "text/plain", size := 12,
      path := "uploads/11bd-notes.txt", content := "restore this" } rfl).2 (by decide)

/-- C19: the upload limit is 50 * 1024 * 1024 bytes; the error handler answers
413 exactly for a `MulterError` with code `LIMIT_FILE_SIZE` and 500 for every
other error; a file in the field `backup_file` that passes the filter and is
larger than the limit is answered with 413 without the restore handler being
run; and neither the restore handler nor the export handler ever answers 413. -/
theorem payload_too_large (rt : Runtime) (f g : Faults) (store : Store)
    (error : MiddlewareError) (file : FilePart) (req : Request) :
    fileSizeLimit = 50 * 1024 * 1024 ∧
      ((uploadErrorHandler error).1.status = 413 ↔ error = .multer "LIMIT_FILE_SIZE") ∧
      (error ≠ .multer "LIMIT_FILE_SIZE" → (uploadErrorHandler error).1.status = 500) ∧
      (file.fieldname = "backup_file" → fileFilter file = .ok true →
        fileSizeLimit < file.size →
        restoreRoute rt f (some file) store =
          .refused (.error 413 "Файл слишком большой") false) ∧
      (backupRestore rt f req store).response.status ≠ 413 ∧
      (backupAll g store).response.status ≠ 413 := by
  refine ⟨rfl, ?_, ?_, ?_, ?_, ?_⟩
  · cases error with
    | multer code =>
      by_cases hc : code = "LIMIT_FILE_SIZE" <;>
        simp [uploadErrorHandler, hc, Response.status]
    | other message => simp [uploadErrorHandler, Response.status]
  · intro hne
    cases error with
    | multer code =>
      have hc : code ≠ "LIMIT_FILE_SIZE" := fun h => hne (by rw [h])
      simp [uploadErrorHandler, hc, Response.status]
    | other message => simp [uploadErrorHandler, Response.status]
  · intro hfield hfilter hsize
    simp [restoreRoute, uploadSingle, hfield, hfilter, hsize, uploadErrorHandler]
  · rcases backupRestore_status rt f req store with h | h | h <;> rw [h] <;> decide
  · rcases backupAll_status g store with h | h <;> rw [h] <;> decide

/-- C19 on a backup of 50 MB and one byte: it is answered with 413 and the
restore handler does not run, while the same document within the limit is
restored. -/
theorem payload_too_large_witness :
    restoreRoute sampleRuntime noFaults (some oversizedBackup) sampleStore =
        .refused (.error 413 "Файл слишком большой") false ∧
      (restoreRoute sampleRuntime noFaults (some adminOnlyPart) sampleStore).response.status =
        200 :=
  ⟨(payload_too_large sampleRuntime noFaults noFaults sampleStore (.multer "LIMIT_FILE_SIZE")
      oversizedBackup { file := none }).2.2.2.1 rfl rfl (by decide),
    rfl⟩

end Upload

/-! ## Order of the transaction calls -/

section Order

variable (rt : Runtime) (f : Faults)

theorem insertStep_fst_iff (v : JVal) (t : Table) (st : RunState) :
    (insertStep rt f v t st).1 = some true ↔ insertSucceeds rt f v t := by
  unfold insertSucceeds
  cases hrec : hasRecords rt (getProp v t.key) with
  | none => simp [insertStep, hrec]
  | some b =>
    cases b with
    | false => simp [insertStep, hrec]
    | true =>
      cases hget : getProp v t.key with
      | none => simp [hget, hasRecords] at hrec
      | some records =>
        have hb := batchRows_provided f v t records hget
        have hrec2 : hasRecords rt (some records) = some true := by
          rw [← hget]
          exact hrec
        have hstep : (insertStep rt f v t st).1 = some (bulkCreate f t records true st).1 := by
          simp [insertStep, hget, hrec2]
        rw [hstep]
        by_cases hf : f.bulkCreate t = true
        · simp [bulkCreate, hf]
        · by_cases ha : isArray (some records) = true
          · rw [if_pos ha] at hb
            cases hs : storedRows f t (providedRows v t) with
            | none =>
              rw [hs] at hb
              simp [bulkCreate, hf, hb, ha]
            | some rows =>
              rw [hs] at hb
              simp [bulkCreate, hf, hb, ha]
          · rw [if_neg ha] at hb
            simp [bulkCreate, hf, hb, ha]

theorem insertStep_events (v : JVal) (t : Table) (st : RunState) :
    ∃ ins : List Event, ins.all Event.isInsert = true ∧
      (insertStep rt f v t st).2.events = st.events ++ ins := by
  unfold insertStep
  split
  · exact ⟨[], rfl, by simp⟩
  · exact ⟨[], rfl, by simp⟩
  · split
    · rename_i records _
      exact ⟨[.bulkCreate t records true], rfl, by simp⟩
    · exact ⟨[], rfl, by simp⟩

theorem repopulate_events (v : JVal) (st : RunState) :
    ∃ ins : List Event, ins.all Event.isInsert = true ∧
      (repopulate rt f v st).2.events = st.events ++ ins := by
  obtain ⟨i1, a1, e1⟩ := insertStep_events rt f v .users st
  obtain ⟨i2, a2, e2⟩ := insertStep_events rt f v .products (insertStep rt f v .users st).2
  obtain ⟨i3, a3, e3⟩ := insertStep_events rt f v .orders
    (insertStep rt f v .products (insertStep rt f v .users st).2).2
  obtain ⟨i4, a4, e4⟩ := insertStep_events rt f v .settings
    (insertStep rt f v .orders
      (insertStep rt f v .products (insertStep rt f v .users st).2).2).2
  rw [e3, e2, e1] at e4
  rw [e2, e1] at e3
  rw [e1] at e2
  have h1 : ∃ ins : List Event, ins.all Event.isInsert = true ∧
      (insertStep rt f v .users st).2.events = st.events ++ ins := ⟨i1, a1, e1⟩
  have h2 : ∃ ins : List Event, ins.all Event.isInsert = true ∧
      (insertStep rt f v .products (insertStep rt f v .users st).2).2.events =
        st.events ++ ins :=
    ⟨i1 ++ i2, by simp [List.all_append, a1, a2], by rw [e2, List.append_assoc]⟩
  have h3 : ∃ ins : List Event, ins.all Event.isInsert = true ∧
      (insertStep rt f v .orders
        (insertStep rt f v .products (insertStep rt f v .users st).2).2).2.events =
        st.events ++ ins :=
    ⟨i1 ++ i2 ++ i3, by simp [List.all_append, a1, a2, a3],
      by rw [e3]; simp [List.append_assoc]⟩
  have h4 : ∃ ins : List Event, ins.all Event.isInsert = true ∧
      (insertStep rt f v .settings
        (insertStep rt f v .orders
          (insertStep rt f v .products (insertStep rt f v .users st).2).2).2).2.events =
        st.events ++ ins :=
    ⟨i1 ++ i2 ++ i3 ++ i4, by simp [List.all_append, a1, a2, a3, a4],
      by rw [e4]; simp [List.append_assoc]⟩
  unfold repopulate
  simp only []
  repeat' split
  all_goals first | exact h1 | exact h2 | exact h3 | exact h4

theorem repopulate_fst_iff (v : JVal) (st : RunState) :
    (repopulate rt f v st).1 = none ↔ ∀ t, insertSucceeds rt f v t := by
  constructor
  · intro h t
    obtain ⟨st1, h1⟩ := repopulate_none rt f v st h t
    exact (insertStep_fst_iff rt f v t st1).mp h1
  · intro h
    have a1 := (insertStep_fst_iff rt f v .users st).mpr (h _)
    have a2 := (insertStep_fst_iff rt f v .products (insertStep rt f v .users st).2).mpr (h _)
    have a3 := (insertStep_fst_iff rt f v .orders
      (insertStep rt f v .products (insertStep rt f v .users st).2).2).mpr (h _)
    have a4 := (insertStep_fst_iff rt f v .settings
      (insertStep rt f v .orders
        (insertStep rt f v .products (insertStep rt f v .users st).2).2).2).mpr (h _)
    simp [repopulate, a1, a2, a3, a4]

theorem clearTables_fst_iff (st : RunState) :
    (clearTables f st).1 = none ↔ ∀ t, f.destroy t = false := by
  constructor
  · intro h t
    by_contra hne
    obtain ⟨cause, hcause⟩ := clearTables_flagged f st t (by simpa using hne)
    rw [h] at hcause
    simp at hcause
  · intro h
    simp [clearTables, destroy_fst, h]

theorem commit_fst (st : RunState) : (commit f st).1 = !f.commit := by
  unfold commit
  cases f.commit <;> simp
  split <;> rfl

theorem storeEvents_append (xs ys : List Event) :
    storeEvents (xs ++ ys) = storeEvents xs ++ storeEvents ys := by
  simp [storeEvents]

theorem storeEvents_inserts (ins : List Event) (h : ins.all Event.isInsert = true) :
    storeEvents ins = ins := by
  unfold storeEvents
  rw [List.filter_eq_self]
  intro e he
  have := List.all_eq_true.mp h e he
  cases e <;> simp [Event.isInsert] at this
  rfl

theorem unlinkTemp_storeEvents (path : String) (st : RunState) :
    storeEvents (unlinkTemp f path st).events = storeEvents st.events := by
  rw [unlinkTemp_events]
  cases f.unlink <;> simp [storeEvents, Event.touchesStore]

theorem rollbackLogged_storeEvents (st : RunState) :
    storeEvents (rollbackLogged f st).events = storeEvents st.events ++ [.rollback] := by
  unfold rollbackLogged
  simp only []
  split <;> simp [storeEvents, Event.touchesStore]

theorem restoreCatch_storeEvents (req : Request) (cause : Failure) (tx : Bool)
    (st : RunState) :
    storeEvents (restoreCatch f req cause tx st).state.events =
      storeEvents st.events ++ (if tx then [.rollback] else []) := by
  obtain ⟨file⟩ := req
  have hlog : ∀ s : RunState,
      storeEvents (emit (.logError "Ошибка восстановления базы данных:" cause) s).events =
        storeEvents s.events := by
    intro s
    simp [storeEvents, Event.touchesStore]
  unfold restoreCatch
  simp only [hlog]
  cases tx <;> cases file
  all_goals simp only []
  all_goals try split
  all_goals simp [unlinkTemp_storeEvents, rollbackLogged_storeEvents]

theorem sequences_of_isBackupDocument (v : JVal) (hv : isBackupDocument v = true) :
    ∃ us ps os, getProp v "users" = some (.arr us) ∧ getProp v "products" = some (.arr ps) ∧
      getProp v "orders" = some (.arr os) := by
  cases v with
  | obj props =>
    unfold isBackupDocument at hv
    simp only [] at hv
    split at hv
    · rename_i us ps os hu hp ho
      exact ⟨_, _, _, hu, hp, ho⟩
    · simp at hv
  | null => simp [isBackupDocument] at hv
  | bool b => simp [isBackupDocument] at hv
  | num q => simp [isBackupDocument] at hv
  | str s => simp [isBackupDocument] at hv
  | arr items => simp [isBackupDocument] at hv

theorem storeEvents_start (path : String) (store : Store) (upload : Bool) :
    storeEvents (emit (.readFile path) (initialState store upload)).events = [] := by
  simp [storeEvents, initialState, Event.touchesStore]

theorem restoreTransaction_trace (file : UploadedFile) (store : Store) (v : JVal)
    (hv : isBackupDocument v = true) :
    TransactionTrace rt f v
      (storeEvents (restoreFinish f { file := some file }
        (restoreTransaction rt f file.path v
          (emit (.readFile file.path) (initialState store true)))).state.events)
      (restoreFinish f { file := some file }
        (restoreTransaction rt f file.path v
          (emit (.readFile file.path) (initialState store true)))).response.status := by
  have h0 := storeEvents_start file.path store true
  generalize emit (.readFile file.path) (initialState store true) = st0 at h0 ⊢
  obtain ⟨ins, hall, hins⟩ := repopulate_events rt f v (clearTables f (beginTransaction f st0).2).2
  have hsins := storeEvents_inserts ins hall
  refine ⟨ins, hall, ?_⟩
  by_cases hbegin : f.beginTransaction = true
  · left
    have hrun : restoreTransaction rt f file.path v st0 =
        .threw .beginTransaction false (beginTransaction f st0).2 := by
      simp [restoreTransaction, beginTransaction, hbegin]
    rw [hrun]
    simp only [restoreFinish, restoreCatch_storeEvents, beginTransaction_events,
      storeEvents_append, h0]
    exact ⟨hbegin, by simp [storeEvents, Event.touchesStore], rfl⟩
  · right
    have hbegin2 : f.beginTransaction = false := by simpa using hbegin
    have hb := (beginTransaction_ok f st0 hbegin2).1
    cases hc : (clearTables f (beginTransaction f st0).2).1 with
    | some cause =>
      left
      obtain ⟨t, _, ht⟩ := clearTables_cause f _ cause hc
      have hrun : restoreTransaction rt f file.path v st0 =
          .threw cause true (clearTables f (beginTransaction f st0).2).2 := by
        simp [restoreTransaction, hb, hc]
      rw [hrun]
      simp only [restoreFinish, restoreCatch_storeEvents, clearTables_events,
        beginTransaction_events, storeEvents_append, h0]
      exact ⟨hbegin2, ⟨t, ht⟩, by simp [storeEvents, Event.touchesStore, deleteEvents], rfl⟩
    | none =>
      right
      have hdel := (clearTables_fst_iff f _).mp hc
      cases hr : (repopulate rt f v (clearTables f (beginTransaction f st0).2).2).1 with
      | some cause =>
        left
        have hnot : ∃ t, ¬ insertSucceeds rt f v t := by
          by_contra hcon
          have hall2 : ∀ t, insertSucceeds rt f v t := by
            intro t
            by_contra ht
            exact hcon ⟨t, ht⟩
          rw [(repopulate_fst_iff rt f v _).mpr hall2] at hr
          simp at hr
        have hrun : restoreTransaction rt f file.path v st0 =
            .threw cause true (repopulate rt f v (clearTables f (beginTransaction f st0).2).2).2 := by
          simp [restoreTransaction, hb, hc, hr]
        rw [hrun]
        simp only [restoreFinish, restoreCatch_storeEvents, hins, clearTables_events,
          beginTransaction_events, storeEvents_append, h0, hsins]
        exact ⟨hbegin2, hdel, hnot,
          by simp [storeEvents, Event.touchesStore, deleteEvents], rfl⟩
      | none =>
        right
        have hinsok := (repopulate_fst_iff rt f v _).mp hr
        by_cases hcommit : f.commit = true
        · left
          have hrun : restoreTransaction rt f file.path v st0 =
              .threw .commit true
                (commit f (repopulate rt f v (clearTables f (beginTransaction f st0).2).2).2).2 := by
            simp [restoreTransaction, hb, hc, hr, commitAndRespond, commit_fst, hcommit]
          rw [hrun]
          simp only [restoreFinish, restoreCatch_storeEvents, commit_events, hins,
            clearTables_events, beginTransaction_events, storeEvents_append, h0, hsins]
          exact ⟨hbegin2, hdel, hinsok, hcommit,
            by simp [storeEvents, Event.touchesStore, deleteEvents], rfl⟩
        · right
          have hcommit2 : f.commit = false := by simpa using hcommit
          obtain ⟨us, ps, os, hu, hp, ho⟩ := sequences_of_isBackupDocument v hv
          have hrun : restoreTransaction rt f file.path v st0 =
              .responded
                (.restored (some (.num us.length)) (some (.num ps.length))
                  (some (.num os.length)) (settingsCount v))
                (emit (.logInfo "База данных восстановлена успешно")
                  (unlinkTemp f file.path
                    (commit f
                      (repopulate rt f v (clearTables f (beginTransaction f st0).2).2).2).2)) := by
            simp [restoreTransaction, hb, hc, hr, commitAndRespond, commit_fst, hcommit2, hu, hp,
              ho, readProp_arr_length]
          rw [hrun]
          simp only [restoreFinish, emit_events, unlinkTemp_storeEvents, commit_events, hins,
            clearTables_events, beginTransaction_events, storeEvents_append, h0, hsins]
          exact ⟨hbegin2, hdel, hinsok, hcommit2,
            by simp [storeEvents, Event.touchesStore, deleteEvents], rfl⟩

/-- C20: restore is strictly sequential.  In every run of the restore handler
either no transaction call is issued at all and the answer is not 200, or the
upload holds a document that passed validation and the transaction calls are,
in this order: the opening, the four deletes, the bulk-inserts, the commit.
Inserts are issued only when every delete succeeded, the commit only when every
delete and every insert succeeded, the answer is 200 only when the commit
succeeded, and after the commit no delete or insert is issued (only the
rollback, when the commit failed). -/
theorem restore_sequential (rt : Runtime) (f : Faults) (req : Request) (store : Store) :
    (storeEvents (backupRestore rt f req store).state.events = [] ∧
        (backupRestore rt f req store).response.status ≠ 200) ∨
      ∃ file v, req.file = some file ∧ rt.parse file.content = some v ∧
        isBackupDocument v = true ∧
        TransactionTrace rt f v (storeEvents (backupRestore rt f req store).state.events)
          (backupRestore rt f req store).response.status := by
  obtain ⟨file⟩ := req
  cases file with
  | none =>
    left
    simp [backupRestore, restoreTry, restoreFinish, initialState, storeEvents, Response.status]
  | some file =>
    by_cases hread : f.readFile = true
    · left
      rw [backupRestore_upload]
      simp only [restoreTry, hread, if_true, restoreFinish, restoreCatch_storeEvents,
        storeEvents_start]
      exact ⟨rfl, by simp [restoreCatch_response, Response.status]⟩
    · have hread2 : f.readFile = false := by simpa using hread
      cases hparse : rt.parse file.content with
      | none =>
        left
        rw [backupRestore_upload]
        simp [restoreTry, hread2, hparse, restoreFinish, Response.status, storeEvents,
          initialState, Event.touchesStore]
      | some v =>
        cases hv : isBackupDocument v with
        | false =>
          left
          obtain ⟨message, hm⟩ :=
            restoreTry_rejected rt f file (initialState store true) v hread2 hparse hv
          rw [backupRestore_upload, hm]
          simp [restoreFinish, Response.status, storeEvents, initialState, Event.touchesStore]
        | true =>
          right
          refine ⟨file, v, rfl, hparse, hv, ?_⟩
          rw [backupRestore_upload, restoreTry_accepted rt f file _ v hread2 hparse hv]
          exact restoreTransaction_trace rt f file store v hv

/-- C20 on the sample document with a row for every table: the transaction
calls of a successful restore, in order. -/
theorem restore_sequential_sample :
    storeEvents
        (backupRestore sampleRuntime noFaults (sampleUpload fullDocumentText)
          sampleStore).state.events =
      [.beginTransaction, .destroy .users true, .destroy .products true,
        .destroy .orders true, .destroy .settings true,
        .bulkCreate .users
          (.arr [.obj [("id", .num 1), ("username", .str "admin"),
            ("password", .str "$2b$10$hashOfAdmin")]]) true,
        .bulkCreate .products
          (.arr [.obj [("id", .num 2), ("name", .str "cup"), ("price_options", .str "[]")]])
          true,
        .bulkCreate .orders
          (.arr [.obj [("id", .num 4), ("user_id", .num 1), ("products", .str "[]")]]) true,
        .bulkCreate .settings (.arr [.obj [("id", .num 1), ("discount_rules", .str "[]")]])
          true,
        .commit] ∧
      storeEvents
        (backupRestore sampleRuntime ordersInsertFails (sampleUpload fullDocumentText)
          sampleStore).state.events =
      [.beginTransaction, .destroy .users true, .destroy .products true,
        .destroy .orders true, .destroy .settings true,
        .bulkCreate .users
          (.arr [.obj [("id", .num 1), ("username", .str "admin"),
            ("password", .str "$2b$10$hashOfAdmin")]]) true,
        .bulkCreate .products
          (.arr [.obj [("id", .num 2), ("name", .str "cup"), ("price_options", .str "[]")]])
          true,
        .bulkCreate .orders
          (.arr [.obj [("id", .num 4), ("user_id", .num 1), ("products", .str "[]")]]) true,
        .bulkCreate .settings (.arr [.obj [("id", .num 1), ("discount_rules", .str "[]")]])
          true,
        .rollback] :=
  ⟨rfl, rfl⟩

end Order

/-! ## Removal of the temporary file -/

section Cleanup

variable (rt : Runtime) (f : Faults) (b : Bool)

theorem Completion.agrees_refl (c : Completion) : c.agrees c := by
  cases c <;> simp [Completion.agrees, sameTables]

theorem unlinkTemp_sameTables (f1 f2 : Faults) (path : String) (st1 st2 : RunState)
    (h : sameTables st1 st2) : sameTables (unlinkTemp f1 path st1) (unlinkTemp f2 path st2) := by
  simpa [sameTables] using h

theorem rollbackLogged_sameTables (st1 st2 : RunState) (h : sameTables st1 st2) :
    sameTables (rollbackLogged { f with unlink := b } st1) (rollbackLogged f st2) := by
  obtain ⟨h1, h2⟩ := h
  cases hr : f.rollback <;> simp [rollbackLogged, rollback, hr, sameTables, h1, h2]

theorem commitAndRespond_agrees (path : String) (v : JVal) (st : RunState) :
    (commitAndRespond { f with unlink := b } path v st).agrees
      (commitAndRespond f path v st) := by
  have hc : commit { f with unlink := b } st = commit f st := rfl
  unfold commitAndRespond
  simp only [hc]
  by_cases h : (commit f st).1 = true
  · simp only [h, Bool.not_true, Bool.false_eq_true, if_false]
    cases readProp (getProp v "users") "length" <;>
      cases readProp (getProp v "products") "length" <;>
      cases readProp (getProp v "orders") "length" <;>
      simp [Completion.agrees, sameTables]
  · simp [h, Completion.agrees, sameTables]

theorem restoreTransaction_agrees (path : String) (v : JVal) (st : RunState) :
    (restoreTransaction rt { f with unlink := b } path v st).agrees
      (restoreTransaction rt f path v st) := by
  have h1 : beginTransaction { f with unlink := b } st = beginTransaction f st := rfl
  have h2 : ∀ s, clearTables { f with unlink := b } s = clearTables f s := fun _ => rfl
  have h3 : ∀ s, repopulate rt { f with unlink := b } v s = repopulate rt f v s :=
    fun s => repopulate_congr rt f { f with unlink := b } rfl rfl rfl v s
  unfold restoreTransaction
  simp only [h1, h2, h3]
  by_cases hb : (beginTransaction f st).1 = true
  · simp only [hb, Bool.not_true, Bool.false_eq_true, if_false]
    cases hc : (clearTables f (beginTransaction f st).2).1 with
    | some cause => simp [Completion.agrees, sameTables]
    | none =>
      cases hr : (repopulate rt f v (clearTables f (beginTransaction f st).2).2).1 with
      | some cause => simp [Completion.agrees, sameTables]
      | none => exact commitAndRespond_agrees f b path v _
  · simp [hb, Completion.agrees, sameTables]

theorem restoreTry_agrees (req : Request) (st : RunState) :
    (restoreTry rt { f with unlink := b } req st).agrees (restoreTry rt f req st) := by
  obtain ⟨file⟩ := req
  cases file with
  | none => simp [restoreTry, Completion.agrees, sameTables]
  | some file =>
    have hshape : ∀ g : Faults, restoreTry rt g { file := some file } st =
        if g.readFile = true then .threw .readFile false (emit (.readFile file.path) st)
        else
          match rt.parse file.content with
          | none =>
            .responded (.error 400 "Неверный формат JSON файла") (emit (.readFile file.path) st)
          | some importData =>
            if badStructure importData = true then
              .responded (.error 400 "Некорректная структура данных")
                (emit (.readFile file.path) st)
            else if (missingFields importData).length > 0 then
              .responded
                (.error 400
                  ("Отсутствуют обязательные поля: " ++
                    ", ".intercalate (missingFields importData)))
                (emit (.readFile file.path) st)
            else restoreTransaction rt g file.path importData (emit (.readFile file.path) st) :=
      fun _ => rfl
    rw [hshape, hshape]
    have hread : ({ f with unlink := b } : Faults).readFile = f.readFile := rfl
    rw [hread]
    by_cases hr : f.readFile = true
    · rw [if_pos hr, if_pos hr]
      exact Completion.agrees_refl _
    · rw [if_neg hr, if_neg hr]
      cases rt.parse file.content with
      | none => exact Completion.agrees_refl _
      | some v =>
        simp only []
        by_cases hbad : badStructure v = true
        · rw [if_pos hbad, if_pos hbad]
          exact Completion.agrees_refl _
        · rw [if_neg hbad, if_neg hbad]
          by_cases hm : (missingFields v).length > 0
          · rw [if_pos hm, if_pos hm]
            exact Completion.agrees_refl _
          · rw [if_neg hm, if_neg hm]
            exact restoreTransaction_agrees rt f b _ v _

theorem restoreCatch_agrees (req : Request) (cause : Failure) (tx : Bool)
    (st1 st2 : RunState) (h : sameTables st1 st2) :
    (restoreCatch { f with unlink := b } req cause tx st1).response =
        (restoreCatch f req cause tx st2).response ∧
      sameTables (restoreCatch { f with unlink := b } req cause tx st1).state
        (restoreCatch f req cause tx st2).state := by
  refine ⟨rfl, ?_⟩
  have hs : sameTables (if tx = true then rollbackLogged { f with unlink := b } st1 else st1)
      (if tx = true then rollbackLogged f st2 else st2) := by
    cases tx
    · simpa using h
    · simpa using rollbackLogged_sameTables f b st1 st2 h
  obtain ⟨file⟩ := req
  unfold restoreCatch
  cases file with
  | none => simpa [sameTables] using hs
  | some file =>
    simp only []
    split
    · have := unlinkTemp_sameTables { f with unlink := b } f file.path _ _ hs
      simpa [sameTables] using this
    · simpa [sameTables] using hs

theorem restoreFinish_agrees (req : Request) (c1 c2 : Completion) (h : c1.agrees c2) :
    (restoreFinish { f with unlink := b } req c1).response = (restoreFinish f req c2).response ∧
      sameTables (restoreFinish { f with unlink := b } req c1).state
        (restoreFinish f req c2).state := by
  cases c1 with
  | responded r1 s1 =>
    cases c2 with
    | responded r2 s2 => exact h
    | threw cause2 tx2 s2 => exact h.elim
  | threw cause1 tx1 s1 =>
    cases c2 with
    | responded r2 s2 => exact h.elim
    | threw cause2 tx2 s2 =>
      obtain ⟨hc, ht, hs⟩ := h
      subst hc
      subst ht
      exact restoreCatch_agrees f b req cause1 tx1 s1 s2 hs

theorem backupRestore_unlink (req : Request) (store : Store) :
    (backupRestore rt { f with unlink := b } req store).response =
        (backupRestore rt f req store).response ∧
      sameTables (backupRestore rt { f with unlink := b } req store).state
        (backupRestore rt f req store).state :=
  restoreFinish_agrees f b req _ _ (restoreTry_agrees rt f b req _)

/-- C17: a cleanup failure is not fatal.  For every request, every content of
the tables and every outcome of the other calls, the answer of the restore
handler (status and body) and the tables it leaves are the same whether
removing the temporary file throws or succeeds: on success the 200 answer with
the counts and the replaced tables, on a persistence failure the 500 answer. -/
theorem cleanup_failure_non_fatal (rt : Runtime) (f : Faults) (req : Request)
    (store : Store) :
    (backupRestore rt { f with unlink := true } req store).response =
        (backupRestore rt { f with unlink := false } req store).response ∧
      (backupRestore rt { f with unlink := true } req store).state.visible =
        (backupRestore rt { f with unlink := false } req store).state.visible ∧
      (backupRestore rt { f with unlink := true } req store).state.working =
        (backupRestore rt { f with unlink := false } req store).state.working := by
  obtain ⟨h1, h2, h3⟩ := backupRestore_unlink rt { f with unlink := false } true req store
  exact ⟨h1, h2, h3⟩

/-- C17 on the sample document with one administrator: with the removal of the
temporary file throwing, the restore still answers 200 with the counts, the
failure being logged as a warning and the file left on disk. -/
theorem cleanup_failure_sample :
    (backupRestore sampleRuntime unlinkFails (sampleUpload adminOnlyText) sampleStore).response =
        .restored (some (.num 1)) (some (.num 0)) (some (.num 0)) (some (.num 0)) ∧
      (backupRestore sampleRuntime unlinkFails (sampleUpload adminOnlyText)
        sampleStore).state.events =
        [.readFile "uploads/3f2a-backup.json", .beginTransaction,
          .destroy .users true, .destroy .products true, .destroy .orders true,
          .destroy .settings true,
          .bulkCreate .users
            (.arr [.obj [("id", .num 1), ("username", .str "admin"),
              ("password", .str "$2b$10$hashOfAdmin"), ("role", .str "admin")]])
            true,
          .commit, .unlink "uploads/3f2a-backup.json",
          .logWarn "Ошибка удаления временного файла:" .unlink,
          .logInfo "База данных восстановлена успешно"] ∧
      (backupRestore sampleRuntime unlinkFails (sampleUpload adminOnlyText)
        sampleStore).state.tempFile = true :=
  ⟨rfl, rfl, rfl⟩

end Cleanup

/-! ## Admin panel and server on an upload -/

section ClientServer

variable (rt : Runtime) (f : Faults)

theorem clientMissingFields_eq (v : JVal) : clientMissingFields v = missingFields v := rfl

theorem clientValidate_ok_iff (v : JVal) :
    clientValidate v = .ok () ↔ isBackupDocument v = true := by
  rw [← accepts_iff]
  unfold clientValidate
  rw [clientMissingFields_eq]
  have hbad : (!v.truthy || decide (typeof v ≠ TypeTag.object)) = badStructure v := rfl
  rw [hbad]
  by_cases hb : badStructure v = true
  · simp [hb]
  · by_cases hm : missingFields v = []
    · simp [hb, hm]
    · have hlen : (missingFields v).length > 0 := List.length_pos.mpr hm
      simp [hb, hm, hlen]

theorem restore_begins_iff (file : UploadedFile) (store : Store) (v : JVal)
    (hread : f.readFile = false) (hparse : rt.parse file.content = some v) :
    Event.beginTransaction ∈ (backupRestore rt f { file := some file } store).state.events ↔
      isBackupDocument v = true := by
  constructor
  · intro hmem
    by_contra hv
    have hv2 : isBackupDocument v = false := by simpa using hv
    obtain ⟨message, hm⟩ :=
      restoreTry_rejected rt f file (initialState store true) v hread hparse hv2
    rw [backupRestore_upload, hm] at hmem
    simp [restoreFinish, initialState] at hmem
  · intro hv
    rw [backupRestore_upload]
    apply restoreFinish_events_mono
    rw [restoreTry_accepted rt f file _ v hread hparse hv]
    exact restoreTransaction_begins rt f _ _ _

/-- C21: the admin panel and the server validate a backup alike.  For every
parsed value, the validation of `importDatabase` accepts it exactly when the
restore handler goes past its validation; both compute the same list of
missing fields; and when the value is an object with missing fields, the
message of the error thrown in the panel is the text of the 400 answer. -/
theorem client_server_validation (rt : Runtime) (f : Faults) (file : UploadedFile)
    (store : Store) (v : JVal)
    (hread : f.readFile = false) (hparse : rt.parse file.content = some v) :
    (clientValidate v = .ok () ↔
        Event.beginTransaction ∈
          (backupRestore rt f { file := some file } store).state.events) ∧
      clientMissingFields v = missingFields v ∧
      (badStructure v = false → missingFields v ≠ [] →
        clientValidate v =
            .error (.error
              ("Отсутствуют обязательные поля: " ++ ", ".intercalate (missingFields v))) ∧
          (backupRestore rt f { file := some file } store).response =
            .error 400
              ("Отсутствуют обязательные поля: " ++ ", ".intercalate (missingFields v))) := by
  refine ⟨?_, rfl, ?_⟩
  · rw [clientValidate_ok_iff, restore_begins_iff rt f file store v hread hparse]
  · intro hb hm
    have hlen : (missingFields v).length > 0 := List.length_pos.mpr hm
    have hbad : (!v.truthy || decide (typeof v ≠ TypeTag.object)) = false := hb
    constructor
    · unfold clientValidate
      rw [clientMissingFields_eq, hbad]
      simp [hlen]
    · rw [backupRestore_upload]
      simp [restoreTry, hread, hparse, hb, hlen, restoreFinish]

/-- C21 on the sample document that lacks `products` and `orders`: the panel
and the server reject it with the same text. -/
theorem client_server_validation_witness :
    noFaults.readFile = false ∧ sampleRuntime.parse usersOnlyText = some usersOnly ∧
      clientValidate usersOnly =
        .error (.error "Отсутствуют обязательные поля: products, orders") ∧
      (backupRestore sampleRuntime noFaults (sampleUpload usersOnlyText) sampleStore).response =
        .error 400 "Отсутствуют обязательные поля: products, orders" :=
  ⟨rfl, rfl,
    ((client_server_validation sampleRuntime noFaults (sampleFile usersOnlyText) sampleStore
      usersOnly rfl rfl).2.2 rfl (by decide)).1,
    rfl⟩

/-- C22: the admin panel and the server disagree on the accepted file type.
A backup with the type `text/json` passes the type check of `importDatabase`
(the type contains `json`) and is uploaded in the field `backup_file`; the
upload filter of the server refuses it, and the error handler answers 500,
not 400 or 413. -/
theorem client_server_type_mismatch :
    includes textJsonBackup.type "json" = true ∧
      importDatabase sampleRuntime (some textJsonBackup) true (some "УДАЛИТЬ ВСЕ ДАННЫЕ") =
        .uploaded "backup_file" textJsonBackup ∧
      fileFilter (receivedPart "uploads/5d0c-backup.json" "backup_file" textJsonBackup) =
        .error (.other "只允许上传JSON或图片文件") ∧
      restoreRoute sampleRuntime noFaults
          (some (receivedPart "uploads/5d0c-backup.json" "backup_file" textJsonBackup))
          sampleStore =
        .refused (.error 500 "Внутренняя ошибка сервера") true :=
  ⟨rfl, rfl, rfl, rfl⟩

end ClientServer

/-! ## Texts: trimming and patterns -/

section Texts

theorem jsTrim_empty : jsTrim "" = "" := rfl

theorem jsTrim_ne_empty_iff (s : String) : jsTrim s ≠ "" ↔ trimChars s.data ≠ [] := by
  unfold jsTrim
  constructor
  · intro h hnil
    apply h
    rw [hnil]
  · intro h hs
    apply h
    have := congrArg String.data hs
    simpa using this

theorem searchGiven_iff (search : Option String) :
    searchGiven search = true ↔ ∃ s, search = some s ∧ jsTrim s ≠ "" := by
  cases search with
  | none => simp [searchGiven]
  | some s =>
    simp only [searchGiven, Bool.and_eq_true, decide_eq_true_eq, Option.some.injEq,
      exists_eq_left']
    constructor
    · exact fun h => h.2
    · intro h
      refine ⟨?_, h⟩
      intro hs
      apply h
      rw [hs, jsTrim_empty]

theorem given_iff (x : Option String) : given x = true ↔ ∃ s, x = some s ∧ s ≠ "" := by
  cases x with
  | none => simp [given]
  | some s => simp [given]

theorem anySuffix_of_nil (test : List Char → Bool) (h : test [] = true) (text : List Char) :
    anySuffix test text = true := by
  induction text with
  | nil => simpa [anySuffix] using h
  | cons c rest ih => simp [anySuffix, ih]

theorem likeChars_cons (c : Char) (pattern text : List Char) :
    likeChars (c :: pattern) text =
      if c = '%' then anySuffix (fun rest => likeChars pattern rest) text
      else if c = '_' then
        match text with
        | [] => false
        | _ :: rest => likeChars pattern rest
      else if c = '\\' then
        match pattern, text with
        | literal :: pattern2, d :: rest => literal == d && likeChars pattern2 rest
        | _, _ => false
      else
        match text with
        | [] => false
        | d :: rest => c == d && likeChars pattern rest := by
  cases pattern <;> cases text <;> rfl

theorem likeChars_percent (pattern text : List Char) :
    likeChars ('%' :: pattern) text = anySuffix (fun rest => likeChars pattern rest) text := by
  rw [likeChars_cons, if_pos rfl]

theorem likeChars_percent_only (text : List Char) : likeChars ['%'] text = true := by
  rw [likeChars_percent]
  exact anySuffix_of_nil _ rfl _

theorem likeChars_plain (e : List Char) (he : ∀ c ∈ e, isPlainChar c = true)
    (pattern text : List Char) :
    likeChars (e ++ pattern) text =
      (e.isPrefixOf text && likeChars pattern (text.drop e.length)) := by
  induction e generalizing text with
  | nil => simp
  | cons c e ih =>
    have hc := he c (List.mem_cons_self _ _)
    have he2 : ∀ x ∈ e, isPlainChar x = true := fun x hx => he x (List.mem_cons_of_mem _ hx)
    simp only [isPlainChar, Bool.not_eq_true', Bool.or_eq_false_iff, decide_eq_false_iff_not]
      at hc
    obtain ⟨⟨h1, h2⟩, h3⟩ := hc
    rw [List.cons_append, likeChars_cons, if_neg h1, if_neg h2, if_neg h3]
    cases text with
    | nil => rfl
    | cons d rest =>
      simp only [List.isPrefixOf, List.length_cons, List.drop_succ_cons]
      rw [ih he2 rest, Bool.and_assoc]

/-- For a text without pattern characters, `LIKE '%text%'` is containment. -/
theorem like_plain (e text : String) (he : e.data.all isPlainChar = true) :
    like ("%" ++ e ++ "%") text = includes text e := by
  have he2 : ∀ c ∈ e.data, isPlainChar c = true := by
    simpa [List.all_eq_true] using he
  have hdata : ("%" ++ e ++ "%").data = '%' :: (e.data ++ ['%']) := by
    simp [String.data_append]
  unfold like includes
  rw [hdata, likeChars_percent]
  congr 1
  funext rest
  rw [likeChars_plain e.data he2, likeChars_percent_only, Bool.and_true]

end Texts

/-! ## Listings -/

section Listings

variable (b : Builtins) (rt : Runtime) (f : Faults)

theorem parseOrEmpty_some_iff (text : Option String) (v : JVal) :
    parseOrEmpty rt text = some v ↔ decodesTo rt text v := by
  unfold parseOrEmpty decodesTo
  cases text with
  | none => simp [eq_comm]
  | some s =>
    by_cases hs : s = ""
    · simp [hs, eq_comm]
    · simp [hs]

theorem parseOrEmpty_none_iff (text : Option String) :
    parseOrEmpty rt text = none ↔ unparsable rt text := by
  unfold parseOrEmpty unparsable
  cases text with
  | none => simp
  | some s =>
    by_cases hs : s = ""
    · simp [hs]
    · simp [hs]

/-- C23: listing decode with joint fallback.  For every stored product,
`GET /api/products` returns the row with `price_options` and
`additional_images` replaced by the parsed JSON of the stored texts (an absent
or empty text gives `[]`); if either text fails to parse, both are returned as
`[]`; the other columns are unchanged.  `GET /api/orders` does the same for
`products` and `assigned_executors`.  The rows returned are the rows read, one
for one and in the same order. -/
theorem listing_decode (b : Builtins) (rt : Runtime) (f : Faults) (product : ProductRow)
    (order : OrderRow) (pq : ProductQuery) (oq : OrderQuery) (ptable : List ProductRow)
    (otable : List OrderRow) :
    (∀ x y, decodesTo rt product.price_options x → decodesTo rt product.additional_images y →
        decodeProduct rt product =
          { id := product.id, name := product.name, description := product.description,
            is_visible := product.is_visible, price_options := x, additional_images := y,
            rest := product.rest }) ∧
      (unparsable rt product.price_options ∨ unparsable rt product.additional_images →
        decodeProduct rt product =
          { id := product.id, name := product.name, description := product.description,
            is_visible := product.is_visible, price_options := .arr [],
            additional_images := .arr [], rest := product.rest }) ∧
      (∀ x y, decodesTo rt order.products x → decodesTo rt order.assigned_executors y →
        decodeOrder rt order =
          { id := order.id, user_id := order.user_id, status := order.status, products := x,
            assigned_executors := y, rest := order.rest }) ∧
      (unparsable rt order.products ∨ unparsable rt order.assigned_executors →
        decodeOrder rt order =
          { id := order.id, user_id := order.user_id, status := order.status,
            products := .arr [], assigned_executors := .arr [], rest := order.rest }) ∧
      (f.findAll .products = false →
        listProducts b rt f pq ptable =
          .rows ((ptable.filter ((productsWhere b pq).admits b)).map (decodeProduct rt))) ∧
      (f.findAll .orders = false → (ordersWhere b oq).user_id ≠ some none →
        listOrders b rt f oq otable =
          .rows ((otable.filter (ordersWhere b oq).admits).map (decodeOrder rt))) := by
  refine ⟨?_, ?_, ?_, ?_, ?_, ?_⟩
  · intro x y hx hy
    rw [← parseOrEmpty_some_iff] at hx hy
    simp [decodeProduct, hx, hy]
  · intro h
    rcases h with h | h
    · rw [← parseOrEmpty_none_iff] at h
      simp [decodeProduct, h]
    · rw [← parseOrEmpty_none_iff] at h
      unfold decodeProduct
      rw [h]
      cases parseOrEmpty rt product.price_options <;> rfl
  · intro x y hx hy
    rw [← parseOrEmpty_some_iff] at hx hy
    simp [decodeOrder, hx, hy]
  · intro h
    rcases h with h | h
    · rw [← parseOrEmpty_none_iff] at h
      simp [decodeOrder, h]
    · rw [← parseOrEmpty_none_iff] at h
      unfold decodeOrder
      rw [h]
      cases parseOrEmpty rt order.products <;> rfl
  · intro hf
    simp [listProducts, hf, processedProducts]
  · intro hf hnan
    simp [listOrders, hf, hnan, processedOrders]

/-- C23 on two sample products: the one whose `additional_images` is broken
comes back with both columns `[]` although its `price_options` is valid, and
the rows come back in the order of the read. -/
theorem listing_decode_sample :
    listProducts sampleBuiltins listRuntime noFaults
        { search := none, filter := none, admin := some "1" }
        [halfBrokenProduct, hiddenProduct] =
      .rows
        [{ id := 3, name := "Blue Vase", description := none, is_visible := some true,
           price_options := .arr [], additional_images := .arr [],
           rest := [("parts_count", .num 1)] },
         { id := 4, name := "Draft", description := none, is_visible := some false,
           price_options := .arr [], additional_images := .arr [], rest := [] }] ∧
      listRuntime.parse "[\x7b\"size\":\"S\",\"price\":100\x7d]" =
        some (.arr [.obj [("size", .str "S"), ("price", .num 100)]]) :=
  ⟨rfl, rfl⟩

theorem decodeProduct_is_visible (product : ProductRow) :
    (decodeProduct rt product).is_visible = product.is_visible := by
  unfold decodeProduct
  split <;> rfl

theorem productsWhere_is_visible (q : ProductQuery) :
    (productsWhere b q).is_visible = if given q.admin = true then none else some true := by
  unfold productsWhere
  simp only []
  cases given q.admin <;> cases searchGiven q.search <;> simp <;> split_ifs <;> rfl

theorem parseIntOrZero_eq (text : String) :
    parseIntOrZero b text = (b.parseInt text).getD 0 := by
  unfold parseIntOrZero
  cases b.parseInt text with
  | none => rfl
  | some n =>
    by_cases hn : n = 0
    · simp [hn]
    · simp [hn]

/-- C27: product visibility filter.  For every query of `GET /api/products`
whose `admin` parameter is absent or empty, every product returned has
`is_visible = true`.  The search term is applied only when it is non-blank
after trimming: to `description` for the filter `description`, to `id` (as
`parseInt` of the term, or 0 when that is not a number) for the filter `id`,
and to `name` for the filter `name`, an absent filter and any other filter. -/
theorem products_visibility_filter (b : Builtins) (rt : Runtime) (f : Faults)
    (q : ProductQuery) (table : List ProductRow) :
    ((q.admin = none ∨ q.admin = some "") →
        ∀ items, listProducts b rt f q table = .rows items →
          ∀ p ∈ items, p.is_visible = some true) ∧
      (¬ nonBlank q.search →
        (productsWhere b q).description = none ∧ (productsWhere b q).id = none ∧
          (productsWhere b q).name = none) ∧
      (∀ s, q.search = some s → jsTrim s ≠ "" →
        (q.filter = some "description" →
          (productsWhere b q).description = some ("%" ++ jsTrim s ++ "%") ∧
            (productsWhere b q).id = none ∧ (productsWhere b q).name = none) ∧
        (q.filter = some "id" →
          (productsWhere b q).id = some ((b.parseInt (jsTrim s)).getD 0) ∧
            (productsWhere b q).description = none ∧ (productsWhere b q).name = none) ∧
        (q.filter ≠ some "description" → q.filter ≠ some "id" →
          (productsWhere b q).name = some ("%" ++ jsTrim s ++ "%") ∧
            (productsWhere b q).description = none ∧ (productsWhere b q).id = none)) := by
  refine ⟨?_, ?_, ?_⟩
  · intro hadmin items hitems p hp
    have hgiven : given q.admin = false := by
      rcases hadmin with h | h <;> simp [h, given]
    have hvis := productsWhere_is_visible b q
    rw [hgiven] at hvis
    simp only [Bool.false_eq_true, if_false] at hvis
    unfold listProducts at hitems
    split at hitems
    · cases hitems
    · cases hitems
      simp only [processedProducts, List.mem_map, List.mem_filter] at hp
      obtain ⟨row, ⟨_, hadmits⟩, hrow⟩ := hp
      rw [← hrow, decodeProduct_is_visible]
      unfold ProductWhere.admits at hadmits
      rw [hvis] at hadmits
      simp only [Bool.and_eq_true, decide_eq_true_eq] at hadmits
      exact hadmits.1.1.1
  · intro hblank
    have hs : searchGiven q.search = false := by
      by_contra hcon
      exact hblank ((searchGiven_iff q.search).mp (by simpa using hcon))
    unfold productsWhere
    simp only [hs, Bool.false_eq_true, if_false]
    cases given q.admin <;> simp
  · intro s hsearch htrim
    have hs : searchGiven q.search = true := (searchGiven_iff q.search).mpr ⟨s, hsearch, htrim⟩
    have hget : q.search.getD "" = s := by rw [hsearch]; rfl
    refine ⟨?_, ?_, ?_⟩
    · intro hfilter
      unfold productsWhere
      simp only [hs, if_true, hget, hfilter, Option.getD_some]
      cases given q.admin <;> simp
    · intro hfilter
      unfold productsWhere
      simp only [hs, if_true, hget, hfilter, Option.getD_some, parseIntOrZero_eq]
      cases given q.admin <;> simp
    · intro h1 h2
      have hf1 : q.filter.getD "name" ≠ "description" := by
        cases hq : q.filter with
        | none => simp
        | some x =>
          rw [hq] at h1
          simpa using h1
      have hf2 : q.filter.getD "name" ≠ "id" := by
        cases hq : q.filter with
        | none => simp
        | some x =>
          rw [hq] at h2
          simpa using h2
      unfold productsWhere
      simp only [hs, if_true, hget, hf1, hf2, if_false]
      cases given q.admin <;> simp

/-- C27 on two sample products and a query without `admin`: only the visible
one is listed; with `admin=1` both are. -/
theorem products_visibility_sample :
    listProducts sampleBuiltins listRuntime noFaults
        { search := none, filter := none, admin := none }
        [halfBrokenProduct, hiddenProduct] =
      .rows
        [{ id := 3, name := "Blue Vase", description := none, is_visible := some true,
           price_options := .arr [], additional_images := .arr [],
           rest := [("parts_count", .num 1)] }] ∧
      (productsWhere sampleBuiltins
          { search := some " vase ", filter := some "title", admin := none }).name =
        some "%vase%" ∧
      (productsWhere sampleBuiltins
          { search := some " 12 ", filter := some "id", admin := none }).id = some 12 ∧
      (productsWhere sampleBuiltins
          { search := some "cup", filter := some "id", admin := none }).id = some 0 :=
  ⟨rfl, rfl, rfl, rfl⟩

/-- C26, at an input the handler can receive: for the query `?executor_id=_`
the condition is `assigned_executors LIKE '%_%'`, and the order assigned to
executor 5 only is listed, although its `assigned_executors`, the text `[5]`,
does not contain the text `_`. -/
theorem executor_wildcard_lists_all :
    listOrders sampleBuiltins listRuntime noFaults wildcardQuery [orderOfFive] =
        .rows
          [{ id := 9, user_id := 4, status := some "создан заказ", products := .arr [],
             assigned_executors := .arr [.num 5], rest := [] }] ∧
      (ordersWhere sampleBuiltins wildcardQuery).assigned_executors = some "%_%" ∧
      includes "[5]" "_" = false :=
  ⟨rfl, rfl, rfl⟩

/-- The where clause of `GET /api/orders`: the ownership filter is chosen by the
precedence admin, executor_id, user_id.  A non-empty `admin` sets no ownership
condition; otherwise a non-empty `executor_id` sets
`assigned_executors LIKE '%' + executor_id + '%'`, which for an `executor_id`
without the pattern characters `%`, `_` and backslash is containment of
`executor_id`; otherwise a non-empty `user_id` sets `user_id = parseInt(user_id)`;
with none of the three there is no ownership condition.  Independently a
non-blank `search` sets `id = parseInt(search.trim()) || 0` and a non-empty
`status` sets equality on `status`. -/
theorem orders_filter_precedence (b : Builtins) (q : OrderQuery) :
    (given q.admin = true →
        (ordersWhere b q).assigned_executors = none ∧ (ordersWhere b q).user_id = none) ∧
      (given q.admin = false → ∀ e, q.executor_id = some e → e ≠ "" →
        (ordersWhere b q).assigned_executors = some ("%" ++ e ++ "%") ∧
          (ordersWhere b q).user_id = none ∧
          (e.data.all isPlainChar = true →
            ∀ text, like ("%" ++ e ++ "%") text = includes text e)) ∧
      (given q.admin = false → given q.executor_id = false → ∀ u, q.user_id = some u → u ≠ "" →
        (ordersWhere b q).user_id = some (b.parseInt u) ∧
          (ordersWhere b q).assigned_executors = none) ∧
      (given q.admin = false → given q.executor_id = false → given q.user_id = false →
        (ordersWhere b q).assigned_executors = none ∧ (ordersWhere b q).user_id = none) ∧
      (∀ s, q.search = some s → jsTrim s ≠ "" →
        (ordersWhere b q).id = some ((b.parseInt (jsTrim s)).getD 0)) ∧
      (¬ nonBlank q.search → (ordersWhere b q).id = none) ∧
      (given q.status = true → (ordersWhere b q).status = q.status) ∧
      (given q.status = false → (ordersWhere b q).status = none) := by
  refine ⟨?_, ?_, ?_, ?_, ?_, ?_, ?_, ?_⟩
  · intro ha
    unfold ordersWhere
    simp only [ha, if_true]
    cases searchGiven q.search <;> cases given q.status <;> simp
  · intro ha e he hne
    have hg : given (some e) = true := (given_iff _).mpr ⟨e, rfl, hne⟩
    refine ⟨?_, ?_, fun hplain text => like_plain e text hplain⟩
    · unfold ordersWhere
      simp only [ha, he, hg, Option.getD_some, Bool.false_eq_true, if_false, if_true]
      cases searchGiven q.search <;> cases given q.status <;> simp
    · unfold ordersWhere
      simp only [ha, he, hg, Option.getD_some, Bool.false_eq_true, if_false, if_true]
      cases searchGiven q.search <;> cases given q.status <;> simp
  · intro ha he u hu hne
    have hg : given (some u) = true := (given_iff _).mpr ⟨u, rfl, hne⟩
    unfold ordersWhere
    simp only [ha, he, hu, hg, Option.getD_some, Bool.false_eq_true, if_false, if_true]
    cases searchGiven q.search <;> cases given q.status <;> simp
  · intro ha he hu
    unfold ordersWhere
    simp only [ha, he, hu, Bool.false_eq_true, if_false]
    cases searchGiven q.search <;> cases given q.status <;> simp
  · intro s hsearch htrim
    have hs : searchGiven (some s) = true := (searchGiven_iff _).mpr ⟨s, rfl, htrim⟩
    unfold ordersWhere
    simp only [hsearch, hs, Option.getD_some, if_true, parseIntOrZero_eq]
    cases given q.status <;> simp
  · intro hblank
    have hs : searchGiven q.search = false := by
      by_contra hcon
      exact hblank ((searchGiven_iff q.search).mp (by simpa using hcon))
    unfold ordersWhere
    simp only [hs, Bool.false_eq_true, if_false]
    cases given q.admin <;> cases given q.executor_id <;> cases given q.user_id <;>
      cases given q.status <;> simp
  · intro hst
    unfold ordersWhere
    simp only [hst, if_true]
  · intro hst
    unfold ordersWhere
    simp only [hst, Bool.false_eq_true, if_false]
    cases given q.admin <;> cases given q.executor_id <;> cases given q.user_id <;>
      cases searchGiven q.search <;> simp

/-- The listing for the query `?executor_id=1`: the order assigned to
executor 12 only is listed, and the order assigned to executor 5 only is not. -/
theorem orders_executor_sample :
    listOrders sampleBuiltins listRuntime noFaults executorOneQuery
        [orderOfFive, orderOfTwelve] =
      .rows
        [{ id := 10, user_id := 7, status := some "создан заказ", products := .arr [],
           assigned_executors := .arr [.num 12], rest := [] }] :=
  rfl

end Listings

/-! ## Orders and login -/

section OrdersLogin

theorem createOrder_created (c : Conversions) (createFails : Bool) (newId id : Int)
    (body : JVal) (order : OrderDraft)
    (h : createOrder c createFails newId body = .created id order) :
    id = newId ∧ order.status = "создан заказ" ∧
      order.products = c.stringify ((getProp body "products").getD .null) ∧
      (truthy (getProp body "notes") = false → order.notes = .str "") ∧
      truthy (getProp body "user_id") = true ∧ isArray (getProp body "products") = true ∧
      hasNoItems (getProp body "products") = false ∧
      truthy (getProp body "total_price") = true := by
  unfold createOrder at h
  simp only [] at h
  split at h
  · cases h
  · rename_i hvalid
    simp only [Bool.or_eq_true, Bool.not_eq_true', not_or, Bool.not_eq_false] at hvalid
    obtain ⟨⟨⟨hu, _⟩, ha⟩, hn⟩ := hvalid
    have hn2 : hasNoItems (getProp body "products") = false := by simpa using hn
    cases hp : truthy (getProp body "total_price") with
    | false => simp [hp] at h
    | true =>
      simp only [hp, if_true] at h
      split at h
      · cases h
      · cases h
      · split at h
        · split at h
          · cases h
          · cases h
            refine ⟨rfl, rfl, rfl, ?_, hu, ha, hn2, rfl⟩
            intro hnotes
            simp [hnotes]
        · cases h

theorem createOrder_invalid (c : Conversions) (createFails : Bool) (newId : Int) (body : JVal)
    (h : truthy (getProp body "user_id") = false ∨ isArray (getProp body "products") = false ∨
      hasNoItems (getProp body "products") = true) :
    createOrder c createFails newId body = .error 400 "Некорректные данные заказа" := by
  unfold createOrder
  rcases h with h | h | h <;> simp [h]

theorem createOrder_number_price (c : Conversions) (createFails : Bool) (newId : Int)
    (body : JVal) (q : ℚ) (hprice : getProp body "total_price" = some (.num q)) (hq : q ≤ 0) :
    (createOrder c createFails newId body).status = 400 := by
  unfold createOrder
  simp only [hprice]
  split
  · rfl
  · by_cases h0 : q = 0
    · simp [truthy, JVal.truthy, h0, OrderResponse.status]
    · simp [truthy, JVal.truthy, h0, leZero, hq, OrderResponse.status]

/-- C24, at an input the handler can receive: the sample body with a user, one
product and the text `abc` as `total_price`.  The text is truthy and
`"abc" <= 0` is false, so the handler goes on to `Order.create` and answers 201
with a total that is not a number, although the price is not greater than 0;
when `Order.create` rejects the row the answer is 500, in neither case 400. -/
theorem order_created_for_text_price :
    createOrder sampleConversions false 42 textPriceOrder =
        .created 42
          { user_id := some 7, products := "[\x7b\"id\":3,\"quantity\":1\x7d]",
            total_price := none, notes := .str "", status := "создан заказ" } ∧
      (createOrder sampleConversions false 42 textPriceOrder).status = 201 ∧
      (createOrder sampleConversions true 42 textPriceOrder).status = 500 ∧
      ¬ positivePrice sampleConversions (getProp textPriceOrder "total_price") := by
  refine ⟨rfl, rfl, rfl, ?_⟩
  have hprice : getProp textPriceOrder "total_price" = some (.str "abc") := rfl
  rw [hprice]
  rintro ⟨_, q, hq, _⟩
  have hnan : sampleConversions.toNumber (.str "abc") = .nan := rfl
  rw [hnan] at hq
  cases hq

/-- Login with texts: for every non-empty text as username and as password,
the read of the user succeeding, the answer when no user has that name is the
401 answer given when the user exists and the password does not match; a
missing or falsy username or password gives 400; and a successful answer
carries the `id`, `username`, `role` and `avatar` of the user and nothing
else. -/
theorem login_uniform (compare : String → String → Bool)
    (findOther : JVal → Option (Option UserRow)) (users : List UserRow)
    (body : LoginBody) (u p : String)
    (hu : body.username = some (.str u)) (hp : body.password = some (.str p)) (hune : u ≠ "")
    (hpne : p ≠ "") :
    (findOneByUsername users u = none →
        login compare findOther false users body = .error 401 "Неверные учетные данные") ∧
      (∀ user, findOneByUsername users u = some user → compare p user.password = false →
        login compare findOther false users body = .error 401 "Неверные учетные данные") ∧
      (∀ user, findOneByUsername users u = some user → compare p user.password = true →
        login compare findOther false users body =
          .user user.id user.username user.role user.avatar) ∧
      (∀ other : LoginBody, truthy other.username = false ∨ truthy other.password = false →
        login compare findOther false users other =
          .error 400 "Укажите имя пользователя и пароль") := by
  have hgu : truthy (some (.str u)) = true := by simp [truthy, JVal.truthy, hune]
  have hgp : truthy (some (.str p)) = true := by simp [truthy, JVal.truthy, hpne]
  refine ⟨?_, ?_, ?_, ?_⟩
  · intro hnone
    simp [login, hgu, hgp, hu, hp, findOne, hnone]
  · intro user hfound hwrong
    simp [login, hgu, hgp, hu, hp, findOne, compareSync, hfound, hwrong]
  · intro user hfound hright
    simp [login, hgu, hgp, hu, hp, findOne, compareSync, hfound, hright]
  · intro other hmissing
    rcases hmissing with h | h <;> simp [login, h]

/-- Login with texts on the table with the default administrator: an unknown
name and a wrong password for `admin` get the same answer. -/
theorem login_uniform_sample :
    login sampleCompare noOther false sampleUsers
        { username := some (.str "nobody"), password := some (.str "x") } =
        .error 401 "Неверные учетные данные" ∧
      login sampleCompare noOther false sampleUsers
          { username := some (.str "admin"), password := some (.str "x") } =
        .error 401 "Неверные учетные данные" ∧
      login sampleCompare noOther false sampleUsers
          { username := some (.str "admin"), password := some (.str "123456") } =
        .user 1 "admin" (some "admin") none :=
  ⟨rfl, rfl, rfl⟩

/-- C25, at an input the handler can receive: the body with the username
`admin` and the number 1 as password.  Both members are truthy, so the handler
reads the user.  When no user has that name the answer is 401; when the user
exists `bcrypt.compareSync` throws on the number and the answer is 500: the
two answers differ, and tell whether the name exists. -/
theorem login_reveals_user :
    truthy numberPassword.username = true ∧ truthy numberPassword.password = true ∧
      findOneByUsername [] "admin" = none ∧
      login sampleCompare noOther false [] numberPassword =
        .error 401 "Неверные учетные данные" ∧
      (findOneByUsername sampleUsers "admin").isSome = true ∧
      login sampleCompare noOther false sampleUsers numberPassword =
        .error 500 "Ошибка сервера при входе" :=
  ⟨rfl, rfl, rfl, rfl, rfl, rfl⟩

end OrdersLogin

/-! ## Discount rules -/

section Discounts

theorem trimChars_eq_nil_iff (l : List Char) :
    trimChars l = [] ↔ ∀ x ∈ l, isJsWhitespace x = true := by
  unfold trimChars
  rw [List.rdropWhile_eq_nil_iff]
  constructor
  · intro h
    have h1 : List.dropWhile isJsWhitespace (List.dropWhile isJsWhitespace l) = [] :=
      List.dropWhile_eq_nil_iff.mpr h
    rw [List.dropWhile_idempotent] at h1
    exact List.dropWhile_eq_nil_iff.mp h1
  · intro h x hx
    exact h x ((List.dropWhile_sublist isJsWhitespace).subset hx)

theorem trimChars_trimChars_ne_nil (l : List Char) (h : trimChars l ≠ []) :
    trimChars (trimChars l) ≠ [] := by
  intro hnil
  have hall := (trimChars_eq_nil_iff (trimChars l)).mp hnil
  unfold trimChars at h hall
  have hlast := List.rdropWhile_last_not isJsWhitespace (List.dropWhile isJsWhitespace l) h
  exact hlast (hall _ (List.getLast_mem h))

theorem jsTrim_jsTrim_ne_empty (s : String) (h : jsTrim s ≠ "") : jsTrim (jsTrim s) ≠ "" := by
  rw [jsTrim_ne_empty_iff] at h ⊢
  exact trimChars_trimChars_ne_nil s.data h

theorem addDiscount_submitted (freshId : ℚ) (rebuilt : JVal → JVal) (settings : SettingsState)
    (form : DiscountForm) (s : SettingsState)
    (h : addDiscount freshId rebuilt settings form = .submitted s) :
    jsTrim form.name ≠ "" ∧ 0 < form.value ∧ (form.type = "percentage" → form.value ≤ 100) ∧
      s.discount_rules = settings.discount_rules ++
        [{ id := freshId, name := jsTrim form.name, type := form.type, value := form.value,
           conditions := rebuilt form.conditions }] := by
  unfold addDiscount at h
  split_ifs at h with h1 h2 h3
  simp only [Bool.or_eq_true, decide_eq_true_eq, not_or, Bool.and_eq_true, not_and, not_lt]
    at h1 h2 h3
  simp only [DiscountStep.submitted.injEq] at h
  subst h
  exact ⟨h1.2, lt_of_not_ge h2.2, h3, rfl⟩

/-- C28: discount list invariant in the admin panel.  `addDiscount` submits
only when the name is non-blank after trimming, the value is greater than 0
and, for the type `percentage`, at most 100, and it does submit then; the list
submitted is the existing rules, unchanged and in order, followed by the new
rule with the trimmed name.  `removeDiscount` submits exactly the existing
rules whose `id` differs from the given one, in their order.  Hence both keep
the predicate that every rule has a non-blank name, a value greater than 0 and,
for `percentage`, a value of at most 100. -/
theorem discount_list_invariant (freshId : ℚ) (rebuilt : JVal → JVal)
    (settings : SettingsState) (form : DiscountForm) (discountId : ℚ) :
    (∀ s, addDiscount freshId rebuilt settings form = .submitted s →
        jsTrim form.name ≠ "" ∧ 0 < form.value ∧
          (form.type = "percentage" → form.value ≤ 100) ∧
          s.discount_rules = settings.discount_rules ++
            [{ id := freshId, name := jsTrim form.name, type := form.type,
               value := form.value, conditions := rebuilt form.conditions }]) ∧
      (jsTrim form.name ≠ "" → 0 < form.value →
        (form.type = "percentage" → form.value ≤ 100) →
        addDiscount freshId rebuilt settings form =
          .submitted { settings with discount_rules := settings.discount_rules ++
            [{ id := freshId, name := jsTrim form.name, type := form.type,
               value := form.value, conditions := rebuilt form.conditions }] }) ∧
      (∃ s, removeDiscount settings discountId = .submitted s ∧
        s.discount_rules =
          settings.discount_rules.filter (fun rule => decide (rule.id ≠ discountId))) ∧
      ((∀ r ∈ settings.discount_rules, validRule r) →
        (∀ s, addDiscount freshId rebuilt settings form = .submitted s →
          ∀ r ∈ s.discount_rules, validRule r) ∧
        (∀ s, removeDiscount settings discountId = .submitted s →
          ∀ r ∈ s.discount_rules, validRule r)) := by
  refine ⟨fun s h => addDiscount_submitted freshId rebuilt settings form s h, ?_, ?_, ?_⟩
  · intro hname hvalue hpercent
    have hne : form.name ≠ "" := by
      intro h
      apply hname
      rw [h, jsTrim_empty]
    have h0 : form.value ≠ 0 := ne_of_gt hvalue
    have hle : ¬ form.value ≤ 0 := not_le.mpr hvalue
    have h100 : ¬ (form.type = "percentage" ∧ form.value > 100) :=
      fun h => absurd (hpercent h.1) (not_le.mpr h.2)
    unfold addDiscount
    simp only [hne, hname, h0, hle, decide_False, Bool.or_self, Bool.false_eq_true, if_false]
    by_cases ht : form.type = "percentage"
    · have hv : ¬ form.value > 100 := fun h => h100 ⟨ht, h⟩
      simp only [ht, hv, decide_True, decide_False, Bool.and_false, Bool.false_eq_true, if_false]
    · simp only [ht, decide_False, Bool.false_and, Bool.false_eq_true, if_false]
  · exact ⟨_, rfl, rfl⟩
  · intro hvalid
    constructor
    · intro s h r hr
      obtain ⟨h1, h2, h3, h4⟩ := addDiscount_submitted freshId rebuilt settings form s h
      rw [h4, List.mem_append, List.mem_singleton] at hr
      rcases hr with hr | hr
      · exact hvalid r hr
      · subst hr
        exact ⟨jsTrim_jsTrim_ne_empty form.name h1, h2, h3⟩
    · intro s h r hr
      simp only [removeDiscount, DiscountStep.submitted.injEq] at h
      subst h
      exact hvalid r (List.mem_filter.mp hr).1

/-- C28 on the sample settings and form: the rule is appended with its name
trimmed, and removing the rule 17 leaves no rule. -/
theorem discount_list_sample :
    addDiscount 1700000000000 (fun conditions => conditions) sampleSettings sampleForm =
        .submitted
          { payment_info := "card", price_coefficient := 5,
            discount_rules :=
              [{ id := 17, name := "Spring", type := "percentage", value := 10,
                 conditions := .obj [] },
               { id := 1700000000000, name := "Loyal", type := "fixed", value := 250,
                 conditions := .obj [] }],
            show_discount_on_products := false } ∧
      removeDiscount sampleSettings 17 =
        .submitted
          { payment_info := "card", price_coefficient := 5, discount_rules := [],
            show_discount_on_products := false } ∧
      addDiscount 1 (fun conditions => conditions) sampleSettings
          { name := "Half", type := "percentage", value := 150, conditions := .obj [] } =
        .alerted "Процентная скидка не может превышать 100%" := by
  have hloyal : jsTrim "  Loyal  " = "Loyal" := by decide
  have hhalf : jsTrim "Half" = "Half" := by decide
  refine ⟨?_, ?_, ?_⟩
  · simp [addDiscount, sampleSettings, sampleForm, hloyal]
  · simp [removeDiscount, sampleSettings]
  · simp [addDiscount, hhalf]
    norm_num

end Discounts

end Backup
